import Mathlib

/-!
# Block subround of the BLS consensus (`consensus/spos/bls/subroundBlock.go`)

A shallow embedding of the Block subround.  The subround's methods become
functions that pass an explicit `World` (the consensus state, the chain tip,
the round clock and the trace of the calls made to the collaborators).  The
collaborators (marshalizer, hasher, signer, block processor, broadcast
messenger) are the fields of an `Env`; the ones whose answer may change from
one call to the next receive the trace of the calls made so far.
-/

namespace SubroundBlock

/-! ## Data model -/

/-- A Go byte slice (also a Go string, such as a public key used as map key). -/
abbrev Bytes := List Nat

/-- The header fields the subround reads or writes through `data.HeaderHandler`;
the rest of the header is `payload`. -/
structure Header where
  nonce : Nat
  prevHash : Bytes
  prevRandSeed : Bytes
  randSeed : Bytes
  round : Nat
  shardId : Nat
  timeStamp : Nat
  chainID : Bytes
  payload : Bytes
  deriving DecidableEq, Repr

/-- A non-nil `data.BodyHandler`: either the concrete `block.Body` the send
helpers assert, or some other implementation of the interface. -/
inductive BodyHandler where
  | blockBody (miniBlocks : Bytes)
  | otherBody (raw : Bytes)
  deriving DecidableEq, Repr

/-- The message types of the Block subround (constants of the `bls` package). -/
inductive MessageType where
  | mtUnknown
  | mtBlockBodyAndHeader
  | mtBlockBody
  | mtBlockHeader
  | mtSignature
  | mtBlockHeaderFinalInfo
  deriving DecidableEq, Repr

/-- The `consensus.Message`, with the fields in the order of
`consensus.NewConsensusMessage`; `none` is Go's `nil`. -/
structure Message where
  blockHeaderHash : Option Bytes
  signatureShare : Option Bytes
  body : Option BodyHandler
  header : Option Header
  pubKey : Bytes
  signature : Option Bytes
  msgType : MessageType
  roundIndex : Int
  chainID : Bytes
  pubKeysBitmap : Option Bytes
  aggregateSignature : Option Bytes
  leaderSignature : Option Bytes
  deriving DecidableEq, Repr

/-- The status of a subround (`spos.SubroundStatus`). -/
inductive SubroundStatus where
  | ssNotFinished
  | ssExtended
  | ssFinished
  deriving DecidableEq, Repr

/-- The two metrics the subround reports. -/
inductive Metric where
  | createdProposedBlock
  | processedProposedBlock
  deriving DecidableEq, Repr

/-- One call to a collaborator, with what it was given and whether it succeeded. -/
inductive Event where
  | createBlock (hdr : Header) (ok : Bool)
  | processBlock (hdr : Header) (body : BodyHandler) (ok : Bool)
  | broadcast (msg : Message) (ok : Bool)
  | metric (name : Metric)
  deriving DecidableEq, Repr

/-- What `BlockProcessor.ProcessBlock` answers: whether it returned a nil error,
and the round index the round clock shows once it has returned. -/
structure ProcessOutcome where
  ok : Bool
  roundIndexAfter : Int
  deriving DecidableEq, Repr

/-- The collaborators of the subround. -/
structure Env where
  marshalBody : BodyHandler → Option Bytes
  marshalHeader : Header → Option Bytes
  hash : Bytes → Bytes
  sign : Bytes → Bytes → Except String Bytes
  createNewHeader : Nat → Header
  createBlock : List Event → Header → Option (Header × BodyHandler)
  processBlock : List Event → Header → BodyHandler → ProcessOutcome
  broadcast : List Event → Message → Bool

/-- The per-round `spos.ConsensusState`. -/
structure ConsensusState where
  data : Option Bytes
  body : Option BodyHandler
  header : Option Header
  consensusGroup : List Bytes
  selfPubKey : Bytes
  jobDone : Bytes → Int → Bool
  status : Int → SubroundStatus
  roundCanceled : Bool
  extendedCalled : Bool
  processingBlock : Bool

/-- The chain tip accessor (`data.ChainHandler`). -/
structure Blockchain where
  currentBlockHeader : Option Header
  currentBlockHeaderHash : Bytes
  genesisHeader : Header
  genesisHeaderHash : Bytes
  deriving DecidableEq, Repr

/-- The configuration of the subround (`spos.Subround` and `subroundBlock`). -/
structure Subround where
  current : Int
  startTime : Int
  endTime : Int
  chainID : Bytes
  shardId : Nat
  privateKey : Bytes
  threshold : Int → Int
  processingThresholdPercentage : Int

/-- Everything a method of the subround reads or writes. -/
structure World where
  cs : ConsensusState
  chain : Blockchain
  roundIndex : Int
  roundTimeStamp : Int
  trace : List Event

/-! ## Machine integers -/

/-- Go's `uint32(x)` of an `int`. -/
def toUint32 (x : Int) : Nat := (x % 4294967296).toNat

/-- Go's `uint64(x)` of an `int64`. -/
def toUint64 (x : Int) : Nat := (x % 18446744073709551616).toNat

/-- Go's `int64(x)` of a `uint64`. -/
def toInt64 (x : Nat) : Int :=
  if x % 18446744073709551616 < 9223372036854775808 then (x % 18446744073709551616 : Nat)
  else ((x % 18446744073709551616 : Nat) : Int) - 18446744073709551616

/-- Modelled from the spec: the constant `core.MegabyteSize`, whose declaration is
not among the sources: `MegabyteSize = 1 << 20`. -/
def megabyteSize : Nat := 1 <<< 20

/-- The constant `maxAllowedSizeInBytes = uint32(core.MegabyteSize * 95 / 100)`. -/
def maxAllowedSizeInBytes : Nat := toUint32 ((megabyteSize * 95 / 100 : Nat) : Int)

/-! ## The consensus state's accessors -/

/-- Modelled from the spec: `GetLeader` of the consensus state, which is not
among the sources.  Element 0 of the consensus group is the designated leader;
an empty group has none. -/
def getLeader (cs : ConsensusState) : Option Bytes := cs.consensusGroup.head?

/-- Modelled from the spec: `IsNodeLeaderInCurrentRound`, not among the sources:
the node is element 0 of the consensus group. -/
def isNodeLeaderInCurrentRound (cs : ConsensusState) (node : Bytes) : Bool :=
  match getLeader cs with
  | none => false
  | some leader => decide (leader = node)

/-- Modelled from the spec: `IsSelfLeaderInCurrentRound`, not among the sources:
this node is the leader of the round. -/
def isSelfLeaderInCurrentRound (cs : ConsensusState) : Bool :=
  isNodeLeaderInCurrentRound cs cs.selfPubKey

/-- Modelled from the spec: `JobDone`, not among the sources: the flag
`jobDone[node, subroundId]`; the error result seen at the call site is a key
that is not a member of the consensus group. -/
def jobDoneOf (cs : ConsensusState) (node : Bytes) (subroundId : Int) : Option Bool :=
  if node ∈ cs.consensusGroup then some (cs.jobDone node subroundId) else none

/-- Modelled from the spec: `SetJobDone`, not among the sources: writes
`jobDone[node, subroundId]`; the error result seen at the call sites is a key
that is not a member of the consensus group. -/
def setJobDone (cs : ConsensusState) (node : Bytes) (subroundId : Int) (value : Bool) :
    Option ConsensusState :=
  if node ∈ cs.consensusGroup then
    some { cs with
      jobDone := fun n s => if n = node ∧ s = subroundId then value else cs.jobDone n s }
  else none

/-- Modelled from the spec: `SetSelfJobDone`, not among the sources: `SetJobDone`
for this node's key. -/
def setSelfJobDone (cs : ConsensusState) (subroundId : Int) (value : Bool) :
    Option ConsensusState :=
  setJobDone cs cs.selfPubKey subroundId value

/-- Modelled from the spec: `IsSelfJobDone`, not among the sources: the flag
`jobDone[self, subroundId]`. -/
def isSelfJobDone (cs : ConsensusState) (subroundId : Int) : Bool :=
  cs.jobDone cs.selfPubKey subroundId

/-- Modelled from the spec: `IsSubroundFinished`, not among the sources:
`status[subroundId] = Finished`. -/
def isSubroundFinished (cs : ConsensusState) (subroundId : Int) : Bool :=
  decide (cs.status subroundId = SubroundStatus.ssFinished)

/-- Modelled from the spec: `SetStatus`, not among the sources: writes
`status[subroundId]`. -/
def setStatus (cs : ConsensusState) (subroundId : Int) (st : SubroundStatus) : ConsensusState :=
  { cs with status := fun s => if s = subroundId then st else cs.status s }

/-- Modelled from the spec: `IsConsensusDataSet`, not among the sources: the
"already received" guard of `data`. -/
def isConsensusDataSet (cs : ConsensusState) : Bool := cs.data.isSome

/-- Modelled from the spec: `IsBlockBodyAlreadyReceived`, not among the sources:
the "already received" guard of `body`. -/
def isBlockBodyAlreadyReceived (cs : ConsensusState) : Bool := cs.body.isSome

/-- Modelled from the spec: `IsHeaderAlreadyReceived`, not among the sources:
the "already received" guard of `header`. -/
def isHeaderAlreadyReceived (cs : ConsensusState) : Bool := cs.header.isSome

/-- The subround a message type belongs to, relative to the Block subround
`block`: the three block message types belong to it. -/
def MessageType.isBlockType : MessageType → Bool
  | .mtBlockBodyAndHeader => true
  | .mtBlockBody => true
  | .mtBlockHeader => true
  | _ => false

/-- Modelled from the spec: `CanProcessReceivedMessage` (the generic admission),
not among the sources: the message's round index equals the current round
index, the message is one of the Block subround, and it has not been processed
before, which is to say the sender's job in the subround is not done yet. -/
def canProcessReceivedMessage (cs : ConsensusState) (cnsDta : Message)
    (currentRoundIndex : Int) (currentSubroundId : Int) : Bool :=
  decide (cnsDta.roundIndex = currentRoundIndex) && cnsDta.msgType.isBlockType &&
    !cs.jobDone cnsDta.pubKey currentSubroundId

/-- The setter `SetProcessingBlock` of the consensus state. -/
def setProcessingBlock (w : World) (value : Bool) : World :=
  { w with cs := { w.cs with processingBlock := value } }

/-- Appends one call to the trace. -/
def World.log (w : World) (e : Event) : World := { w with trace := w.trace ++ [e] }

/-- Modelled from the spec: `core.CalculateHash`, not among the sources:
`hash(x) = compute(marshal(x))`, with the marshalizer's error propagated. -/
def calculateHash (env : Env) (header : Header) : Option Bytes :=
  (env.marshalHeader header).map env.hash

/-! ## The subround's methods -/

/-- The method `getRoundInLastCommittedBlock`. -/
def getRoundInLastCommittedBlock (chain : Blockchain) : Int :=
  match chain.currentBlockHeader with
  | none => 0
  | some hdr => toInt64 hdr.round

/-- The method `computeSubroundProcessingMetric`; the reported percentage is
measured on the wall clock and is not part of the trace. -/
def computeSubroundProcessingMetric (sr : Subround) (metric : Metric) (w : World) : World :=
  if sr.endTime - sr.startTime = 0 then w else w.log (Event.metric metric)

/-- The method `couldBeSentTogether`. -/
def couldBeSentTogether (env : Env) (body : BodyHandler) (header : Header) : Bool :=
  match env.marshalBody body with
  | none => false
  | some marshalizedBody =>
    match env.marshalHeader header with
    | none => false
    | some marshalizedHeader =>
      let bodyAndHeaderSize :=
        toUint32 ((marshalizedBody.length : Int) + (marshalizedHeader.length : Int))
      decide (bodyAndHeaderSize ≤ maxAllowedSizeInBytes)

/-- The method `createBlock`: the call to `BlockProcessor.CreateBlock`. -/
def createBlock (env : Env) (w : World) (header : Header) :
    Option (Header × BodyHandler) × World :=
  match env.createBlock w.trace header with
  | none => (none, w.log (Event.createBlock header false))
  | some (finalHeader, blockBody) =>
    (some (finalHeader, blockBody), w.log (Event.createBlock header true))

/-- The message `sendBlockBodyAndHeader` builds. -/
def bodyAndHeaderMessage (sr : Subround) (w : World) (headerHash : Bytes)
    (body : BodyHandler) (header : Header) : Message :=
  ⟨some headerHash, none, some body, some header, w.cs.selfPubKey, none,
    MessageType.mtBlockBodyAndHeader, w.roundIndex, sr.chainID, none, none, none⟩

/-- The message `sendBlockBody` builds. -/
def bodyMessage (sr : Subround) (w : World) (body : BodyHandler) : Message :=
  ⟨none, none, some body, none, w.cs.selfPubKey, none,
    MessageType.mtBlockBody, w.roundIndex, sr.chainID, none, none, none⟩

/-- The message `sendBlockHeader` builds. -/
def headerMessage (sr : Subround) (w : World) (headerHash : Bytes) (header : Header) : Message :=
  ⟨some headerHash, none, none, some header, w.cs.selfPubKey, none,
    MessageType.mtBlockHeader, w.roundIndex, sr.chainID, none, none, none⟩

/-- The method `sendBlockBodyAndHeader`. -/
def sendBlockBodyAndHeader (env : Env) (sr : Subround) (w : World)
    (bodyHandler : BodyHandler) (headerHandler : Header) : Bool × World :=
  match calculateHash env headerHandler with
  | none => (false, w)
  | some headerHash =>
    match bodyHandler with
    | BodyHandler.otherBody _ => (false, w)
    | BodyHandler.blockBody mbs =>
      let cnsMsg := bodyAndHeaderMessage sr w headerHash (BodyHandler.blockBody mbs) headerHandler
      if env.broadcast w.trace cnsMsg then
        let w1 := w.log (Event.broadcast cnsMsg true)
        (true, { w1 with cs := { w1.cs with
          data := some headerHash, body := some bodyHandler, header := some headerHandler } })
      else (false, w.log (Event.broadcast cnsMsg false))

/-- The method `sendBlockBody`. -/
def sendBlockBody (env : Env) (sr : Subround) (w : World) (bodyHandler : BodyHandler) :
    Bool × World :=
  match bodyHandler with
  | BodyHandler.otherBody _ => (false, w)
  | BodyHandler.blockBody mbs =>
    let cnsMsg := bodyMessage sr w (BodyHandler.blockBody mbs)
    if env.broadcast w.trace cnsMsg then
      let w1 := w.log (Event.broadcast cnsMsg true)
      (true, { w1 with cs := { w1.cs with body := some bodyHandler } })
    else (false, w.log (Event.broadcast cnsMsg false))

/-- The method `sendBlockHeader`. -/
def sendBlockHeader (env : Env) (sr : Subround) (w : World) (headerHandler : Header) :
    Bool × World :=
  match calculateHash env headerHandler with
  | none => (false, w)
  | some headerHash =>
    let cnsMsg := headerMessage sr w headerHash headerHandler
    if env.broadcast w.trace cnsMsg then
      let w1 := w.log (Event.broadcast cnsMsg true)
      (true, { w1 with cs := { w1.cs with data := some headerHash, header := some headerHandler } })
    else (false, w.log (Event.broadcast cnsMsg false))

/-- The method `sendBlock`. -/
def sendBlock (env : Env) (sr : Subround) (w : World) (body : BodyHandler) (header : Header) :
    Bool × World :=
  if couldBeSentTogether env body header then sendBlockBodyAndHeader env sr w body header
  else
    let rb := sendBlockBody env sr w body
    if !rb.1 then (false, rb.2)
    else
      let rh := sendBlockHeader env sr rb.2 header
      if !rh.1 then (false, rh.2) else (true, rh.2)

/-- The method `createHeader`. -/
def createHeader (env : Env) (sr : Subround) (w : World) : Except String Header :=
  let hdr := env.createNewHeader (toUint64 w.roundIndex)
  let step : Header × Bytes :=
    match w.chain.currentBlockHeader with
    | none =>
      ({ hdr with nonce := 1, prevHash := w.chain.genesisHeaderHash },
        w.chain.genesisHeader.randSeed)
    | some cur =>
      ({ hdr with nonce := (cur.nonce + 1) % 18446744073709551616,
                  prevHash := w.chain.currentBlockHeaderHash },
        cur.randSeed)
  let prevRandSeed := step.2
  match env.sign sr.privateKey prevRandSeed with
  | Except.error err => Except.error err
  | Except.ok randSeed =>
    Except.ok { step.1 with
      shardId := sr.shardId,
      round := toUint64 w.roundIndex,
      timeStamp := toUint64 w.roundTimeStamp,
      prevRandSeed := prevRandSeed,
      randSeed := randSeed,
      chainID := sr.chainID }

/-- The part of `doBlockJob` that runs once the preconditions hold and the
metric has been deferred. -/
def doBlockJobCore (env : Env) (sr : Subround) (w : World) : Bool × World :=
  match createHeader env sr w with
  | Except.error _ => (false, w)
  | Except.ok header0 =>
    match createBlock env w header0 with
    | (none, w1) => (false, w1)
    | (some (header, body), w1) =>
      let sent := sendBlock env sr w1 body header
      if !sent.1 then (false, sent.2)
      else
        match setSelfJobDone sent.2.cs sr.current true with
        | none => (false, sent.2)
        | some cs => (true, { sent.2 with cs := cs })

/-- The method `doBlockJob`. -/
def doBlockJob (env : Env) (sr : Subround) (w : World) : Bool × World :=
  if !isSelfLeaderInCurrentRound w.cs then (false, w)
  else if w.roundIndex ≤ getRoundInLastCommittedBlock w.chain then (false, w)
  else if isSelfJobDone w.cs sr.current then (false, w)
  else if isSubroundFinished w.cs sr.current then (false, w)
  else
    let r := doBlockJobCore env sr w
    (r.1, computeSubroundProcessingMetric sr Metric.createdProposedBlock r.2)

/-- The part of `processReceivedBlock` between setting and clearing the
`processingBlock` flag. -/
def processReceivedBlockCore (env : Env) (sr : Subround) (w : World) (cnsDta : Message)
    (header : Header) (body : BodyHandler) : Bool × World :=
  let shouldNotProcessBlock := w.cs.extendedCalled || decide (cnsDta.roundIndex < w.roundIndex)
  if shouldNotProcessBlock then (false, w)
  else
    let node := cnsDta.pubKey
    let out := env.processBlock w.trace header body
    let w1 : World :=
      { w.log (Event.processBlock header body out.ok) with roundIndex := out.roundIndexAfter }
    let r : Bool × World :=
      if cnsDta.roundIndex < w1.roundIndex then (false, w1)
      else if !out.ok then (false, { w1 with cs := { w1.cs with roundCanceled := true } })
      else
        match setJobDone w1.cs node sr.current true with
        | none => (false, w1)
        | some cs => (true, { w1 with cs := cs })
    (r.1, computeSubroundProcessingMetric sr Metric.processedProposedBlock r.2)

/-- The method `processReceivedBlock`. -/
def processReceivedBlock (env : Env) (sr : Subround) (w : World) (cnsDta : Message) :
    Bool × World :=
  match w.cs.body with
  | none => (false, w)
  | some body =>
    match w.cs.header with
    | none => (false, w)
    | some header =>
      let r := processReceivedBlockCore env sr (setProcessingBlock w true) cnsDta header body
      (r.1, setProcessingBlock r.2 false)

/-- The method `receivedBlockBodyAndHeader`. -/
def receivedBlockBodyAndHeader (env : Env) (sr : Subround) (w : World) (cnsDta : Message) :
    Bool × World :=
  let node := cnsDta.pubKey
  if isConsensusDataSet w.cs then (false, w)
  else if isBlockBodyAlreadyReceived w.cs then (false, w)
  else if isHeaderAlreadyReceived w.cs then (false, w)
  else if !isNodeLeaderInCurrentRound w.cs node then (false, w)
  else if !canProcessReceivedMessage w.cs cnsDta w.roundIndex sr.current then (false, w)
  else
    let w1 : World := { w with cs := { w.cs with
      data := cnsDta.blockHeaderHash, body := cnsDta.body, header := cnsDta.header } }
    if w1.cs.data.isNone || w1.cs.body.isNone || w1.cs.header.isNone then (false, w1)
    else processReceivedBlock env sr w1 cnsDta

/-- The method `receivedBlockBody`. -/
def receivedBlockBody (env : Env) (sr : Subround) (w : World) (cnsDta : Message) :
    Bool × World :=
  let node := cnsDta.pubKey
  if isBlockBodyAlreadyReceived w.cs then (false, w)
  else if !isNodeLeaderInCurrentRound w.cs node then (false, w)
  else if !canProcessReceivedMessage w.cs cnsDta w.roundIndex sr.current then (false, w)
  else
    let w1 : World := { w with cs := { w.cs with body := cnsDta.body } }
    if w1.cs.body.isNone then (false, w1)
    else processReceivedBlock env sr w1 cnsDta

/-- The method `receivedBlockHeader`. -/
def receivedBlockHeader (env : Env) (sr : Subround) (w : World) (cnsDta : Message) :
    Bool × World :=
  let node := cnsDta.pubKey
  if isConsensusDataSet w.cs then (false, w)
  else if isHeaderAlreadyReceived w.cs then (false, w)
  else if !isNodeLeaderInCurrentRound w.cs node then (false, w)
  else if !canProcessReceivedMessage w.cs cnsDta w.roundIndex sr.current then (false, w)
  else
    let w1 : World := { w with cs := { w.cs with
      data := cnsDta.blockHeaderHash, header := cnsDta.header } }
    if w1.cs.data.isNone || w1.cs.header.isNone then (false, w1)
    else processReceivedBlock env sr w1 cnsDta

/-- The loop of `isBlockReceived` over the consensus group, from the members
still to visit and the count `n` so far. -/
def isBlockReceivedLoop (cs : ConsensusState) (subroundId : Int) : List Bytes → Int → Int
  | [], n => n
  | node :: rest, n =>
    match jobDoneOf cs node subroundId with
    | none => isBlockReceivedLoop cs subroundId rest n
    | some isJobDone =>
      if isJobDone then isBlockReceivedLoop cs subroundId rest (n + 1)
      else isBlockReceivedLoop cs subroundId rest n

/-- The method `isBlockReceived`. -/
def isBlockReceived (sr : Subround) (cs : ConsensusState) (threshold : Int) : Bool :=
  decide (isBlockReceivedLoop cs sr.current cs.consensusGroup 0 ≥ threshold)

/-- The method `doBlockConsensusCheck`. -/
def doBlockConsensusCheck (sr : Subround) (w : World) : Bool × World :=
  if w.cs.roundCanceled then (false, w)
  else if isSubroundFinished w.cs sr.current then (true, w)
  else
    let threshold := sr.threshold sr.current
    if isBlockReceived sr w.cs threshold then
      (true, { w with cs := setStatus w.cs sr.current SubroundStatus.ssFinished })
    else (false, w)

/-- The two consensus states agree on everything but the three slots `data`,
`body` and `header`. -/
def SameFlags (a b : ConsensusState) : Prop :=
  a.consensusGroup = b.consensusGroup ∧ a.selfPubKey = b.selfPubKey ∧
  a.jobDone = b.jobDone ∧ a.status = b.status ∧ a.roundCanceled = b.roundCanceled ∧
  a.extendedCalled = b.extendedCalled ∧ a.processingBlock = b.processingBlock

/-- What a receive callback that returned `r` from the world `w`, on a message
of the sender `node`, may have changed apart from the three slots, the
`processingBlock` flag and the trace: nothing but `roundCanceled` when it
returned false, nothing but the job of the sender, now done, when it returned
true. -/
def RecvFrame (sr : Subround) (w : World) (node : Bytes) (r : Bool × World) : Prop :=
  r.2.cs.consensusGroup = w.cs.consensusGroup ∧ r.2.cs.selfPubKey = w.cs.selfPubKey ∧
  r.2.cs.status = w.cs.status ∧ r.2.cs.extendedCalled = w.cs.extendedCalled ∧
  r.2.chain = w.chain ∧
  ((r.1 = false ∧ r.2.cs.jobDone = w.cs.jobDone) ∨
   (r.1 = true ∧ node ∈ w.cs.consensusGroup ∧ r.2.cs.roundCanceled = w.cs.roundCanceled ∧
     r.2.cs.jobDone
       = fun n s => if n = node ∧ s = sr.current then true else w.cs.jobDone n s))

/-- The invariant behind the soundness of the check: in the subround, only the
job of the leader is ever done, and the subround is finished only once the job
of the leader is done. -/
def LeaderInv (sr : Subround) (cs : ConsensusState) : Prop :=
  (∀ node, cs.jobDone node sr.current = true → getLeader cs = some node) ∧
  (cs.status sr.current = SubroundStatus.ssFinished →
    ∃ leader, getLeader cs = some leader ∧ cs.jobDone leader sr.current = true)

/-- The world right after the call to `ProcessBlock`. -/
def afterProcessBlock (env : Env) (w : World) (header : Header) (body : BodyHandler) : World :=
  { w.log (Event.processBlock header body (env.processBlock w.trace header body).ok) with
    roundIndex := (env.processBlock w.trace header body).roundIndexAfter }

/-! ## Sequences of operations -/

/-- One invocation made by the host of the subround. -/
inductive Op where
  | job
  | recvBodyAndHeader (cnsDta : Message)
  | recvBody (cnsDta : Message)
  | recvHeader (cnsDta : Message)
  | check

/-- Whether the invocation is one of the three receive callbacks. -/
def Op.isReceive : Op → Bool
  | .recvBodyAndHeader _ => true
  | .recvBody _ => true
  | .recvHeader _ => true
  | _ => false

/-- Whether the invocation is the leader job. -/
def Op.isJob : Op → Bool
  | .job => true
  | _ => false

/-- Runs one invocation. -/
def step (env : Env) (sr : Subround) (w : World) : Op → Bool × World
  | .job => doBlockJob env sr w
  | .recvBodyAndHeader m => receivedBlockBodyAndHeader env sr w m
  | .recvBody m => receivedBlockBody env sr w m
  | .recvHeader m => receivedBlockHeader env sr w m
  | .check => doBlockConsensusCheck sr w

/-- Runs a sequence of invocations, one after the other, within one round. -/
def run (env : Env) (sr : Subround) (w : World) : List Op → World
  | [] => w
  | op :: ops => run env sr (step env sr w op).2 ops

/-- A consensus state at the start of a round for the subround `subroundId`:
no job done, the subround not finished, and the three slots empty. -/
def ConsensusState.Fresh (cs : ConsensusState) (subroundId : Int) : Prop :=
  (∀ node, cs.jobDone node subroundId = false) ∧
  cs.status subroundId ≠ SubroundStatus.ssFinished ∧
  cs.data = none ∧ cs.body = none ∧ cs.header = none

/-- The three ways a receive callback ends: at a guard, with the world as it
was; after storing what the message carries, some of it missing; or in
`processReceivedBlock`, run on the world with what the message carries stored.
The stores touch the three slots only. -/
def RecvShape (env : Env) (sr : Subround) (w : World) (cnsDta : Message)
    (r : Bool × World) : Prop :=
  r = (false, w) ∨
  ∃ w1 : World, SameFlags w1.cs w.cs ∧ w1.trace = w.trace ∧
    (r = (false, w1) ∨ r = processReceivedBlock env sr w1 cnsDta)

/-- Whether the entry of the trace is a call to `ProcessBlock`. -/
def Event.isProcessBlock : Event → Bool
  | .processBlock _ _ _ => true
  | _ => false

/-- The number of calls to `ProcessBlock` in a trace. -/
def processBlockCalls (t : List Event) : Nat := t.countP Event.isProcessBlock

/-- The number of invocations of a sequence that return true. -/
def trueResults (env : Env) (sr : Subround) (w : World) : List Op → Nat
  | [] => 0
  | op :: ops =>
    (if (step env sr w op).1 then 1 else 0) + trueResults env sr (step env sr w op).2 ops

/-- Whether the four preconditions of `doBlockJob` hold in the world `w`. -/
def jobPasses (sr : Subround) (w : World) : Bool :=
  isSelfLeaderInCurrentRound w.cs &&
    !decide (w.roundIndex ≤ getRoundInLastCommittedBlock w.chain) &&
    !isSelfJobDone w.cs sr.current && !isSubroundFinished w.cs sr.current

/-- Whether every `doBlockJob` of the sequence that passes its preconditions
finds the slot told by `slotSet` empty. -/
def jobsSpare (env : Env) (sr : Subround) (slotSet : ConsensusState → Bool) :
    World → List Op → Bool
  | _, [] => true
  | w, op :: ops =>
    (!(op.isJob && jobPasses sr w) || !slotSet w.cs) &&
      jobsSpare env sr slotSet (step env sr w op).2 ops

/-! ## Sample values -/

/-- A header with every field zero. -/
def zeroHeader : Header := ⟨0, [], [], [], 0, 0, 0, [], []⟩

/-- A consensus state at the start of a round, for the group `group` and the
node `self`. -/
def freshState (group : List Bytes) (self : Bytes) : ConsensusState :=
  { data := none, body := none, header := none, consensusGroup := group, selfPubKey := self,
    jobDone := fun _ _ => false, status := fun _ => SubroundStatus.ssNotFinished,
    roundCanceled := false, extendedCalled := false, processingBlock := false }

/-- A world at the start of round `r`, with no committed block. -/
def freshWorld (group : List Bytes) (self : Bytes) (r : Int) : World :=
  { cs := freshState group self,
    chain := ⟨none, [], zeroHeader, [7]⟩,
    roundIndex := r, roundTimeStamp := 1000, trace := [] }

/-- A subround configuration: the Block subround has id 1 and threshold 1. -/
def sampleSubround : Subround :=
  { current := 1, startTime := 0, endTime := 25, chainID := [1], shardId := 0,
    privateKey := [42], threshold := fun _ => 1, processingThresholdPercentage := 85 }

/-- Collaborators that always succeed: marshaling is the payload (the
mini-blocks), the hash prepends a byte, the block processor returns the header
it was given and a body made of the number of calls so far. -/
def sampleEnv : Env :=
  { marshalBody := fun b => match b with
      | BodyHandler.blockBody mbs => some mbs
      | BodyHandler.otherBody raw => some raw
    marshalHeader := fun h => some h.payload
    hash := fun bs => 0 :: bs
    sign := fun _ msg => Except.ok (1 :: msg)
    createNewHeader := fun _ => zeroHeader
    createBlock := fun t h => some (h, BodyHandler.blockBody [t.length])
    processBlock := fun _ _ _ => ⟨true, 5⟩
    broadcast := fun _ _ => true }

/-- The collaborators of `sampleEnv` with a marshalizer that produces
4294967196 bytes for a body and 200 bytes for a header. -/
def hugeBodyEnv : Env :=
  { sampleEnv with
    marshalBody := fun _ => some (List.replicate 4294967196 0)
    marshalHeader := fun _ => some (List.replicate 200 0) }

/-- The collaborators of `sampleEnv` with a marshalizer that fails on bodies. -/
def bodyMarshalFailsEnv : Env :=
  { sampleEnv with marshalBody := fun _ => none }

/-- The collaborators of `bodyMarshalFailsEnv` with a broadcast messenger that
delivers body messages only. -/
def headerBroadcastFailsEnv : Env :=
  { bodyMarshalFailsEnv with
    broadcast := fun _ m => decide (m.msgType = MessageType.mtBlockBody) }

/-- A validator world of round `r` that already holds the block of the leader:
`data`, `body` and `header` are set, and `extended` says whether the extension
of the subround has been called. -/
def heldBlockWorld (extended : Bool) (r : Int) : World :=
  { freshWorld [[1], [2]] [2] r with
    cs := { freshState [[1], [2]] [2] with
      data := some [9], body := some (BodyHandler.blockBody [3]), header := some zeroHeader,
      extendedCalled := extended } }

/-- The collaborators of `sampleEnv` with a block processor whose `ProcessBlock`
returns an error, the round index staying 5. -/
def processFailsEnv : Env :=
  { sampleEnv with processBlock := fun _ _ _ => ⟨false, 5⟩ }

/-- A header-only message of the leader `[1]` for round `r`. -/
def leaderHeaderMessage (r : Int) : Message :=
  ⟨some [9], none, none, some zeroHeader, [1], none, MessageType.mtBlockHeader, r, [1],
    none, none, none⟩

/-- A body-only message of the leader `[1]` for round `r`. -/
def leaderBodyMessage (r : Int) : Message :=
  ⟨none, none, some (BodyHandler.blockBody [3]), none, [1], none, MessageType.mtBlockBody, r,
    [1], none, none, none⟩

/-- A combined message of the leader `[1]` for round `r`. -/
def leaderCombinedMessage (r : Int) : Message :=
  ⟨some [9], none, some (BodyHandler.blockBody [3]), some zeroHeader, [1], none,
    MessageType.mtBlockBodyAndHeader, r, [1], none, none, none⟩

/-- A leader world of round 5 whose chain tip has the largest nonce a header can
hold, 2^64 - 1. -/
def maxNonceWorld : World :=
  { freshWorld [[1], [2]] [1] 5 with
    chain := ⟨some { zeroHeader with nonce := 18446744073709551615 }, [8], zeroHeader, [7]⟩ }

/-- A header-only message of the leader `[1]` for round `r` that carries a
header but no header hash. -/
def leaderHeaderMessageNoHash (r : Int) : Message :=
  ⟨none, none, none, some zeroHeader, [1], none, MessageType.mtBlockHeader, r, [1],
    none, none, none⟩

/-- A leader world of round 5 whose chain tip has the round 2^63. -/
def wrappedRoundWorld : World :=
  { freshWorld [[1], [2]] [1] 5 with
    chain := ⟨some { zeroHeader with round := 9223372036854775808 }, [8], zeroHeader, [7]⟩ }

end SubroundBlock

/-!
# Accounts processor of the indexer (`core/indexer/process/accounts/accountsProcessor.go`)

The altered accounts, a Go map, are given as the list of its entries in the
order the `range` loop visits them; a `nil` pointer is `none`, and a run that
dereferences one ends in a `Fault`.
-/

namespace AccountsIndexer

/-- A Go byte slice. -/
abbrev Bytes := List Nat

/-- A `float64`, by its bits; floating-point arithmetic is not modelled. -/
structure Float64 where
  bits : Nat
  deriving DecidableEq, Repr

/-- The run-time panic of a failed run. -/
inductive Fault where
  | nilPointerDereference
  deriving DecidableEq, Repr

/-- The fields of `esdt.ESDigitalToken` the processor reads; `value` is a
`*big.Int`. -/
structure ESDigitalToken where
  value : Option Int
  properties : Bytes
  deriving DecidableEq, Repr

/-- What the processor reads of a `state.UserAccountHandler`; `retrieveValue` is
`DataTrieTracker().RetrieveValue`, `none` standing for its error. -/
structure UserAccount where
  addressBytes : Bytes
  nonce : Nat
  balance : Int
  retrieveValue : String → Option Bytes

/-- A `state.AccountHandler`: a user account, or an account of another kind,
which the cast to `state.UserAccountHandler` rejects. -/
inductive AccountHandler where
  | userAccount (account : UserAccount)
  | otherAccount (raw : Bytes)

/-- The structure `WrappedUserAccount`. -/
structure WrappedUserAccount where
  account : UserAccount
  tokenIdentifier : String

/-- The structure `AlteredAccount`. -/
structure AlteredAccount where
  isESDTSender : Bool
  isESDTOperation : Bool
  tokenIdentifier : String
  deriving DecidableEq, Repr

/-- The fields of `types.AccountInfo` the processor sets. -/
structure AccountInfo where
  address : String
  nonce : Nat
  balance : String
  balanceNum : Float64
  tokenIdentifier : String
  properties : String
  deriving DecidableEq, Repr

/-- The structure `AccountsProcessor`: the public key converter, the accounts
adapter and the marshalizer, the floating-point conversion of a balance
(`computeBalanceAsFloat` on a balance that is not `nil`), and the two constants
of the `core` package that make the key of a token. -/
structure AccountsProcessor where
  decode : String → Option Bytes
  encode : Bytes → String
  loadAccount : Bytes → Option AccountHandler
  unmarshal : Bytes → Option ESDigitalToken
  floatOfBalance : Int → Float64
  elrondProtectedKeyPrefix : String
  esdtKeyIdentifier : String

/-- One hexadecimal digit, in lower case. -/
def hexDigit (n : Nat) : Char :=
  if n < 10 then Char.ofNat (48 + n) else Char.ofNat (87 + n)

/-- Go's `hex.EncodeToString`. -/
def hexEncodeToString (bs : Bytes) : String :=
  String.mk (bs.flatMap fun b => [hexDigit (b % 256 / 16), hexDigit (b % 16)])

/-- Go's `(*big.Int).String`, which prints a `nil` receiver as `<nil>`. -/
def bigIntString : Option Int → String
  | none => "<nil>"
  | some v => toString v

/-- The loop of `GetAccounts` over the entries still to visit, from the two
lists built so far. -/
def getAccountsLoop (ap : AccountsProcessor) :
    List (String × AlteredAccount) → List UserAccount → List WrappedUserAccount →
      List UserAccount × List WrappedUserAccount
  | [], accountsToIndexEGLD, accountsToIndexESDT => (accountsToIndexEGLD, accountsToIndexESDT)
  | (address, info) :: rest, accountsToIndexEGLD, accountsToIndexESDT =>
    match ap.decode address with
    | none => getAccountsLoop ap rest accountsToIndexEGLD accountsToIndexESDT
    | some addressBytes =>
      match ap.loadAccount addressBytes with
      | none => getAccountsLoop ap rest accountsToIndexEGLD accountsToIndexESDT
      | some (AccountHandler.otherAccount _) =>
        getAccountsLoop ap rest accountsToIndexEGLD accountsToIndexESDT
      | some (AccountHandler.userAccount userAccount) =>
        let accountsToIndexESDT1 :=
          if info.isESDTOperation then
            accountsToIndexESDT ++ [⟨userAccount, info.tokenIdentifier⟩]
          else accountsToIndexESDT
        if info.isESDTSender then
          getAccountsLoop ap rest (accountsToIndexEGLD ++ [userAccount]) accountsToIndexESDT1
        else
          getAccountsLoop ap rest (accountsToIndexEGLD ++ [userAccount]) accountsToIndexESDT1

/-- The method `GetAccounts`. -/
def getAccounts (ap : AccountsProcessor) (alteredAccounts : List (String × AlteredAccount)) :
    List UserAccount × List WrappedUserAccount :=
  getAccountsLoop ap alteredAccounts [] []

/-- The user account an address stands for, as the spec puts it: the address
decodes, the account loads, and it is a user account. -/
def resolveUserAccount (ap : AccountsProcessor) (address : String) : Option UserAccount :=
  match ap.decode address with
  | none => none
  | some addressBytes =>
    match ap.loadAccount addressBytes with
    | some (AccountHandler.userAccount userAccount) => some userAccount
    | _ => none

/-- The entry of the token list an altered account gives, as the spec puts it:
the account wrapped with the token identifier, if the address resolves and the
entry is an ESDT operation. -/
def wrappedOfEntry (ap : AccountsProcessor) (entry : String × AlteredAccount) :
    Option WrappedUserAccount :=
  if entry.2.isESDTOperation then
    (resolveUserAccount ap entry.1).map fun userAccount =>
      ⟨userAccount, entry.2.tokenIdentifier⟩
  else none

/-- The entry with its `IsESDTSender` flag replaced. -/
def withSender (sender : String × AlteredAccount → Bool) (entry : String × AlteredAccount) :
    String × AlteredAccount :=
  (entry.1, { entry.2 with isESDTSender := sender entry })

/-- The method `getESDTInfo`: the balance, the properties and the error. -/
def getESDTInfo (ap : AccountsProcessor) (wrappedUserAccount : WrappedUserAccount) :
    Option Int × String × Option String :=
  if wrappedUserAccount.tokenIdentifier = "" then (none, "", none)
  else
    let tokenKey :=
      ap.elrondProtectedKeyPrefix ++ ap.esdtKeyIdentifier ++ wrappedUserAccount.tokenIdentifier
    match wrappedUserAccount.account.retrieveValue tokenKey with
    | none => (none, "", none)
    | some valueBytes =>
      match ap.unmarshal valueBytes with
      | none => (none, "", none)
      | some esdtToken => (esdtToken.value, hexEncodeToString esdtToken.properties, none)

/-- The method `computeBalanceAsFloat`: `big.NewFloat(0).SetInt(balance)` reads
through the pointer `balance`; on a balance that is not `nil` the result is the
floating-point conversion. -/
def computeBalanceAsFloat (ap : AccountsProcessor) (balance : Option Int) :
    Except Fault Float64 :=
  match balance with
  | none => Except.error Fault.nilPointerDereference
  | some value => Except.ok (ap.floatOfBalance value)

/-- The assignment `accountsMap[address] = acc` on a Go map, kept as the list of
its entries. -/
def mapSet (accountsMap : List (String × AccountInfo)) (address : String) (acc : AccountInfo) :
    List (String × AccountInfo) :=
  if accountsMap.any (fun entry => entry.1 == address) then
    accountsMap.map fun entry => if entry.1 = address then (address, acc) else entry
  else accountsMap ++ [(address, acc)]

/-- The loop of `PrepareAccountsMapESDT` over the accounts still to visit, from
the map built so far. -/
def prepareAccountsMapESDTLoop (ap : AccountsProcessor) :
    List WrappedUserAccount → List (String × AccountInfo) →
      Except Fault (List (String × AccountInfo))
  | [], accountsESDTMap => Except.ok accountsESDTMap
  | wrappedUserAccount :: rest, accountsESDTMap =>
    let address := ap.encode wrappedUserAccount.account.addressBytes
    match getESDTInfo ap wrappedUserAccount with
    | (_, _, some _) => prepareAccountsMapESDTLoop ap rest accountsESDTMap
    | (balance, properties, none) =>
      match computeBalanceAsFloat ap balance with
      | Except.error fault => Except.error fault
      | Except.ok balanceNum =>
        let acc : AccountInfo :=
          { address := address, nonce := 0, balance := bigIntString balance,
            balanceNum := balanceNum,
            tokenIdentifier := wrappedUserAccount.tokenIdentifier, properties := properties }
        prepareAccountsMapESDTLoop ap rest (mapSet accountsESDTMap address acc)

/-- The method `PrepareAccountsMapESDT`. -/
def prepareAccountsMapESDT (ap : AccountsProcessor) (accounts : List WrappedUserAccount) :
    Except Fault (List (String × AccountInfo)) :=
  prepareAccountsMapESDTLoop ap accounts []

/-! ## Sample values -/

/-- A user account at the address bytes `[n]` with an empty data trie. -/
def sampleAccount (n : Nat) : UserAccount :=
  { addressBytes := [n], nonce := 0, balance := 100, retrieveValue := fun _ => none }

/-- A user account at the address bytes `[n]` whose data trie answers every key
with the empty value. -/
def sampleAccountWithData (n : Nat) : UserAccount :=
  { addressBytes := [n], nonce := 0, balance := 100, retrieveValue := fun _ => some [] }

/-- A processor whose addresses `"a"` and `"b"` decode and load to the user
accounts at `[1]` and `[2]`, and whose address `"c"` decodes and loads to an
account of another kind. -/
def sampleProcessor : AccountsProcessor :=
  { decode := fun address =>
      if address = "a" then some [1] else if address = "b" then some [2]
      else if address = "c" then some [3] else none
    encode := fun bs => hexEncodeToString bs
    loadAccount := fun bs =>
      if bs = [1] then some (AccountHandler.userAccount (sampleAccount 1))
      else if bs = [2] then some (AccountHandler.userAccount (sampleAccount 2))
      else if bs = [3] then some (AccountHandler.otherAccount [])
      else none
    unmarshal := fun _ => none
    floatOfBalance := fun _ => ⟨0⟩
    elrondProtectedKeyPrefix := "ELROND"
    esdtKeyIdentifier := "esdt" }

end AccountsIndexer

namespace SubroundBlock

/-! ## Lemmas -/

theorem maxAllowedSizeInBytes_eq : maxAllowedSizeInBytes = 996147 := by
  decide

theorem couldBeSentTogether_eq (env : Env) (body : BodyHandler) (header : Header)
    (mb mh : Bytes) (hb : env.marshalBody body = some mb)
    (hh : env.marshalHeader header = some mh) :
    couldBeSentTogether env body header
      = decide ((mb.length + mh.length) % 4294967296 ≤ 996147) := by
  simp only [couldBeSentTogether, hb, hh, maxAllowedSizeInBytes_eq, toUint32]
  have hmod : (((mb.length : Int) + (mh.length : Int)) % 4294967296).toNat
      = (mb.length + mh.length) % 4294967296 := by omega
  rw [hmod]

theorem isBlockReceivedLoop_eq (cs : ConsensusState) (subroundId : Int) (l : List Bytes)
    (hl : ∀ node ∈ l, node ∈ cs.consensusGroup) (n : Int) :
    isBlockReceivedLoop cs subroundId l n
      = n + (l.countP (fun node => cs.jobDone node subroundId) : Nat) := by
  induction l generalizing n with
  | nil => simp [isBlockReceivedLoop]
  | cons node rest ih =>
    have hmem : node ∈ cs.consensusGroup := hl node (List.mem_cons_self _ _)
    have hrest : ∀ x ∈ rest, x ∈ cs.consensusGroup :=
      fun x hx => hl x (List.mem_cons_of_mem _ hx)
    cases hj : cs.jobDone node subroundId with
    | false =>
      simp [isBlockReceivedLoop, jobDoneOf, hmem, hj, ih hrest]
    | true =>
      simp [isBlockReceivedLoop, jobDoneOf, hmem, hj, ih hrest, List.countP_cons]
      omega

theorem isBlockReceived_eq (sr : Subround) (cs : ConsensusState) (threshold : Int) :
    isBlockReceived sr cs threshold
      = decide (threshold ≤
          (cs.consensusGroup.countP (fun node => cs.jobDone node sr.current) : Nat)) := by
  simp [isBlockReceived, isBlockReceivedLoop_eq cs sr.current cs.consensusGroup (fun _ h => h)]

@[simp] theorem World.log_cs (w : World) (e : Event) : (w.log e).cs = w.cs := rfl

@[simp] theorem World.log_trace (w : World) (e : Event) : (w.log e).trace = w.trace ++ [e] := rfl

@[simp] theorem World.log_roundIndex (w : World) (e : Event) :
    (w.log e).roundIndex = w.roundIndex := rfl

@[simp] theorem World.log_chain (w : World) (e : Event) : (w.log e).chain = w.chain := rfl

@[simp] theorem computeSubroundProcessingMetric_cs (sr : Subround) (m : Metric) (w : World) :
    (computeSubroundProcessingMetric sr m w).cs = w.cs := by
  unfold computeSubroundProcessingMetric
  split <;> rfl

@[simp] theorem computeSubroundProcessingMetric_roundIndex (sr : Subround) (m : Metric)
    (w : World) : (computeSubroundProcessingMetric sr m w).roundIndex = w.roundIndex := by
  unfold computeSubroundProcessingMetric
  split <;> rfl

@[simp] theorem computeSubroundProcessingMetric_chain (sr : Subround) (m : Metric)
    (w : World) : (computeSubroundProcessingMetric sr m w).chain = w.chain := by
  unfold computeSubroundProcessingMetric
  split <;> rfl

/-- What a successful `sendBlockBodyAndHeader` leaves in the consensus state. -/
theorem sendBlockBodyAndHeader_true (env : Env) (sr : Subround) (w : World)
    (body : BodyHandler) (header : Header)
    (h : (sendBlockBodyAndHeader env sr w body header).1 = true) :
    ∃ mh, env.marshalHeader header = some mh ∧
      (sendBlockBodyAndHeader env sr w body header).2.cs =
        { w.cs with data := some (env.hash mh), body := some body, header := some header } := by
  unfold sendBlockBodyAndHeader calculateHash at *
  cases hm : env.marshalHeader header with
  | none => simp [hm] at h
  | some mh =>
    refine ⟨mh, rfl, ?_⟩
    cases body with
    | otherBody raw => simp [hm] at h
    | blockBody mbs =>
      simp only [hm, Option.map_some'] at h ⊢
      split at h
      · rename_i hb
        simp [hb]
      · simp at h

/-- What a successful `sendBlockBody` leaves in the consensus state. -/
theorem sendBlockBody_true (env : Env) (sr : Subround) (w : World) (body : BodyHandler)
    (h : (sendBlockBody env sr w body).1 = true) :
    (sendBlockBody env sr w body).2.cs = { w.cs with body := some body } := by
  unfold sendBlockBody at *
  cases body with
  | otherBody raw => simp at h
  | blockBody mbs =>
    simp only at h ⊢
    split at h
    · rename_i hb
      simp [hb]
    · simp at h

/-- What a successful `sendBlockHeader` leaves in the consensus state. -/
theorem sendBlockHeader_true (env : Env) (sr : Subround) (w : World) (header : Header)
    (h : (sendBlockHeader env sr w header).1 = true) :
    ∃ mh, env.marshalHeader header = some mh ∧
      (sendBlockHeader env sr w header).2.cs =
        { w.cs with data := some (env.hash mh), header := some header } := by
  unfold sendBlockHeader calculateHash at *
  cases hm : env.marshalHeader header with
  | none => simp [hm] at h
  | some mh =>
    refine ⟨mh, rfl, ?_⟩
    simp only [hm, Option.map_some'] at h ⊢
    split at h
    · rename_i hb
      simp [hb]
    · simp at h

/-- What a successful `sendBlock` leaves in the consensus state, on either path. -/
theorem sendBlock_true (env : Env) (sr : Subround) (w : World)
    (body : BodyHandler) (header : Header)
    (h : (sendBlock env sr w body header).1 = true) :
    ∃ mh, env.marshalHeader header = some mh ∧
      (sendBlock env sr w body header).2.cs =
        { w.cs with data := some (env.hash mh), body := some body, header := some header } := by
  unfold sendBlock at *
  by_cases hg : couldBeSentTogether env body header = true
  · rw [if_pos hg] at h ⊢
    exact sendBlockBodyAndHeader_true env sr w body header h
  · rw [if_neg hg] at h ⊢
    by_cases hb : (sendBlockBody env sr w body).1 = true
    · simp only [hb, Bool.not_true, Bool.false_eq_true, if_false] at h ⊢
      by_cases hh : (sendBlockHeader env sr (sendBlockBody env sr w body).2 header).1 = true
      · simp only [hh, Bool.not_true, Bool.false_eq_true, if_false] at h ⊢
        obtain ⟨mh, hm, hcs⟩ := sendBlockHeader_true env sr _ header hh
        refine ⟨mh, hm, ?_⟩
        rw [hcs, sendBlockBody_true env sr w body hb]
      · simp [hh] at h
    · simp [hb] at h

/-- What `setJobDone` writes when it succeeds. -/
theorem setJobDone_some (cs cs1 : ConsensusState) (node : Bytes) (subroundId : Int)
    (value : Bool) (h : setJobDone cs node subroundId value = some cs1) :
    node ∈ cs.consensusGroup ∧
    cs1 = { cs with
      jobDone := fun n s => if n = node ∧ s = subroundId then value else cs.jobDone n s } := by
  unfold setJobDone at h
  split at h
  · rename_i hmem
    exact ⟨hmem, (Option.some.inj h).symm⟩
  · simp at h

/-- What a successful `doBlockJobCore` leaves in the consensus state. -/
theorem doBlockJobCore_true (env : Env) (sr : Subround) (w : World)
    (h : (doBlockJobCore env sr w).1 = true) :
    ∃ header0 header body mh,
      createHeader env sr w = Except.ok header0 ∧
      env.createBlock w.trace header0 = some (header, body) ∧
      env.marshalHeader header = some mh ∧
      (doBlockJobCore env sr w).2.cs =
        { w.cs with
          data := some (env.hash mh), body := some body, header := some header,
          jobDone := fun n s =>
            if n = w.cs.selfPubKey ∧ s = sr.current then true else w.cs.jobDone n s } := by
  unfold doBlockJobCore at *
  cases hc : createHeader env sr w with
  | error e => simp [hc] at h
  | ok header0 =>
    simp only [hc] at h ⊢
    unfold createBlock at *
    cases hb : env.createBlock w.trace header0 with
    | none => simp [hb] at h
    | some hb2 =>
      obtain ⟨header, body⟩ := hb2
      simp only [hb] at h ⊢
      by_cases hs : (sendBlock env sr (w.log (Event.createBlock header0 true)) body header).1 = true
      · obtain ⟨mh, hm, hcs⟩ := sendBlock_true env sr _ body header hs
        simp only [hs, Bool.not_true, Bool.false_eq_true, if_false] at h ⊢
        refine ⟨header0, header, body, mh, rfl, hb, hm, ?_⟩
        cases hj : setSelfJobDone
            (sendBlock env sr (w.log (Event.createBlock header0 true)) body header).2.cs
            sr.current true with
        | none => simp [hj] at h
        | some cs1 =>
          simp only [hj]
          obtain ⟨_, hcs1⟩ := setJobDone_some _ _ _ _ _ hj
          rw [hcs1, hcs]
          rfl
      · simp [hs] at h

/-- A `doBlockJob` that returns true has passed its four preconditions. -/
theorem doBlockJob_pass (env : Env) (sr : Subround) (w : World)
    (h : (doBlockJob env sr w).1 = true) :
    doBlockJob env sr w = ((doBlockJobCore env sr w).1,
      computeSubroundProcessingMetric sr Metric.createdProposedBlock
        (doBlockJobCore env sr w).2) ∧
    isSelfLeaderInCurrentRound w.cs = true ∧
    ¬ w.roundIndex ≤ getRoundInLastCommittedBlock w.chain ∧
    isSelfJobDone w.cs sr.current = false ∧
    isSubroundFinished w.cs sr.current = false := by
  unfold doBlockJob at h ⊢
  split_ifs at h ⊢
  simp_all

/-- The outcomes of `sendBlockBody`: no broadcast for a body that is not a
`block.Body`, otherwise one broadcast of the body message. -/
theorem sendBlockBody_eq (env : Env) (sr : Subround) (w : World) (body : BodyHandler) :
    (sendBlockBody env sr w body = (false, w) ∧ ∃ raw, body = BodyHandler.otherBody raw) ∨
    (sendBlockBody env sr w body = (false, w.log (Event.broadcast (bodyMessage sr w body) false)) ∧
      env.broadcast w.trace (bodyMessage sr w body) = false) ∨
    (sendBlockBody env sr w body
        = (true, { w.log (Event.broadcast (bodyMessage sr w body) true) with
            cs := { w.cs with body := some body } }) ∧
      env.broadcast w.trace (bodyMessage sr w body) = true) := by
  unfold sendBlockBody
  cases body with
  | otherBody raw => exact Or.inl ⟨rfl, raw, rfl⟩
  | blockBody mbs =>
    cases hb : env.broadcast w.trace (bodyMessage sr w (BodyHandler.blockBody mbs)) with
    | false => exact Or.inr (Or.inl ⟨by simp [hb], rfl⟩)
    | true => exact Or.inr (Or.inr ⟨by simp [hb], rfl⟩)

/-- The outcomes of `sendBlockHeader`: no broadcast when the header hash cannot
be computed, otherwise one broadcast of the header message. -/
theorem sendBlockHeader_eq (env : Env) (sr : Subround) (w : World) (header : Header) :
    (sendBlockHeader env sr w header = (false, w) ∧ calculateHash env header = none) ∨
    (∃ hh, calculateHash env header = some hh ∧
      sendBlockHeader env sr w header
        = (false, w.log (Event.broadcast (headerMessage sr w hh header) false))) ∨
    (∃ hh, calculateHash env header = some hh ∧
      sendBlockHeader env sr w header
        = (true, { w.log (Event.broadcast (headerMessage sr w hh header) true) with
            cs := { w.cs with data := some hh, header := some header } })) := by
  unfold sendBlockHeader
  cases hc : calculateHash env header with
  | none => exact Or.inl ⟨rfl, rfl⟩
  | some hh =>
    cases hb : env.broadcast w.trace (headerMessage sr w hh header) with
    | false => exact Or.inr (Or.inl ⟨hh, rfl, by simp [hb]⟩)
    | true => exact Or.inr (Or.inr ⟨hh, rfl, by simp [hb]⟩)

/-- When the body broadcast fails on the split path, `sendBlock` stops there. -/
theorem sendBlock_body_broadcast_fails (env : Env) (sr : Subround) (w : World)
    (mbs : Bytes) (header : Header)
    (hgate : couldBeSentTogether env (BodyHandler.blockBody mbs) header = false)
    (hb : env.broadcast w.trace (bodyMessage sr w (BodyHandler.blockBody mbs)) = false) :
    sendBlock env sr w (BodyHandler.blockBody mbs) header
      = (false, w.log (Event.broadcast (bodyMessage sr w (BodyHandler.blockBody mbs)) false)) := by
  unfold sendBlock
  simp [hgate, sendBlockBody, hb]

theorem SameFlags.refl (a : ConsensusState) : SameFlags a a :=
  ⟨rfl, rfl, rfl, rfl, rfl, rfl, rfl⟩

theorem SameFlags.trans {a b c : ConsensusState} (h1 : SameFlags a b) (h2 : SameFlags b c) :
    SameFlags a c := by
  obtain ⟨a1, a2, a3, a4, a5, a6, a7⟩ := h1
  obtain ⟨b1, b2, b3, b4, b5, b6, b7⟩ := h2
  exact ⟨a1.trans b1, a2.trans b2, a3.trans b3, a4.trans b4, a5.trans b5, a6.trans b6,
    a7.trans b7⟩

theorem sendBlockBodyAndHeader_sameFlags (env : Env) (sr : Subround) (w : World)
    (body : BodyHandler) (header : Header) :
    SameFlags (sendBlockBodyAndHeader env sr w body header).2.cs w.cs := by
  unfold sendBlockBodyAndHeader
  cases calculateHash env header with
  | none => exact SameFlags.refl _
  | some hh =>
    cases body with
    | otherBody raw => exact SameFlags.refl _
    | blockBody mbs =>
      simp only
      split <;> exact ⟨rfl, rfl, rfl, rfl, rfl, rfl, rfl⟩

theorem sendBlockBody_sameFlags (env : Env) (sr : Subround) (w : World) (body : BodyHandler) :
    SameFlags (sendBlockBody env sr w body).2.cs w.cs := by
  rcases sendBlockBody_eq env sr w body with ⟨h, _⟩ | ⟨h, _⟩ | ⟨h, _⟩ <;> rw [h] <;>
    exact ⟨rfl, rfl, rfl, rfl, rfl, rfl, rfl⟩

theorem sendBlockHeader_sameFlags (env : Env) (sr : Subround) (w : World) (header : Header) :
    SameFlags (sendBlockHeader env sr w header).2.cs w.cs := by
  rcases sendBlockHeader_eq env sr w header with ⟨h, _⟩ | ⟨_, _, h⟩ | ⟨_, _, h⟩ <;> rw [h] <;>
    exact ⟨rfl, rfl, rfl, rfl, rfl, rfl, rfl⟩

theorem sendBlock_sameFlags (env : Env) (sr : Subround) (w : World)
    (body : BodyHandler) (header : Header) :
    SameFlags (sendBlock env sr w body header).2.cs w.cs := by
  unfold sendBlock
  split
  · exact sendBlockBodyAndHeader_sameFlags env sr w body header
  · simp only
    split
    · exact sendBlockBody_sameFlags env sr w body
    · split <;>
        exact (sendBlockHeader_sameFlags env sr _ header).trans
          (sendBlockBody_sameFlags env sr w body)

/-- The flags after `doBlockJobCore`: unchanged when it returns false; when it
returns true the only change is the job of this node, now done. -/
theorem doBlockJobCore_flags (env : Env) (sr : Subround) (w : World) :
    ((doBlockJobCore env sr w).1 = false ∧ SameFlags (doBlockJobCore env sr w).2.cs w.cs) ∨
    ((doBlockJobCore env sr w).1 = true ∧ w.cs.selfPubKey ∈ w.cs.consensusGroup ∧
      SameFlags (doBlockJobCore env sr w).2.cs
        { w.cs with jobDone := fun n s =>
            if n = w.cs.selfPubKey ∧ s = sr.current then true else w.cs.jobDone n s }) := by
  cases hc : createHeader env sr w with
  | error e =>
    have he : doBlockJobCore env sr w = (false, w) := by
      unfold doBlockJobCore
      simp only [hc]
    rw [he]
    exact Or.inl ⟨rfl, SameFlags.refl _⟩
  | ok header0 =>
    cases hb : env.createBlock w.trace header0 with
    | none =>
      have he : doBlockJobCore env sr w = (false, w.log (Event.createBlock header0 false)) := by
        unfold doBlockJobCore createBlock
        simp only [hc, hb]
      rw [he]
      exact Or.inl ⟨rfl, SameFlags.refl _⟩
    | some p =>
      obtain ⟨header, body⟩ := p
      have hf : SameFlags
          (sendBlock env sr (w.log (Event.createBlock header0 true)) body header).2.cs w.cs :=
        sendBlock_sameFlags env sr (w.log (Event.createBlock header0 true)) body header
      cases hs : (sendBlock env sr (w.log (Event.createBlock header0 true)) body header).1 with
      | false =>
        have he : doBlockJobCore env sr w
            = (false, (sendBlock env sr (w.log (Event.createBlock header0 true))
                body header).2) := by
          unfold doBlockJobCore createBlock
          simp only [hc, hb, hs, Bool.not_false, if_true]
        rw [he]
        exact Or.inl ⟨rfl, hf⟩
      | true =>
        cases hj : setSelfJobDone
            (sendBlock env sr (w.log (Event.createBlock header0 true)) body header).2.cs
            sr.current true with
        | none =>
          have he : doBlockJobCore env sr w
              = (false, (sendBlock env sr (w.log (Event.createBlock header0 true))
                  body header).2) := by
            unfold doBlockJobCore createBlock
            simp only [hc, hb, hs, hj, Bool.not_true, Bool.false_eq_true, if_false]
          rw [he]
          exact Or.inl ⟨rfl, hf⟩
        | some cs1 =>
          have he : doBlockJobCore env sr w
              = (true, { (sendBlock env sr (w.log (Event.createBlock header0 true))
                  body header).2 with cs := cs1 }) := by
            unfold doBlockJobCore createBlock
            simp only [hc, hb, hs, hj, Bool.not_true, Bool.false_eq_true, if_false]
          rw [he]
          obtain ⟨hmem, hcs1⟩ := setJobDone_some _ _ _ _ _ hj
          obtain ⟨f1, f2, f3, f4, f5, f6, f7⟩ := hf
          rw [f1, f2] at hmem
          refine Or.inr ⟨rfl, hmem, ?_⟩
          simp only [hcs1]
          exact ⟨f1, f2, by simp only [f2, f3], f4, f5, f6, f7⟩

/-- What `processReceivedBlockCore` may change in the consensus state: nothing
but `roundCanceled` when it returns false, nothing but the job of the sender,
now done, when it returns true. -/
theorem processReceivedBlockCore_frame (env : Env) (sr : Subround) (w : World)
    (cnsDta : Message) (header : Header) (body : BodyHandler) :
    (processReceivedBlockCore env sr w cnsDta header body).2.cs.data = w.cs.data ∧
    (processReceivedBlockCore env sr w cnsDta header body).2.cs.body = w.cs.body ∧
    (processReceivedBlockCore env sr w cnsDta header body).2.cs.header = w.cs.header ∧
    (processReceivedBlockCore env sr w cnsDta header body).2.cs.consensusGroup
      = w.cs.consensusGroup ∧
    (processReceivedBlockCore env sr w cnsDta header body).2.cs.selfPubKey = w.cs.selfPubKey ∧
    (processReceivedBlockCore env sr w cnsDta header body).2.cs.status = w.cs.status ∧
    (processReceivedBlockCore env sr w cnsDta header body).2.cs.extendedCalled
      = w.cs.extendedCalled ∧
    (processReceivedBlockCore env sr w cnsDta header body).2.cs.processingBlock
      = w.cs.processingBlock ∧
    (processReceivedBlockCore env sr w cnsDta header body).2.chain = w.chain ∧
    (((processReceivedBlockCore env sr w cnsDta header body).1 = false ∧
        (processReceivedBlockCore env sr w cnsDta header body).2.cs.jobDone = w.cs.jobDone) ∨
     ((processReceivedBlockCore env sr w cnsDta header body).1 = true ∧
        cnsDta.pubKey ∈ w.cs.consensusGroup ∧
        (processReceivedBlockCore env sr w cnsDta header body).2.cs.roundCanceled
          = w.cs.roundCanceled ∧
        (processReceivedBlockCore env sr w cnsDta header body).2.cs.jobDone
          = fun n s => if n = cnsDta.pubKey ∧ s = sr.current then true
                       else w.cs.jobDone n s)) := by
  unfold processReceivedBlockCore
  by_cases h1 : (w.cs.extendedCalled || decide (cnsDta.roundIndex < w.roundIndex)) = true
  · simp only [h1, if_true]
    simp
  · simp only [h1, Bool.false_eq_true, if_false, computeSubroundProcessingMetric_cs,
      computeSubroundProcessingMetric_chain]
    by_cases h2 : cnsDta.roundIndex < (env.processBlock w.trace header body).roundIndexAfter
    · simp only [h2, if_true]
      simp
    · simp only [h2, if_false]
      cases h3 : (env.processBlock w.trace header body).ok with
      | false =>
        simp only [Bool.not_false, if_true]
        simp
      | true =>
        simp only [Bool.not_true, Bool.false_eq_true, if_false]
        cases hj : setJobDone (w.log (Event.processBlock header body true)).cs cnsDta.pubKey
            sr.current true with
        | none =>
          simp only [World.log_cs] at hj
          simp only [World.log_cs, hj]
          simp
        | some cs1 =>
          obtain ⟨hmem, hcs1⟩ := setJobDone_some _ _ _ _ _ hj
          simp only [World.log_cs] at hj hmem hcs1
          simp only [World.log_cs, hj]
          subst hcs1
          simp [hmem]

theorem RecvFrame.same (sr : Subround) (w : World) (node : Bytes) :
    RecvFrame sr w node (false, w) :=
  ⟨rfl, rfl, rfl, rfl, rfl, Or.inl ⟨rfl, rfl⟩⟩

theorem RecvFrame.of_slots {sr : Subround} {w w1 : World} {node : Bytes} {r : Bool × World}
    (hf : SameFlags w1.cs w.cs) (hc : w1.chain = w.chain) (h : RecvFrame sr w1 node r) :
    RecvFrame sr w node r := by
  obtain ⟨f1, f2, f3, f4, f5, f6, f7⟩ := hf
  obtain ⟨h1, h2, h3, h4, h5, h6⟩ := h
  refine ⟨h1.trans f1, h2.trans f2, h3.trans f4, h4.trans f6, h5.trans hc, ?_⟩
  rcases h6 with ⟨a, b⟩ | ⟨a, b, c, d⟩
  · exact Or.inl ⟨a, b.trans f3⟩
  · exact Or.inr ⟨a, f1 ▸ b, c.trans f5, by rw [d, f3]⟩

/-- What `processReceivedBlock` may change: it never touches the three slots. -/
theorem processReceivedBlock_frame (env : Env) (sr : Subround) (w : World) (cnsDta : Message) :
    RecvFrame sr w cnsDta.pubKey (processReceivedBlock env sr w cnsDta) ∧
    (processReceivedBlock env sr w cnsDta).2.cs.data = w.cs.data ∧
    (processReceivedBlock env sr w cnsDta).2.cs.body = w.cs.body ∧
    (processReceivedBlock env sr w cnsDta).2.cs.header = w.cs.header := by
  unfold processReceivedBlock
  cases hb : w.cs.body with
  | none => exact ⟨RecvFrame.same sr w _, rfl, hb, rfl⟩
  | some body =>
    cases hh : w.cs.header with
    | none => exact ⟨RecvFrame.same sr w _, rfl, hb, hh⟩
    | some header =>
      obtain ⟨p1, p2, p3, p4, p5, p6, p7, _, p9, p10⟩ :=
        processReceivedBlockCore_frame env sr (setProcessingBlock w true) cnsDta header body
      refine ⟨⟨p4, p5, p6, p7, p9, ?_⟩, p1, p2.trans hb, p3.trans hh⟩
      rcases p10 with ⟨a, b⟩ | ⟨a, b, c, d⟩
      · exact Or.inl ⟨a, b⟩
      · exact Or.inr ⟨a, b, c, d⟩

/-- What `receivedBlockHeader` may change, and that it returns true only for a
message of the leader. -/
theorem receivedBlockHeader_frame (env : Env) (sr : Subround) (w : World) (cnsDta : Message) :
    RecvFrame sr w cnsDta.pubKey (receivedBlockHeader env sr w cnsDta) ∧
    ((receivedBlockHeader env sr w cnsDta).1 = true →
      isNodeLeaderInCurrentRound w.cs cnsDta.pubKey = true) ∧
    (∀ v, w.cs.data = some v → (receivedBlockHeader env sr w cnsDta).2.cs.data = some v) ∧
    (∀ v, w.cs.body = some v → (receivedBlockHeader env sr w cnsDta).2.cs.body = some v) ∧
    (∀ v, w.cs.header = some v →
      (receivedBlockHeader env sr w cnsDta).2.cs.header = some v) := by
  have hsame : ∀ P : Prop, RecvFrame sr w cnsDta.pubKey (false, w) ∧
      (((false, w) : Bool × World).1 = true → P) ∧
      (∀ v, w.cs.data = some v → ((false, w) : Bool × World).2.cs.data = some v) ∧
      (∀ v, w.cs.body = some v → ((false, w) : Bool × World).2.cs.body = some v) ∧
      (∀ v, w.cs.header = some v → ((false, w) : Bool × World).2.cs.header = some v) :=
    fun _ =>
      ⟨RecvFrame.same sr w _, fun h => by simp at h, fun _ h => h, fun _ h => h, fun _ h => h⟩
  unfold receivedBlockHeader
  dsimp only
  cases g1 : isConsensusDataSet w.cs with
  | true => simpa only [↓reduceIte] using hsame _
  | false =>
  cases g2 : isHeaderAlreadyReceived w.cs with
  | true => simpa only [↓reduceIte, Bool.false_eq_true] using hsame _
  | false =>
  cases g3 : isNodeLeaderInCurrentRound w.cs cnsDta.pubKey with
  | false => simpa only [↓reduceIte, Bool.false_eq_true, Bool.not_false] using hsame _
  | true =>
  cases g4 : canProcessReceivedMessage w.cs cnsDta w.roundIndex sr.current with
  | false =>
    simpa only [↓reduceIte, Bool.false_eq_true, Bool.not_false, Bool.not_true] using hsame _
  | true =>
    simp only [↓reduceIte, Bool.false_eq_true, Bool.not_true]
    have hd : w.cs.data = none := by simpa [isConsensusDataSet] using g1
    have hh : w.cs.header = none := by simpa [isHeaderAlreadyReceived] using g2
    refine ⟨?_, fun _ => trivial, fun v hv => by simp [hd] at hv, ?_,
      fun v hv => by simp [hh] at hv⟩
    · split
      · exact ⟨rfl, rfl, rfl, rfl, rfl, Or.inl ⟨rfl, rfl⟩⟩
      · exact RecvFrame.of_slots ⟨rfl, rfl, rfl, rfl, rfl, rfl, rfl⟩ rfl
          (processReceivedBlock_frame env sr _ cnsDta).1
    · intro v hv
      split
      · exact hv
      · rw [(processReceivedBlock_frame env sr _ cnsDta).2.2.1]
        exact hv

/-- What `receivedBlockBody` may change, and that it returns true only for a
message of the leader. -/
theorem receivedBlockBody_frame (env : Env) (sr : Subround) (w : World) (cnsDta : Message) :
    RecvFrame sr w cnsDta.pubKey (receivedBlockBody env sr w cnsDta) ∧
    ((receivedBlockBody env sr w cnsDta).1 = true →
      isNodeLeaderInCurrentRound w.cs cnsDta.pubKey = true) ∧
    (∀ v, w.cs.data = some v → (receivedBlockBody env sr w cnsDta).2.cs.data = some v) ∧
    (∀ v, w.cs.body = some v → (receivedBlockBody env sr w cnsDta).2.cs.body = some v) ∧
    (∀ v, w.cs.header = some v →
      (receivedBlockBody env sr w cnsDta).2.cs.header = some v) := by
  have hsame : ∀ P : Prop, RecvFrame sr w cnsDta.pubKey (false, w) ∧
      (((false, w) : Bool × World).1 = true → P) ∧
      (∀ v, w.cs.data = some v → ((false, w) : Bool × World).2.cs.data = some v) ∧
      (∀ v, w.cs.body = some v → ((false, w) : Bool × World).2.cs.body = some v) ∧
      (∀ v, w.cs.header = some v → ((false, w) : Bool × World).2.cs.header = some v) :=
    fun _ =>
      ⟨RecvFrame.same sr w _, fun h => by simp at h, fun _ h => h, fun _ h => h, fun _ h => h⟩
  unfold receivedBlockBody
  dsimp only
  cases g2 : isBlockBodyAlreadyReceived w.cs with
  | true => simpa only [↓reduceIte, Bool.false_eq_true] using hsame _
  | false =>
  cases g3 : isNodeLeaderInCurrentRound w.cs cnsDta.pubKey with
  | false => simpa only [↓reduceIte, Bool.false_eq_true, Bool.not_false] using hsame _
  | true =>
  cases g4 : canProcessReceivedMessage w.cs cnsDta w.roundIndex sr.current with
  | false =>
    simpa only [↓reduceIte, Bool.false_eq_true, Bool.not_false, Bool.not_true] using hsame _
  | true =>
    simp only [↓reduceIte, Bool.false_eq_true, Bool.not_true]
    have hb : w.cs.body = none := by simpa [isBlockBodyAlreadyReceived] using g2
    refine ⟨?_, fun _ => trivial, ?_, fun v hv => by simp [hb] at hv, ?_⟩
    · split
      · exact ⟨rfl, rfl, rfl, rfl, rfl, Or.inl ⟨rfl, rfl⟩⟩
      · exact RecvFrame.of_slots ⟨rfl, rfl, rfl, rfl, rfl, rfl, rfl⟩ rfl
          (processReceivedBlock_frame env sr _ cnsDta).1
    · intro v hv
      split
      · exact hv
      · rw [(processReceivedBlock_frame env sr _ cnsDta).2.1]
        exact hv
    · intro v hv
      split
      · exact hv
      · rw [(processReceivedBlock_frame env sr _ cnsDta).2.2.2]
        exact hv

/-- What `receivedBlockBodyAndHeader` may change, and that it returns true only
for a message of the leader. -/
theorem receivedBlockBodyAndHeader_frame (env : Env) (sr : Subround) (w : World)
    (cnsDta : Message) :
    RecvFrame sr w cnsDta.pubKey (receivedBlockBodyAndHeader env sr w cnsDta) ∧
    ((receivedBlockBodyAndHeader env sr w cnsDta).1 = true →
      isNodeLeaderInCurrentRound w.cs cnsDta.pubKey = true) ∧
    (∀ v, w.cs.data = some v →
      (receivedBlockBodyAndHeader env sr w cnsDta).2.cs.data = some v) ∧
    (∀ v, w.cs.body = some v →
      (receivedBlockBodyAndHeader env sr w cnsDta).2.cs.body = some v) ∧
    (∀ v, w.cs.header = some v →
      (receivedBlockBodyAndHeader env sr w cnsDta).2.cs.header = some v) := by
  have hsame : ∀ P : Prop, RecvFrame sr w cnsDta.pubKey (false, w) ∧
      (((false, w) : Bool × World).1 = true → P) ∧
      (∀ v, w.cs.data = some v → ((false, w) : Bool × World).2.cs.data = some v) ∧
      (∀ v, w.cs.body = some v → ((false, w) : Bool × World).2.cs.body = some v) ∧
      (∀ v, w.cs.header = some v → ((false, w) : Bool × World).2.cs.header = some v) :=
    fun _ =>
      ⟨RecvFrame.same sr w _, fun h => by simp at h, fun _ h => h, fun _ h => h, fun _ h => h⟩
  unfold receivedBlockBodyAndHeader
  dsimp only
  cases g1 : isConsensusDataSet w.cs with
  | true => simpa only [↓reduceIte] using hsame _
  | false =>
  cases g2 : isBlockBodyAlreadyReceived w.cs with
  | true => simpa only [↓reduceIte, Bool.false_eq_true] using hsame _
  | false =>
  cases g2' : isHeaderAlreadyReceived w.cs with
  | true => simpa only [↓reduceIte, Bool.false_eq_true] using hsame _
  | false =>
  cases g3 : isNodeLeaderInCurrentRound w.cs cnsDta.pubKey with
  | false => simpa only [↓reduceIte, Bool.false_eq_true, Bool.not_false] using hsame _
  | true =>
  cases g4 : canProcessReceivedMessage w.cs cnsDta w.roundIndex sr.current with
  | false =>
    simpa only [↓reduceIte, Bool.false_eq_true, Bool.not_false, Bool.not_true] using hsame _
  | true =>
    simp only [↓reduceIte, Bool.false_eq_true, Bool.not_true]
    have hd : w.cs.data = none := by simpa [isConsensusDataSet] using g1
    have hb : w.cs.body = none := by simpa [isBlockBodyAlreadyReceived] using g2
    have hh : w.cs.header = none := by simpa [isHeaderAlreadyReceived] using g2'
    refine ⟨?_, fun _ => trivial, fun v hv => by simp [hd] at hv,
      fun v hv => by simp [hb] at hv, fun v hv => by simp [hh] at hv⟩
    split
    · exact ⟨rfl, rfl, rfl, rfl, rfl, Or.inl ⟨rfl, rfl⟩⟩
    · exact RecvFrame.of_slots ⟨rfl, rfl, rfl, rfl, rfl, rfl, rfl⟩ rfl
        (processReceivedBlock_frame env sr _ cnsDta).1

/-- With `data` set, `receivedBlockHeader` stops at its first guard. -/
theorem receivedBlockHeader_of_data (env : Env) (sr : Subround) (w : World) (cnsDta : Message)
    (h : w.cs.data.isSome = true) : receivedBlockHeader env sr w cnsDta = (false, w) := by
  unfold receivedBlockHeader
  simp [isConsensusDataSet, h]

/-- With `header` set, `receivedBlockHeader` stops at a guard. -/
theorem receivedBlockHeader_of_header (env : Env) (sr : Subround) (w : World)
    (cnsDta : Message) (h : w.cs.header.isSome = true) :
    receivedBlockHeader env sr w cnsDta = (false, w) := by
  unfold receivedBlockHeader
  simp [isHeaderAlreadyReceived, h]

/-- The admission rejects a message of another round. -/
theorem canProcessReceivedMessage_round (cs : ConsensusState) (cnsDta : Message)
    (r : Int) (subroundId : Int) (h : cnsDta.roundIndex ≠ r) :
    canProcessReceivedMessage cs cnsDta r subroundId = false := by
  simp [canProcessReceivedMessage, h]

/-- The outcomes of `doBlockConsensusCheck`, with the count of the loop of
`isBlockReceived` put as a count over the consensus group. -/
theorem doBlockConsensusCheck_cases (sr : Subround) (w : World) :
    doBlockConsensusCheck sr w =
      if w.cs.roundCanceled = true then (false, w)
      else if w.cs.status sr.current = SubroundStatus.ssFinished then (true, w)
      else if sr.threshold sr.current ≤
          ((w.cs.consensusGroup.countP (fun node => w.cs.jobDone node sr.current) : Nat) : Int)
      then (true, { w with cs := { w.cs with
          status := fun s => if s = sr.current then SubroundStatus.ssFinished
                             else w.cs.status s } })
      else (false, w) := by
  unfold doBlockConsensusCheck
  simp only [isBlockReceived_eq, isSubroundFinished, setStatus, decide_eq_true_eq]

theorem LeaderInv.of_sameFlags {sr : Subround} {a b : ConsensusState}
    (hf : SameFlags a b) (h : LeaderInv sr b) : LeaderInv sr a := by
  obtain ⟨f1, _, f3, f4, _, _, _⟩ := hf
  unfold LeaderInv getLeader at *
  rw [f1, f3, f4]
  exact h

/-- Setting the job of the leader done keeps the invariant. -/
theorem LeaderInv.setLeader {sr : Subround} {a b : ConsensusState} {node : Bytes}
    (hg : a.consensusGroup = b.consensusGroup)
    (hj : a.jobDone = fun n s => if n = node ∧ s = sr.current then true else b.jobDone n s)
    (hl : isNodeLeaderInCurrentRound b node = true) (h : LeaderInv sr b) :
    LeaderInv sr a := by
  have hlead : getLeader b = some node := by
    unfold isNodeLeaderInCurrentRound at hl
    split at hl
    · simp at hl
    · rename_i leader hleader
      rw [hleader, of_decide_eq_true hl]
  have hga : getLeader a = getLeader b := by
    unfold getLeader
    rw [hg]
  obtain ⟨h1, h2⟩ := h
  refine ⟨?_, ?_⟩
  · intro n hn
    rw [hga]
    rw [hj] at hn
    by_cases hc : n = node
    · rw [hc]
      exact hlead
    · simp only [hc, false_and, if_false] at hn
      exact h1 n hn
  · intro hfin
    refine ⟨node, hga.trans hlead, ?_⟩
    rw [hj]
    simp

/-- A receive callback keeps the invariant and the consensus group. -/
theorem LeaderInv.of_recvFrame {sr : Subround} {w : World} {node : Bytes} {r : Bool × World}
    (hf : RecvFrame sr w node r)
    (hl : r.1 = true → isNodeLeaderInCurrentRound w.cs node = true)
    (h : LeaderInv sr w.cs) :
    LeaderInv sr r.2.cs ∧ r.2.cs.consensusGroup = w.cs.consensusGroup := by
  obtain ⟨f1, _, f3, _, _, f6⟩ := hf
  refine ⟨?_, f1⟩
  rcases f6 with ⟨_, hj⟩ | ⟨ht, _, _, hj⟩
  · unfold LeaderInv getLeader at *
    rw [f1, f3, hj]
    exact h
  · exact LeaderInv.setLeader f1 hj (hl ht) h

/-- The flags after `doBlockJob`: unchanged, or the job of this node, the
leader, is now done. -/
theorem doBlockJob_flags (env : Env) (sr : Subround) (w : World) :
    SameFlags (doBlockJob env sr w).2.cs w.cs ∨
    (isSelfLeaderInCurrentRound w.cs = true ∧
      SameFlags (doBlockJob env sr w).2.cs
        { w.cs with jobDone := fun n s =>
            if n = w.cs.selfPubKey ∧ s = sr.current then true else w.cs.jobDone n s }) := by
  unfold doBlockJob
  cases g1 : isSelfLeaderInCurrentRound w.cs with
  | false => exact Or.inl (SameFlags.refl _)
  | true =>
    simp only [Bool.not_true, Bool.false_eq_true, if_false]
    split
    · exact Or.inl (SameFlags.refl _)
    · split
      · exact Or.inl (SameFlags.refl _)
      · split
        · exact Or.inl (SameFlags.refl _)
        · simp only [computeSubroundProcessingMetric_cs]
          rcases doBlockJobCore_flags env sr w with ⟨_, hf⟩ | ⟨_, _, hf⟩
          · exact Or.inl hf
          · exact Or.inr ⟨trivial, hf⟩

/-- Every invocation keeps the invariant and the consensus group, when the
threshold of the subround is 1. -/
theorem step_leaderInv (env : Env) (sr : Subround) (w : World) (op : Op)
    (hth : sr.threshold sr.current = 1) (h : LeaderInv sr w.cs) :
    LeaderInv sr (step env sr w op).2.cs ∧
    (step env sr w op).2.cs.consensusGroup = w.cs.consensusGroup := by
  cases op with
  | job =>
    show LeaderInv sr (doBlockJob env sr w).2.cs ∧
      (doBlockJob env sr w).2.cs.consensusGroup = w.cs.consensusGroup
    rcases doBlockJob_flags env sr w with hf | ⟨hl, hf⟩
    · exact ⟨LeaderInv.of_sameFlags hf h, hf.1⟩
    · refine ⟨LeaderInv.of_sameFlags hf ?_, hf.1⟩
      exact @LeaderInv.setLeader sr _ w.cs w.cs.selfPubKey rfl rfl hl h
  | recvBodyAndHeader m =>
    obtain ⟨hf, hl, _⟩ := receivedBlockBodyAndHeader_frame env sr w m
    exact LeaderInv.of_recvFrame hf hl h
  | recvBody m =>
    obtain ⟨hf, hl, _⟩ := receivedBlockBody_frame env sr w m
    exact LeaderInv.of_recvFrame hf hl h
  | recvHeader m =>
    obtain ⟨hf, hl, _⟩ := receivedBlockHeader_frame env sr w m
    exact LeaderInv.of_recvFrame hf hl h
  | check =>
    show LeaderInv sr (doBlockConsensusCheck sr w).2.cs ∧
      (doBlockConsensusCheck sr w).2.cs.consensusGroup = w.cs.consensusGroup
    rw [doBlockConsensusCheck_cases]
    split
    · exact ⟨h, rfl⟩
    · split
      · exact ⟨h, rfl⟩
      · split
        · rename_i hcount
          rw [hth] at hcount
          have hpos : 0 < w.cs.consensusGroup.countP (fun node => w.cs.jobDone node sr.current) := by
            omega
          obtain ⟨n, _, hn⟩ := List.countP_pos_iff.mp hpos
          refine ⟨⟨h.1, fun _ => ⟨n, h.1 n hn, hn⟩⟩, rfl⟩
        · exact ⟨h, rfl⟩

/-- Every sequence of invocations keeps the invariant and the consensus group,
when the threshold of the subround is 1. -/
theorem run_leaderInv (env : Env) (sr : Subround) (w : World) (ops : List Op)
    (hth : sr.threshold sr.current = 1) (h : LeaderInv sr w.cs) :
    LeaderInv sr (run env sr w ops).cs ∧
    (run env sr w ops).cs.consensusGroup = w.cs.consensusGroup := by
  induction ops generalizing w with
  | nil => exact ⟨h, rfl⟩
  | cons op rest ih =>
    obtain ⟨h1, h2⟩ := step_leaderInv env sr w op hth h
    obtain ⟨h3, h4⟩ := ih (step env sr w op).2 h1
    exact ⟨h3, h4.trans h2⟩

/-- A fresh state satisfies the invariant. -/
theorem LeaderInv.of_fresh {sr : Subround} {cs : ConsensusState} (h : cs.Fresh sr.current) :
    LeaderInv sr cs := by
  obtain ⟨h1, h2, _⟩ := h
  exact ⟨fun n hn => by simp [h1 n] at hn, fun hf => absurd hf h2⟩

/-- A check that returns true leaves the subround finished. -/
theorem doBlockConsensusCheck_true (sr : Subround) (w : World)
    (h : (doBlockConsensusCheck sr w).1 = true) :
    (doBlockConsensusCheck sr w).2.cs.status sr.current = SubroundStatus.ssFinished ∧
    (doBlockConsensusCheck sr w).2.cs.consensusGroup = w.cs.consensusGroup := by
  rw [doBlockConsensusCheck_cases] at h ⊢
  split_ifs at h ⊢ <;> simp_all

/-- With the job of this node done, `doBlockJob` stops at its third guard at the
latest. -/
theorem doBlockJob_of_selfJobDone (env : Env) (sr : Subround) (w : World)
    (h : isSelfJobDone w.cs sr.current = true) : doBlockJob env sr w = (false, w) := by
  unfold doBlockJob
  simp [h]

/-- A receive callback keeps the job of this node done. -/
theorem RecvFrame.selfJobDone {sr : Subround} {w : World} {node : Bytes} {r : Bool × World}
    (hf : RecvFrame sr w node r) (h : isSelfJobDone w.cs sr.current = true) :
    isSelfJobDone r.2.cs sr.current = true := by
  obtain ⟨_, f2, _, _, _, f6⟩ := hf
  unfold isSelfJobDone at *
  rw [f2]
  rcases f6 with ⟨_, hj⟩ | ⟨_, _, _, hj⟩
  · rw [hj]
    exact h
  · rw [hj]
    simp [h]

/-- An invocation other than a leader job that finds the job of this node not
yet done keeps every slot that is not empty, and keeps the job of this node
done. -/
theorem step_slots (env : Env) (sr : Subround) (w : World) (op : Op)
    (hop : op.isJob = false ∨ isSelfJobDone w.cs sr.current = true) :
    (∀ v, w.cs.data = some v → (step env sr w op).2.cs.data = some v) ∧
    (∀ v, w.cs.body = some v → (step env sr w op).2.cs.body = some v) ∧
    (∀ v, w.cs.header = some v → (step env sr w op).2.cs.header = some v) ∧
    (isSelfJobDone w.cs sr.current = true →
      isSelfJobDone (step env sr w op).2.cs sr.current = true) := by
  cases op with
  | job =>
    have hd : isSelfJobDone w.cs sr.current = true := by
      rcases hop with h | h
      · simp [Op.isJob] at h
      · exact h
    show (∀ v, w.cs.data = some v → (doBlockJob env sr w).2.cs.data = some v) ∧
      (∀ v, w.cs.body = some v → (doBlockJob env sr w).2.cs.body = some v) ∧
      (∀ v, w.cs.header = some v → (doBlockJob env sr w).2.cs.header = some v) ∧
      (isSelfJobDone w.cs sr.current = true →
        isSelfJobDone (doBlockJob env sr w).2.cs sr.current = true)
    rw [doBlockJob_of_selfJobDone env sr w hd]
    exact ⟨fun _ h => h, fun _ h => h, fun _ h => h, fun h => h⟩
  | check =>
    show (∀ v, w.cs.data = some v → (doBlockConsensusCheck sr w).2.cs.data = some v) ∧
      (∀ v, w.cs.body = some v → (doBlockConsensusCheck sr w).2.cs.body = some v) ∧
      (∀ v, w.cs.header = some v → (doBlockConsensusCheck sr w).2.cs.header = some v) ∧
      (isSelfJobDone w.cs sr.current = true →
        isSelfJobDone (doBlockConsensusCheck sr w).2.cs sr.current = true)
    rw [doBlockConsensusCheck_cases]
    split_ifs <;> exact ⟨fun _ h => h, fun _ h => h, fun _ h => h, fun h => h⟩
  | recvBodyAndHeader m =>
    obtain ⟨hf, _, s1, s2, s3⟩ := receivedBlockBodyAndHeader_frame env sr w m
    exact ⟨s1, s2, s3, hf.selfJobDone⟩
  | recvBody m =>
    obtain ⟨hf, _, s1, s2, s3⟩ := receivedBlockBody_frame env sr w m
    exact ⟨s1, s2, s3, hf.selfJobDone⟩
  | recvHeader m =>
    obtain ⟨hf, _, s1, s2, s3⟩ := receivedBlockHeader_frame env sr w m
    exact ⟨s1, s2, s3, hf.selfJobDone⟩

/-- With a body and a header present, `processReceivedBlock` runs its core
between setting and clearing the `processingBlock` flag. -/
theorem processReceivedBlock_eq (env : Env) (sr : Subround) (w : World) (cnsDta : Message)
    (body : BodyHandler) (header : Header)
    (hb : w.cs.body = some body) (hh : w.cs.header = some header) :
    processReceivedBlock env sr w cnsDta
      = ((processReceivedBlockCore env sr (setProcessingBlock w true) cnsDta header body).1,
          setProcessingBlock
            (processReceivedBlockCore env sr (setProcessingBlock w true) cnsDta header body).2
            false) := by
  unfold processReceivedBlock
  simp only [hb, hh]

/-- Without a body or without a header, `processReceivedBlock` does nothing. -/
theorem processReceivedBlock_of_missing (env : Env) (sr : Subround) (w : World)
    (cnsDta : Message) (h : w.cs.body = none ∨ w.cs.header = none) :
    processReceivedBlock env sr w cnsDta = (false, w) := by
  unfold processReceivedBlock
  rcases h with h | h
  · simp only [h]
  · cases hb : w.cs.body with
    | none => rfl
    | some body => simp only [h]

/-- The core of `processReceivedBlock` when the extension has been called or
the message is of an earlier round: nothing is done. -/
theorem processReceivedBlockCore_of_abort (env : Env) (sr : Subround) (w : World)
    (cnsDta : Message) (header : Header) (body : BodyHandler)
    (h : w.cs.extendedCalled = true ∨ cnsDta.roundIndex < w.roundIndex) :
    processReceivedBlockCore env sr w cnsDta header body = (false, w) := by
  unfold processReceivedBlockCore
  rcases h with h | h
  · simp [h]
  · simp [h]

/-- The core of `processReceivedBlock` once `ProcessBlock` has been called: the
three outcomes after the call, each followed by the metric. -/
theorem processReceivedBlockCore_of_run (env : Env) (sr : Subround) (w : World)
    (cnsDta : Message) (header : Header) (body : BodyHandler)
    (h1 : w.cs.extendedCalled = false) (h2 : ¬ cnsDta.roundIndex < w.roundIndex) :
    processReceivedBlockCore env sr w cnsDta header body =
      if cnsDta.roundIndex < (env.processBlock w.trace header body).roundIndexAfter then
        (false, computeSubroundProcessingMetric sr Metric.processedProposedBlock
          (afterProcessBlock env w header body))
      else if (env.processBlock w.trace header body).ok = false then
        (false, computeSubroundProcessingMetric sr Metric.processedProposedBlock
          { afterProcessBlock env w header body with
            cs := { w.cs with roundCanceled := true } })
      else
        match setJobDone w.cs cnsDta.pubKey sr.current true with
        | none => (false, computeSubroundProcessingMetric sr Metric.processedProposedBlock
            (afterProcessBlock env w header body))
        | some cs => (true, computeSubroundProcessingMetric sr Metric.processedProposedBlock
            { afterProcessBlock env w header body with cs := cs }) := by
  have hs : (w.cs.extendedCalled || decide (cnsDta.roundIndex < w.roundIndex)) = false := by
    simp [h1, h2]
  unfold processReceivedBlockCore afterProcessBlock
  simp only [hs, Bool.false_eq_true, if_false]
  by_cases h3 : cnsDta.roundIndex < (env.processBlock w.trace header body).roundIndexAfter
  · simp only [h3, if_true]
  · simp only [h3, if_false]
    cases h4 : (env.processBlock w.trace header body).ok with
    | false => simp only [Bool.not_false, if_true, World.log_cs]
    | true =>
      simp only [Bool.not_true, Bool.false_eq_true, if_false, World.log_cs]
      cases setJobDone w.cs cnsDta.pubKey sr.current true <;> rfl

/-- A message the admission lets through is of the current round. -/
theorem canProcessReceivedMessage_true (cs : ConsensusState) (cnsDta : Message)
    (r : Int) (subroundId : Int) (h : canProcessReceivedMessage cs cnsDta r subroundId = true) :
    cnsDta.roundIndex = r := by
  by_contra hne
  rw [canProcessReceivedMessage_round cs cnsDta r subroundId hne] at h
  exact Bool.false_ne_true h

/-- The result of `processReceivedBlock` depends on the message only through
the sender and the round index. -/
theorem processReceivedBlock_congr (env : Env) (sr : Subround) (w : World) (m1 m2 : Message)
    (hk : m1.pubKey = m2.pubKey) (hr : m1.roundIndex = m2.roundIndex) :
    processReceivedBlock env sr w m1 = processReceivedBlock env sr w m2 := by
  unfold processReceivedBlock processReceivedBlockCore
  simp only [hk, hr]

/-- With `body` set, `receivedBlockBody` stops at its first guard. -/
theorem receivedBlockBody_of_body (env : Env) (sr : Subround) (w : World) (cnsDta : Message)
    (h : w.cs.body.isSome = true) : receivedBlockBody env sr w cnsDta = (false, w) := by
  unfold receivedBlockBody
  simp [isBlockBodyAlreadyReceived, h]

/-- With one of the three slots set, `receivedBlockBodyAndHeader` stops at a guard. -/
theorem receivedBlockBodyAndHeader_of_slot (env : Env) (sr : Subround) (w : World)
    (cnsDta : Message)
    (h : w.cs.data.isSome = true ∨ w.cs.body.isSome = true ∨ w.cs.header.isSome = true) :
    receivedBlockBodyAndHeader env sr w cnsDta = (false, w) := by
  unfold receivedBlockBodyAndHeader
  rcases h with h | h | h <;>
    simp [isConsensusDataSet, isBlockBodyAlreadyReceived, isHeaderAlreadyReceived, h]

/-- A body message of the leader that passes the guards and carries a body is
stored and handed to `processReceivedBlock`. -/
theorem receivedBlockBody_pass (env : Env) (sr : Subround) (w : World) (cnsDta : Message)
    (body : BodyHandler) (h1 : w.cs.body = none)
    (h2 : isNodeLeaderInCurrentRound w.cs cnsDta.pubKey = true)
    (h3 : canProcessReceivedMessage w.cs cnsDta w.roundIndex sr.current = true)
    (h4 : cnsDta.body = some body) :
    receivedBlockBody env sr w cnsDta
      = processReceivedBlock env sr { w with cs := { w.cs with body := some body } } cnsDta := by
  unfold receivedBlockBody
  simp [isBlockBodyAlreadyReceived, h1, h2, h3, h4]

/-- A header message of the leader that passes the guards and carries a hash
and a header is stored and handed to `processReceivedBlock`. -/
theorem receivedBlockHeader_pass (env : Env) (sr : Subround) (w : World) (cnsDta : Message)
    (hash : Bytes) (header : Header) (h0 : w.cs.data = none) (h1 : w.cs.header = none)
    (h2 : isNodeLeaderInCurrentRound w.cs cnsDta.pubKey = true)
    (h3 : canProcessReceivedMessage w.cs cnsDta w.roundIndex sr.current = true)
    (h4 : cnsDta.blockHeaderHash = some hash) (h5 : cnsDta.header = some header) :
    receivedBlockHeader env sr w cnsDta
      = processReceivedBlock env sr
          { w with cs := { w.cs with data := some hash, header := some header } } cnsDta := by
  unfold receivedBlockHeader
  simp [isConsensusDataSet, isHeaderAlreadyReceived, h0, h1, h2, h3, h4, h5]

/-- A combined message of the leader that passes the guards and carries a
hash, a body and a header is stored and handed to `processReceivedBlock`. -/
theorem receivedBlockBodyAndHeader_pass (env : Env) (sr : Subround) (w : World)
    (cnsDta : Message) (hash : Bytes) (body : BodyHandler) (header : Header)
    (h0 : w.cs.data = none) (hb : w.cs.body = none) (h1 : w.cs.header = none)
    (h2 : isNodeLeaderInCurrentRound w.cs cnsDta.pubKey = true)
    (h3 : canProcessReceivedMessage w.cs cnsDta w.roundIndex sr.current = true)
    (h4 : cnsDta.blockHeaderHash = some hash) (h5 : cnsDta.body = some body)
    (h6 : cnsDta.header = some header) :
    receivedBlockBodyAndHeader env sr w cnsDta
      = processReceivedBlock env sr
          { w with cs := { w.cs with
              data := some hash, body := some body, header := some header } } cnsDta := by
  unfold receivedBlockBodyAndHeader
  simp [isConsensusDataSet, isBlockBodyAlreadyReceived, isHeaderAlreadyReceived, h0, hb, h1,
    h2, h3, h4, h5, h6]

theorem receivedBlockHeader_shape (env : Env) (sr : Subround) (w : World) (cnsDta : Message) :
    RecvShape env sr w cnsDta (receivedBlockHeader env sr w cnsDta) := by
  unfold receivedBlockHeader RecvShape
  dsimp only
  split_ifs
  · exact Or.inl rfl
  · exact Or.inl rfl
  · exact Or.inl rfl
  · exact Or.inl rfl
  · exact Or.inr ⟨({ w with cs := { w.cs with
      data := cnsDta.blockHeaderHash, header := cnsDta.header } } : World),
      ⟨rfl, rfl, rfl, rfl, rfl, rfl, rfl⟩, rfl, Or.inl rfl⟩
  · exact Or.inr ⟨({ w with cs := { w.cs with
      data := cnsDta.blockHeaderHash, header := cnsDta.header } } : World),
      ⟨rfl, rfl, rfl, rfl, rfl, rfl, rfl⟩, rfl, Or.inr rfl⟩

theorem receivedBlockBody_shape (env : Env) (sr : Subround) (w : World) (cnsDta : Message) :
    RecvShape env sr w cnsDta (receivedBlockBody env sr w cnsDta) := by
  unfold receivedBlockBody RecvShape
  dsimp only
  split_ifs
  · exact Or.inl rfl
  · exact Or.inl rfl
  · exact Or.inl rfl
  · exact Or.inr ⟨({ w with cs := { w.cs with body := cnsDta.body } } : World),
      ⟨rfl, rfl, rfl, rfl, rfl, rfl, rfl⟩, rfl, Or.inl rfl⟩
  · exact Or.inr ⟨({ w with cs := { w.cs with body := cnsDta.body } } : World),
      ⟨rfl, rfl, rfl, rfl, rfl, rfl, rfl⟩, rfl, Or.inr rfl⟩

theorem receivedBlockBodyAndHeader_shape (env : Env) (sr : Subround) (w : World)
    (cnsDta : Message) :
    RecvShape env sr w cnsDta (receivedBlockBodyAndHeader env sr w cnsDta) := by
  unfold receivedBlockBodyAndHeader RecvShape
  dsimp only
  split_ifs
  · exact Or.inl rfl
  · exact Or.inl rfl
  · exact Or.inl rfl
  · exact Or.inl rfl
  · exact Or.inl rfl
  · exact Or.inr ⟨({ w with cs := { w.cs with
      data := cnsDta.blockHeaderHash, body := cnsDta.body, header := cnsDta.header } } : World),
      ⟨rfl, rfl, rfl, rfl, rfl, rfl, rfl⟩, rfl, Or.inl rfl⟩
  · exact Or.inr ⟨({ w with cs := { w.cs with
      data := cnsDta.blockHeaderHash, body := cnsDta.body, header := cnsDta.header } } : World),
      ⟨rfl, rfl, rfl, rfl, rfl, rfl, rfl⟩, rfl, Or.inr rfl⟩

/-- A receive callback ends in one of the three ways of `RecvShape`. -/
theorem step_receive_shape (env : Env) (sr : Subround) (w : World) (op : Op)
    (hop : op.isReceive = true) :
    ∃ cnsDta, RecvShape env sr w cnsDta (step env sr w op) := by
  cases op with
  | job => simp [Op.isReceive] at hop
  | check => simp [Op.isReceive] at hop
  | recvBodyAndHeader m => exact ⟨m, receivedBlockBodyAndHeader_shape env sr w m⟩
  | recvBody m => exact ⟨m, receivedBlockBody_shape env sr w m⟩
  | recvHeader m => exact ⟨m, receivedBlockHeader_shape env sr w m⟩

/-- The outcomes of the core of `processReceivedBlock`: nothing done, or one
call to `ProcessBlock` followed by the metric, with the consensus state as it
was, or with the round canceled, or with the job of the sender done. -/
theorem processReceivedBlockCore_outcome (env : Env) (sr : Subround) (w : World)
    (cnsDta : Message) (header : Header) (body : BodyHandler) :
    processReceivedBlockCore env sr w cnsDta header body = (false, w) ∨
    ∃ (b : Bool) (cs1 : ConsensusState),
      processReceivedBlockCore env sr w cnsDta header body
        = (b, computeSubroundProcessingMetric sr Metric.processedProposedBlock
            { afterProcessBlock env w header body with cs := cs1 }) ∧
      (cs1 = w.cs ∨ cs1 = { w.cs with roundCanceled := true } ∨
        setJobDone w.cs cnsDta.pubKey sr.current true = some cs1) := by
  by_cases h : w.cs.extendedCalled = true ∨ cnsDta.roundIndex < w.roundIndex
  · exact Or.inl (processReceivedBlockCore_of_abort env sr w cnsDta header body h)
  · have h1 : w.cs.extendedCalled = false := by
      cases he : w.cs.extendedCalled with
      | false => rfl
      | true => exact absurd (Or.inl he) h
    have h2 : ¬ cnsDta.roundIndex < w.roundIndex := fun hlt => h (Or.inr hlt)
    rw [processReceivedBlockCore_of_run env sr w cnsDta header body h1 h2]
    right
    split_ifs
    · exact ⟨false, w.cs, rfl, Or.inl rfl⟩
    · exact ⟨false, _, rfl, Or.inr (Or.inl rfl)⟩
    · cases hj : setJobDone w.cs cnsDta.pubKey sr.current true with
      | none => exact ⟨false, w.cs, rfl, Or.inl rfl⟩
      | some cs1 => exact ⟨true, cs1, rfl, Or.inr (Or.inr rfl)⟩

@[simp] theorem processBlockCalls_metric (sr : Subround) (m : Metric) (w : World) :
    processBlockCalls (computeSubroundProcessingMetric sr m w).trace
      = processBlockCalls w.trace := by
  unfold computeSubroundProcessingMetric processBlockCalls
  split
  · rfl
  · simp [Event.isProcessBlock]

/-- The core of `processReceivedBlock` calls `ProcessBlock` at most once and
never resets `roundCanceled`. -/
theorem processReceivedBlockCore_calls (env : Env) (sr : Subround) (w : World)
    (cnsDta : Message) (header : Header) (body : BodyHandler) :
    processBlockCalls (processReceivedBlockCore env sr w cnsDta header body).2.trace
      ≤ processBlockCalls w.trace + 1 ∧
    (w.cs.roundCanceled = true →
      (processReceivedBlockCore env sr w cnsDta header body).2.cs.roundCanceled = true) := by
  rcases processReceivedBlockCore_outcome env sr w cnsDta header body with h | ⟨b, cs1, h, hcs⟩
  · rw [h]
    exact ⟨Nat.le_succ _, fun hrc => hrc⟩
  · rw [h]
    refine ⟨?_, ?_⟩
    · rw [processBlockCalls_metric]
      simp [processBlockCalls, afterProcessBlock, Event.isProcessBlock]
    · intro hrc
      rw [computeSubroundProcessingMetric_cs]
      rcases hcs with hcs | hcs | hcs
      · rw [hcs]
        exact hrc
      · rw [hcs]
      · rw [(setJobDone_some _ _ _ _ _ hcs).2]
        exact hrc

/-- `processReceivedBlock` calls `ProcessBlock` at most once, never resets
`roundCanceled`, leaves the `processingBlock` flag cleared when a body and a
header are present, and does nothing otherwise. -/
theorem processReceivedBlock_calls (env : Env) (sr : Subround) (w : World) (cnsDta : Message) :
    processBlockCalls (processReceivedBlock env sr w cnsDta).2.trace
      ≤ processBlockCalls w.trace + 1 ∧
    (w.cs.roundCanceled = true →
      (processReceivedBlock env sr w cnsDta).2.cs.roundCanceled = true) ∧
    (processReceivedBlock env sr w cnsDta = (false, w) ∨
      (w.cs.body.isSome = true ∧ w.cs.header.isSome = true ∧
        (processReceivedBlock env sr w cnsDta).2.cs.processingBlock = false)) := by
  cases hb : w.cs.body with
  | none =>
    rw [processReceivedBlock_of_missing env sr w cnsDta (Or.inl hb)]
    exact ⟨Nat.le_succ _, fun h => h, Or.inl rfl⟩
  | some body =>
    cases hh : w.cs.header with
    | none =>
      rw [processReceivedBlock_of_missing env sr w cnsDta (Or.inr hh)]
      exact ⟨Nat.le_succ _, fun h => h, Or.inl rfl⟩
    | some header =>
      rw [processReceivedBlock_eq env sr w cnsDta body header hb hh]
      obtain ⟨h1, h2⟩ :=
        processReceivedBlockCore_calls env sr (setProcessingBlock w true) cnsDta header body
      exact ⟨h1, h2, Or.inr ⟨rfl, rfl, rfl⟩⟩

/-- A receive callback never resets `roundCanceled`, leaves `processingBlock`
cleared if it was, calls `ProcessBlock` at most once, and, when it returns true
or has called `ProcessBlock`, leaves a body and a header in the state. -/
theorem RecvShape.facts {env : Env} {sr : Subround} {w : World} {cnsDta : Message}
    {r : Bool × World} (h : RecvShape env sr w cnsDta r) :
    (w.cs.roundCanceled = true → r.2.cs.roundCanceled = true) ∧
    (w.cs.processingBlock = false → r.2.cs.processingBlock = false) ∧
    processBlockCalls r.2.trace ≤ processBlockCalls w.trace + 1 ∧
    ((r.1 = true ∨ processBlockCalls r.2.trace ≠ processBlockCalls w.trace) →
      r.2.cs.body.isSome = true ∧ r.2.cs.header.isSome = true) := by
  rcases h with h | ⟨w1, hf, ht, h | h⟩
  · rw [h]
    exact ⟨fun x => x, fun x => x, Nat.le_succ _, fun x => by simp at x⟩
  · rw [h]
    obtain ⟨_, _, _, _, f5, _, f7⟩ := hf
    refine ⟨fun x => f5.trans x, fun x => f7.trans x, ?_, ?_⟩
    · show processBlockCalls w1.trace ≤ _
      rw [ht]
      exact Nat.le_succ _
    · intro x
      rcases x with x | x
      · simp at x
      · exact absurd (by show processBlockCalls w1.trace = _; rw [ht]) x
  · rw [h]
    obtain ⟨_, _, _, _, f5, _, f7⟩ := hf
    obtain ⟨c1, c2, c3⟩ := processReceivedBlock_calls env sr w1 cnsDta
    obtain ⟨_, _, fb, fh⟩ := processReceivedBlock_frame env sr w1 cnsDta
    rw [ht] at c1
    refine ⟨fun x => c2 (f5.trans x), ?_, c1, ?_⟩
    · intro x
      rcases c3 with c3 | ⟨_, _, c3⟩
      · rw [c3]
        exact f7.trans x
      · exact c3
    · intro x
      rcases c3 with c3 | ⟨hb, hh, _⟩
      · rw [c3] at x
        rcases x with x | x
        · simp at x
        · exact absurd (by show processBlockCalls w1.trace = _; rw [ht]) x
      · rw [fb, fh]
        exact ⟨hb, hh⟩

/-- Once a body and a header are present, every receive callback stops at a
guard. -/
theorem step_receive_of_block (env : Env) (sr : Subround) (w : World) (op : Op)
    (hop : op.isReceive = true) (hb : w.cs.body.isSome = true)
    (hh : w.cs.header.isSome = true) : step env sr w op = (false, w) := by
  cases op with
  | job => simp [Op.isReceive] at hop
  | check => simp [Op.isReceive] at hop
  | recvBodyAndHeader m => exact receivedBlockBodyAndHeader_of_slot env sr w m (Or.inr (Or.inl hb))
  | recvBody m => exact receivedBlockBody_of_body env sr w m hb
  | recvHeader m => exact receivedBlockHeader_of_header env sr w m hh

/-- Once a body and a header are present, a sequence of receive callbacks
changes nothing and none of them returns true. -/
theorem run_receive_of_block (env : Env) (sr : Subround) (w : World) (ops : List Op)
    (hops : ∀ op ∈ ops, op.isReceive = true) (hb : w.cs.body.isSome = true)
    (hh : w.cs.header.isSome = true) :
    run env sr w ops = w ∧ trueResults env sr w ops = 0 := by
  induction ops with
  | nil => exact ⟨rfl, rfl⟩
  | cons op rest ih =>
    have hs := step_receive_of_block env sr w op (hops op (List.mem_cons_self _ _)) hb hh
    obtain ⟨h1, h2⟩ := ih (fun o ho => hops o (List.mem_cons_of_mem _ ho))
    refine ⟨?_, ?_⟩
    · show run env sr (step env sr w op).2 rest = w
      rw [hs]
      exact h1
    · show (if (step env sr w op).1 then 1 else 0)
        + trueResults env sr (step env sr w op).2 rest = 0
      rw [hs]
      simpa using h2

/-- The monotone part of `RecvFrame`. -/
theorem RecvFrame.mono {sr : Subround} {w : World} {node : Bytes} {r : Bool × World}
    (hf : RecvFrame sr w node r) :
    (∀ n, w.cs.jobDone n sr.current = true → r.2.cs.jobDone n sr.current = true) ∧
    (w.cs.status sr.current = SubroundStatus.ssFinished →
      r.2.cs.status sr.current = SubroundStatus.ssFinished) := by
  obtain ⟨_, _, f3, _, _, f6⟩ := hf
  refine ⟨?_, fun h => by rw [f3]; exact h⟩
  intro n hn
  rcases f6 with ⟨_, hj⟩ | ⟨_, _, _, hj⟩
  · rw [hj]
    exact hn
  · rw [hj]
    simp [hn]

/-- A failed `sendBlockBodyAndHeader` leaves the consensus state as it was. -/
theorem sendBlockBodyAndHeader_false (env : Env) (sr : Subround) (w : World)
    (body : BodyHandler) (header : Header)
    (h : (sendBlockBodyAndHeader env sr w body header).1 = false) :
    (sendBlockBodyAndHeader env sr w body header).2.cs = w.cs := by
  unfold sendBlockBodyAndHeader at h ⊢
  cases hc : calculateHash env header with
  | none => rfl
  | some hh =>
    cases body with
    | otherBody raw => rfl
    | blockBody mbs =>
      simp only [hc] at h ⊢
      split at h
      · simp at h
      · rename_i hb
        simp only [hb]
        rfl

/-- On the split path, `sendBlock` is `sendBlockBody` followed, when it
succeeds, by `sendBlockHeader`. -/
theorem sendBlock_split (env : Env) (sr : Subround) (w : World)
    (body : BodyHandler) (header : Header)
    (hgate : couldBeSentTogether env body header = false) :
    sendBlock env sr w body header
      = if (sendBlockBody env sr w body).1 = true
        then sendBlockHeader env sr (sendBlockBody env sr w body).2 header
        else (false, (sendBlockBody env sr w body).2) := by
  unfold sendBlock
  simp only [hgate, Bool.false_eq_true, if_false]
  rcases hA : sendBlockBody env sr w body with ⟨b1, wA⟩
  rcases hB : sendBlockHeader env sr wA header with ⟨b2, wB⟩
  cases b1 <;> cases b2 <;> simp [hB]

/-- What a failed `sendBlock` leaves in the consensus state: nothing new, or, on
the split path after a body broadcast that succeeded, the body. -/
theorem sendBlock_false (env : Env) (sr : Subround) (w : World)
    (body : BodyHandler) (header : Header)
    (h : (sendBlock env sr w body header).1 = false) :
    (sendBlock env sr w body header).2.cs = w.cs ∨
    (couldBeSentTogether env body header = false ∧
      env.broadcast w.trace (bodyMessage sr w body) = true ∧
      (sendBlock env sr w body header).2.cs = { w.cs with body := some body }) := by
  cases hgate : couldBeSentTogether env body header with
  | true =>
    have he : sendBlock env sr w body header = sendBlockBodyAndHeader env sr w body header := by
      unfold sendBlock
      simp only [hgate, if_true]
    rw [he] at h ⊢
    exact Or.inl (sendBlockBodyAndHeader_false env sr w body header h)
  | false =>
    rw [sendBlock_split env sr w body header hgate] at h ⊢
    rcases sendBlockBody_eq env sr w body with ⟨hb, _⟩ | ⟨hb, _⟩ | ⟨hb, hbc⟩
    · rw [hb]
      exact Or.inl rfl
    · rw [hb]
      exact Or.inl rfl
    · rw [hb] at h ⊢
      simp only [if_true] at h ⊢
      refine Or.inr ⟨trivial, hbc, ?_⟩
      rcases sendBlockHeader_eq env sr
          { w.log (Event.broadcast (bodyMessage sr w body) true) with
            cs := { w.cs with body := some body } } header
        with ⟨hh, _⟩ | ⟨_, _, hh⟩ | ⟨_, _, hh⟩
      · rw [hh]
      · rw [hh]
        rfl
      · rw [hh] at h
        simp at h

/-- A `doBlockJob` that passes its preconditions, builds its block and fails to
send it ends with the state `sendBlock` left. -/
theorem doBlockJob_of_send_false (env : Env) (sr : Subround) (w : World)
    (header0 header : Header) (body : BodyHandler)
    (hl : isSelfLeaderInCurrentRound w.cs = true)
    (hr : ¬ w.roundIndex ≤ getRoundInLastCommittedBlock w.chain)
    (hj : isSelfJobDone w.cs sr.current = false)
    (hs : isSubroundFinished w.cs sr.current = false)
    (hc : createHeader env sr w = Except.ok header0)
    (hcb : env.createBlock w.trace header0 = some (header, body))
    (hsend : (sendBlock env sr (w.log (Event.createBlock header0 true)) body header).1 = false) :
    doBlockJob env sr w
      = (false, computeSubroundProcessingMetric sr Metric.createdProposedBlock
          (sendBlock env sr (w.log (Event.createBlock header0 true)) body header).2) := by
  unfold doBlockJob
  simp only [hl, hr, hj, hs, Bool.not_true, Bool.false_eq_true, if_false]
  unfold doBlockJobCore createBlock
  simp only [hc, hcb, hsend, Bool.not_false, if_true]

/-- A `doBlockJob` whose preconditions do not all hold does nothing. -/
theorem doBlockJob_of_not_pass (env : Env) (sr : Subround) (w : World)
    (h : jobPasses sr w = false) : doBlockJob env sr w = (false, w) := by
  unfold doBlockJob
  unfold jobPasses at h
  cases g1 : isSelfLeaderInCurrentRound w.cs with
  | false => simp
  | true =>
    by_cases g2 : w.roundIndex ≤ getRoundInLastCommittedBlock w.chain
    · simp [g2]
    · cases g3 : isSelfJobDone w.cs sr.current with
      | true => simp
      | false =>
        cases g4 : isSubroundFinished w.cs sr.current with
        | true => simp
        | false => simp [g1, g2, g3, g4] at h

/-- The conversion to `int64` keeps a round below 2^63. -/
theorem toInt64_of_lt (n : Nat) (h : n < 9223372036854775808) : toInt64 n = n := by
  unfold toInt64
  have h1 : n % 18446744073709551616 = n := Nat.mod_eq_of_lt (by omega)
  rw [h1, if_pos h]

/-- The shapes of the trace `sendBlock` leaves on the split path, and the short
circuit after a failed body broadcast, up to `doBlockJob`. -/
theorem sendBlock_split_shapes (env : Env) (sr : Subround) (w : World)
    (body : BodyHandler) (header : Header)
    (hgate : couldBeSentTogether env body header = false) :
    (∃ evs, (sendBlock env sr w body header).2.trace = w.trace ++ evs ∧
      ((evs = [] ∧ (sendBlock env sr w body header).1 = false) ∨
       (evs = [Event.broadcast (bodyMessage sr w body) false] ∧
         (sendBlock env sr w body header).1 = false) ∨
       (evs = [Event.broadcast (bodyMessage sr w body) true] ∧
         (sendBlock env sr w body header).1 = false) ∨
       (∃ hh ok, calculateHash env header = some hh ∧
         evs = [Event.broadcast (bodyMessage sr w body) true,
                Event.broadcast (headerMessage sr w hh header) ok] ∧
         (sendBlock env sr w body header).1 = ok))) ∧
    (env.broadcast w.trace (bodyMessage sr w body) = false →
      (sendBlock env sr w body header).1 = false ∧
      (sendBlock env sr w body header).2.cs = w.cs ∧
      ((sendBlock env sr w body header).2.trace = w.trace ∨
       (sendBlock env sr w body header).2.trace
         = w.trace ++ [Event.broadcast (bodyMessage sr w body) false])) ∧
    (∀ (w0 : World) (header0 : Header),
      isSelfLeaderInCurrentRound w0.cs = true →
      ¬ w0.roundIndex ≤ getRoundInLastCommittedBlock w0.chain →
      w0.cs.jobDone w0.cs.selfPubKey sr.current = false →
      w0.cs.status sr.current ≠ SubroundStatus.ssFinished →
      createHeader env sr w0 = Except.ok header0 →
      env.createBlock w0.trace header0 = some (header, body) →
      w = w0.log (Event.createBlock header0 true) →
      env.broadcast w.trace (bodyMessage sr w body) = false →
      (doBlockJob env sr w0).1 = false ∧
      (doBlockJob env sr w0).2.cs = w0.cs ∧
      (doBlockJob env sr w0).2.cs.jobDone w0.cs.selfPubKey sr.current = false ∧
      (doBlockJob env sr w0).2
        = computeSubroundProcessingMetric sr Metric.createdProposedBlock
            (sendBlock env sr w body header).2) := by
  have hshort : env.broadcast w.trace (bodyMessage sr w body) = false →
      (sendBlock env sr w body header).1 = false ∧
      (sendBlock env sr w body header).2.cs = w.cs ∧
      ((sendBlock env sr w body header).2.trace = w.trace ∨
       (sendBlock env sr w body header).2.trace
         = w.trace ++ [Event.broadcast (bodyMessage sr w body) false]) := by
    intro hb
    cases body with
    | otherBody raw => simp [sendBlock, hgate, sendBlockBody]
    | blockBody mbs =>
      rw [sendBlock_body_broadcast_fails env sr w mbs header hgate hb]
      simp
  refine ⟨?_, hshort, ?_⟩
  · have key : ∀ w1 : World,
        w1.trace = w.trace ++ [Event.broadcast (bodyMessage sr w body) true] →
        w1.roundIndex = w.roundIndex → w1.cs.selfPubKey = w.cs.selfPubKey →
        ∃ evs, (sendBlockHeader env sr w1 header).2.trace = w.trace ++ evs ∧
          ((evs = [Event.broadcast (bodyMessage sr w body) true] ∧
            (sendBlockHeader env sr w1 header).1 = false) ∨
           (∃ hh ok, calculateHash env header = some hh ∧
             evs = [Event.broadcast (bodyMessage sr w body) true,
                    Event.broadcast (headerMessage sr w hh header) ok] ∧
             (sendBlockHeader env sr w1 header).1 = ok)) := by
      intro w1 ht hr hk
      have hmsg : ∀ hh, headerMessage sr w1 hh header = headerMessage sr w hh header := by
        intro hh
        simp [headerMessage, hr, hk]
      rcases sendBlockHeader_eq env sr w1 header with ⟨hh, _⟩ | ⟨hv, hc, hh⟩ | ⟨hv, hc, hh⟩
      · exact ⟨_, by rw [hh, ht], Or.inl ⟨rfl, by rw [hh]⟩⟩
      · refine ⟨_, ?_, Or.inr ⟨hv, false, hc, rfl, by rw [hh]⟩⟩
        rw [hh]
        simp [ht, hmsg]
      · refine ⟨_, ?_, Or.inr ⟨hv, true, hc, rfl, by rw [hh]⟩⟩
        rw [hh]
        simp [ht, hmsg]
    have hsplit : sendBlock env sr w body header
        = if (sendBlockBody env sr w body).1 = true
          then sendBlockHeader env sr (sendBlockBody env sr w body).2 header
          else (false, (sendBlockBody env sr w body).2) := by
      unfold sendBlock
      simp only [hgate, Bool.false_eq_true, if_false]
      rcases hA : sendBlockBody env sr w body with ⟨b1, wA⟩
      rcases hB : sendBlockHeader env sr wA header with ⟨b2, wB⟩
      cases b1 <;> cases b2 <;> simp [hB]
    rw [hsplit]
    rcases sendBlockBody_eq env sr w body with ⟨hb, _⟩ | ⟨hb, _⟩ | ⟨hb, _⟩
    · exact ⟨[], by simp [hb], Or.inl ⟨rfl, by simp [hb]⟩⟩
    · exact ⟨_, by simp [hb], Or.inr (Or.inl ⟨rfl, by simp [hb]⟩)⟩
    · rw [hb]
      simp only [if_true]
      obtain ⟨evs, h1, h2⟩ := key
        { w.log (Event.broadcast (bodyMessage sr w body) true) with
          cs := { w.cs with body := some body } } rfl rfl rfl
      exact ⟨evs, h1, Or.inr (Or.inr h2)⟩
  · intro w0 header0 hl hr hj hs hc hcb hw hb
    obtain ⟨h1, h2, _⟩ := hshort hb
    have hd : doBlockJob env sr w0
        = (false, computeSubroundProcessingMetric sr Metric.createdProposedBlock
            (sendBlock env sr w body header).2) := by
      unfold doBlockJob
      simp only [hl, hr, isSelfJobDone, hj, isSubroundFinished, hs, Bool.not_true,
        Bool.false_eq_true, if_false, decide_False]
      unfold doBlockJobCore createBlock
      simp only [hc, hcb, ← hw, h1, Bool.not_false, if_true]
    rw [hd]
    have hcs : (computeSubroundProcessingMetric sr Metric.createdProposedBlock
        (sendBlock env sr w body header).2).cs = w0.cs := by
      rw [computeSubroundProcessingMetric_cs, h2, hw]
      rfl
    refine ⟨rfl, hcs, ?_, rfl⟩
    show (computeSubroundProcessingMetric sr Metric.createdProposedBlock
        (sendBlock env sr w body header).2).cs.jobDone w0.cs.selfPubKey sr.current = false
    rw [hcs, hj]

/-- With the header hash computed, `sendBlockHeader` broadcasts the header
message, and the outcome of the broadcast is its result. -/
theorem sendBlockHeader_result (env : Env) (sr : Subround) (w : World) (header : Header)
    (hh : Bytes) (hc : calculateHash env header = some hh) :
    (sendBlockHeader env sr w header).1 = env.broadcast w.trace (headerMessage sr w hh header) ∧
    (sendBlockHeader env sr w header).2.trace
      = w.trace ++ [Event.broadcast (headerMessage sr w hh header)
          (env.broadcast w.trace (headerMessage sr w hh header))] := by
  unfold sendBlockHeader
  simp only [hc]
  cases hb : env.broadcast w.trace (headerMessage sr w hh header) with
  | false => exact ⟨rfl, rfl⟩
  | true => exact ⟨rfl, rfl⟩

/-- What a failed `sendBlock` leaves in the `body` slot: the body, exactly when
the block went the split way, the body is a `block.Body` and its broadcast
succeeded; the consensus state as it was otherwise. -/
theorem sendBlock_false_cs (env : Env) (sr : Subround) (w : World)
    (body : BodyHandler) (header : Header)
    (h : (sendBlock env sr w body header).1 = false) :
    ((couldBeSentTogether env body header = false ∧ (∃ mbs, body = BodyHandler.blockBody mbs) ∧
        env.broadcast w.trace (bodyMessage sr w body) = true) →
      (sendBlock env sr w body header).2.cs = { w.cs with body := some body }) ∧
    (¬ (couldBeSentTogether env body header = false ∧
        (∃ mbs, body = BodyHandler.blockBody mbs) ∧
        env.broadcast w.trace (bodyMessage sr w body) = true) →
      (sendBlock env sr w body header).2.cs = w.cs) := by
  rcases sendBlock_false env sr w body header h with hcs | ⟨hg, hb, hcs⟩
  · refine ⟨?_, fun _ => hcs⟩
    rintro ⟨hg, ⟨mbs, hmbs⟩, hb⟩
    subst hmbs
    rw [sendBlock_split env sr w _ header hg] at h ⊢
    have hbody : sendBlockBody env sr w (BodyHandler.blockBody mbs)
        = (true, { w.log (Event.broadcast (bodyMessage sr w (BodyHandler.blockBody mbs)) true)
            with cs := { w.cs with body := some (BodyHandler.blockBody mbs) } }) := by
      unfold sendBlockBody
      simp [hb]
    rw [hbody, if_pos rfl] at h ⊢
    rcases sendBlockHeader_eq env sr
        { w.log (Event.broadcast (bodyMessage sr w (BodyHandler.blockBody mbs)) true) with
          cs := { w.cs with body := some (BodyHandler.blockBody mbs) } } header
      with ⟨hh, _⟩ | ⟨_, _, hh⟩ | ⟨_, _, hh⟩
    · rw [hh]
    · rw [hh]
      rfl
    · rw [hh] at h
      simp at h
  · refine ⟨fun _ => hcs, ?_⟩
    intro hn
    cases body with
    | otherBody raw =>
      rw [sendBlock_split env sr w _ header hg]
      rfl
    | blockBody mbs => exact absurd ⟨hg, ⟨mbs, rfl⟩, hb⟩ hn

/-- No invocation changes the consensus group or the key of this node. -/
theorem step_group_self (env : Env) (sr : Subround) (w : World) (op : Op) :
    (step env sr w op).2.cs.consensusGroup = w.cs.consensusGroup ∧
    (step env sr w op).2.cs.selfPubKey = w.cs.selfPubKey := by
  cases op with
  | job =>
    show (doBlockJob env sr w).2.cs.consensusGroup = w.cs.consensusGroup ∧
      (doBlockJob env sr w).2.cs.selfPubKey = w.cs.selfPubKey
    rcases doBlockJob_flags env sr w with hf | ⟨_, hf⟩
    · exact ⟨hf.1, hf.2.1⟩
    · exact ⟨hf.1, hf.2.1⟩
  | check =>
    show (doBlockConsensusCheck sr w).2.cs.consensusGroup = w.cs.consensusGroup ∧
      (doBlockConsensusCheck sr w).2.cs.selfPubKey = w.cs.selfPubKey
    rw [doBlockConsensusCheck_cases]
    split_ifs <;> exact ⟨rfl, rfl⟩
  | recvBodyAndHeader m =>
    obtain ⟨hf, _⟩ := receivedBlockBodyAndHeader_frame env sr w m
    exact ⟨hf.1, hf.2.1⟩
  | recvBody m =>
    obtain ⟨hf, _⟩ := receivedBlockBody_frame env sr w m
    exact ⟨hf.1, hf.2.1⟩
  | recvHeader m =>
    obtain ⟨hf, _⟩ := receivedBlockHeader_frame env sr w m
    exact ⟨hf.1, hf.2.1⟩

/-- A validator stays a validator through every invocation. -/
theorem step_validator (env : Env) (sr : Subround) (w : World) (op : Op)
    (h : isSelfLeaderInCurrentRound w.cs = false) :
    isSelfLeaderInCurrentRound (step env sr w op).2.cs = false := by
  obtain ⟨h1, h2⟩ := step_group_self env sr w op
  unfold isSelfLeaderInCurrentRound isNodeLeaderInCurrentRound getLeader at *
  rw [h1, h2]
  exact h

/-- On a validator the preconditions of `doBlockJob` do not hold. -/
theorem jobPasses_of_validator (sr : Subround) (w : World)
    (h : isSelfLeaderInCurrentRound w.cs = false) : jobPasses sr w = false := by
  simp [jobPasses, h]

/-- Once the job of this node is done the preconditions of `doBlockJob` do not
hold. -/
theorem jobPasses_of_selfJobDone (sr : Subround) (w : World)
    (h : isSelfJobDone w.cs sr.current = true) : jobPasses sr w = false := by
  simp [jobPasses, h]

/-- An invocation that is not a leader job passing its preconditions keeps every
slot that is not empty. -/
theorem step_slots_of_spare (env : Env) (sr : Subround) (w : World) (op : Op)
    (hop : op.isJob = true → jobPasses sr w = false) :
    (∀ v, w.cs.data = some v → (step env sr w op).2.cs.data = some v) ∧
    (∀ v, w.cs.body = some v → (step env sr w op).2.cs.body = some v) ∧
    (∀ v, w.cs.header = some v → (step env sr w op).2.cs.header = some v) := by
  cases op with
  | job =>
    show (∀ v, w.cs.data = some v → (doBlockJob env sr w).2.cs.data = some v) ∧
      (∀ v, w.cs.body = some v → (doBlockJob env sr w).2.cs.body = some v) ∧
      (∀ v, w.cs.header = some v → (doBlockJob env sr w).2.cs.header = some v)
    rw [doBlockJob_of_not_pass env sr w (hop rfl)]
    exact ⟨fun _ h => h, fun _ h => h, fun _ h => h⟩
  | check =>
    obtain ⟨s1, s2, s3, _⟩ := step_slots env sr w Op.check (Or.inl rfl)
    exact ⟨s1, s2, s3⟩
  | recvBodyAndHeader m =>
    obtain ⟨s1, s2, s3, _⟩ := step_slots env sr w (Op.recvBodyAndHeader m) (Or.inl rfl)
    exact ⟨s1, s2, s3⟩
  | recvBody m =>
    obtain ⟨s1, s2, s3, _⟩ := step_slots env sr w (Op.recvBody m) (Or.inl rfl)
    exact ⟨s1, s2, s3⟩
  | recvHeader m =>
    obtain ⟨s1, s2, s3, _⟩ := step_slots env sr w (Op.recvHeader m) (Or.inl rfl)
    exact ⟨s1, s2, s3⟩

/-- Running a sequence made of two parts is running the second part from where
the first part ends. -/
theorem run_append (env : Env) (sr : Subround) (w : World) (pre post : List Op) :
    run env sr w (pre ++ post) = run env sr (run env sr w pre) post := by
  induction pre generalizing w with
  | nil => rfl
  | cons op rest ih => exact ih (step env sr w op).2

/-- A validator stays a validator through every sequence of invocations. -/
theorem run_validator (env : Env) (sr : Subround) (w : World) (ops : List Op)
    (h : isSelfLeaderInCurrentRound w.cs = false) :
    isSelfLeaderInCurrentRound (run env sr w ops).cs = false := by
  induction ops generalizing w with
  | nil => exact h
  | cons op rest ih => exact ih (step env sr w op).2 (step_validator env sr w op h)

/-- From a world where a property holds that every invocation keeps and under
which the preconditions of `doBlockJob` fail, no leader job of a sequence passes
its preconditions, whatever the slot. -/
theorem jobsSpare_of_invariant (env : Env) (sr : Subround)
    (slotSet : ConsensusState → Bool) (Q : World → Prop)
    (hq : ∀ w, Q w → jobPasses sr w = false)
    (hs : ∀ w op, Q w → Q (step env sr w op).2)
    (w : World) (ops : List Op) (h : Q w) :
    jobsSpare env sr slotSet w ops = true := by
  induction ops generalizing w with
  | nil => rfl
  | cons op rest ih =>
    show ((!(op.isJob && jobPasses sr w) || !slotSet w.cs) &&
        jobsSpare env sr slotSet (step env sr w op).2 rest) = true
    rw [hq w h, ih (step env sr w op).2 (hs w op h)]
    simp

/-- A sequence without a leader job spares every slot. -/
theorem jobsSpare_of_no_job (env : Env) (sr : Subround)
    (slotSet : ConsensusState → Bool) (w : World) (ops : List Op)
    (h : ∀ op ∈ ops, op.isJob = false) :
    jobsSpare env sr slotSet w ops = true := by
  induction ops generalizing w with
  | nil => rfl
  | cons op rest ih =>
    show ((!(op.isJob && jobPasses sr w) || !slotSet w.cs) &&
        jobsSpare env sr slotSet (step env sr w op).2 rest) = true
    rw [h op (List.mem_cons_self _ _),
      ih (step env sr w op).2 (fun o ho => h o (List.mem_cons_of_mem _ ho))]
    simp

/-- A property of the consensus state that holds only while a slot is set, and
that every invocation other than a passing leader job keeps, is kept by a
sequence whose passing leader jobs find the slot empty. -/
theorem run_of_jobsSpare (env : Env) (sr : Subround) (slotSet : ConsensusState → Bool)
    (P : ConsensusState → Prop) (hset : ∀ cs, P cs → slotSet cs = true)
    (hstep : ∀ w op, (op.isJob = true → jobPasses sr w = false) → P w.cs →
      P (step env sr w op).2.cs)
    (w : World) (ops : List Op) (h : jobsSpare env sr slotSet w ops = true) (hp : P w.cs) :
    P (run env sr w ops).cs := by
  induction ops generalizing w with
  | nil => exact hp
  | cons op rest ih =>
    have h2 : ((!(op.isJob && jobPasses sr w) || !slotSet w.cs) &&
        jobsSpare env sr slotSet (step env sr w op).2 rest) = true := h
    rw [Bool.and_eq_true, hset w.cs hp] at h2
    have hop : op.isJob = true → jobPasses sr w = false := by
      intro hj
      have h3 := h2.1
      rw [hj] at h3
      simpa using h3
    exact ih (step env sr w op).2 h2.2 (hstep w op hop hp)

/-! ## The claims -/

/-- C1, evaluated at a body that marshals to 4294967196 bytes and a header that
marshals to 200 bytes: the sum of the two lengths, 4294967396, is above 996147,
yet `couldBeSentTogether` returns true and `sendBlock` takes the combined path,
because the sum is converted to 32 bits before it is compared. -/
theorem couldBeSentTogether_wraps_at_32_bits :
    hugeBodyEnv.marshalBody (BodyHandler.blockBody []) = some (List.replicate 4294967196 0) ∧
    hugeBodyEnv.marshalHeader zeroHeader = some (List.replicate 200 0) ∧
    ¬ ((List.replicate 4294967196 0).length + (List.replicate 200 0).length ≤ 996147) ∧
    couldBeSentTogether hugeBodyEnv (BodyHandler.blockBody []) zeroHeader = true ∧
    sendBlock hugeBodyEnv sampleSubround (freshWorld [[1]] [1] 5) (BodyHandler.blockBody [])
        zeroHeader
      = sendBlockBodyAndHeader hugeBodyEnv sampleSubround (freshWorld [[1]] [1] 5)
          (BodyHandler.blockBody []) zeroHeader := by
  have hb : hugeBodyEnv.marshalBody (BodyHandler.blockBody [])
      = some (List.replicate 4294967196 0) := rfl
  have hh : hugeBodyEnv.marshalHeader zeroHeader = some (List.replicate 200 0) := rfl
  have hgate : couldBeSentTogether hugeBodyEnv (BodyHandler.blockBody []) zeroHeader = true := by
    rw [couldBeSentTogether_eq hugeBodyEnv _ _ _ _ hb hh]
    simp only [List.length_replicate]
    decide
  refine ⟨hb, hh, ?_, hgate, ?_⟩
  · simp only [List.length_replicate]
    decide
  · unfold sendBlock
    rw [if_pos hgate]

/-- C2, refuted at a chain tip whose round is 2^63: the round index 5 is not
greater than the round of the last committed block, yet the guard of
`doBlockJob` compares it with that round converted to `int64`, which is
negative, so the job passes its preconditions, returns true and sets the job of
this node done. -/
theorem doBlockJob_runs_below_wrapped_round :
    wrappedRoundWorld.chain.currentBlockHeader
      = some { zeroHeader with round := 9223372036854775808 } ∧
    wrappedRoundWorld.roundIndex ≤ ((9223372036854775808 : Nat) : Int) ∧
    getRoundInLastCommittedBlock wrappedRoundWorld.chain = -9223372036854775808 ∧
    (doBlockJob sampleEnv sampleSubround wrappedRoundWorld).1 = true ∧
    (doBlockJob sampleEnv sampleSubround wrappedRoundWorld).2.cs.jobDone [1]
      sampleSubround.current = true := by
  refine ⟨rfl, ?_, ?_, ?_, ?_⟩ <;> decide

/-- C2, amended: when one of the four preconditions of the leader job fails (this
node is not the leader, the round index is not above the round of the last
committed block converted to `int64`, taken as 0 when there is none, the job of
this node is done, or the subround is finished), `doBlockJob` returns false and
leaves the whole world as it was: the consensus state, and the trace of calls to
the block processor, the broadcast messenger and the metrics sink. For a last
committed block whose round is below 2^63 the conversion changes nothing: a
round index not above that round is enough. -/
theorem doBlockJob_precondition_failure (env : Env) (sr : Subround) (w : World)
    (h : isSelfLeaderInCurrentRound w.cs = false ∨
      w.roundIndex ≤
        (match w.chain.currentBlockHeader with
          | none => 0
          | some tip => toInt64 tip.round) ∨
      w.cs.jobDone w.cs.selfPubKey sr.current = true ∨
      w.cs.status sr.current = SubroundStatus.ssFinished) :
    doBlockJob env sr w = (false, w) ∧
    (∀ tip, w.chain.currentBlockHeader = some tip → tip.round < 9223372036854775808 →
      toInt64 tip.round = (tip.round : Int)) := by
  refine ⟨?_, fun tip _ hlt => toInt64_of_lt tip.round hlt⟩
  apply doBlockJob_of_not_pass
  unfold jobPasses
  rcases h with h | h | h | h
  · simp [h]
  · have h2 : w.roundIndex ≤ getRoundInLastCommittedBlock w.chain := h
    simp [h2]
  · simp [isSelfJobDone, h]
  · simp [isSubroundFinished, h]

theorem doBlockJob_precondition_failure_witness :
    (freshWorld [[1], [2]] [1] 0).roundIndex
      ≤ (match (freshWorld [[1], [2]] [1] 0).chain.currentBlockHeader with
          | none => (0 : Int)
          | some tip => toInt64 tip.round) ∧
    isSelfLeaderInCurrentRound (freshWorld [[1], [2]] [1] 0).cs = true ∧
    doBlockJob sampleEnv sampleSubround (freshWorld [[1], [2]] [1] 0)
      = (false, freshWorld [[1], [2]] [1] 0) :=
  ⟨by decide, by decide,
    (doBlockJob_precondition_failure sampleEnv sampleSubround (freshWorld [[1], [2]] [1] 0)
      (Or.inr (Or.inl (by decide)))).1⟩

/-- C3: whenever `doBlockJob` returns true, on the combined path and on the split
path alike, the final consensus state holds the final header and the body that
the block processor's `CreateBlock` returned for the header `createHeader` built,
`data` is the hash of that final header's marshaled bytes, and the job of this
node in the subround is done. -/
theorem doBlockJob_true_postcondition (env : Env) (sr : Subround) (w : World)
    (h : (doBlockJob env sr w).1 = true) :
    ∃ header0 header body mh,
      createHeader env sr w = Except.ok header0 ∧
      env.createBlock w.trace header0 = some (header, body) ∧
      env.marshalHeader header = some mh ∧
      (doBlockJob env sr w).2.cs.header = some header ∧
      (doBlockJob env sr w).2.cs.body = some body ∧
      (doBlockJob env sr w).2.cs.data = some (env.hash mh) ∧
      (doBlockJob env sr w).2.cs.jobDone w.cs.selfPubKey sr.current = true := by
  obtain ⟨heq, _, _, _, _⟩ := doBlockJob_pass env sr w h
  rw [heq] at h ⊢
  obtain ⟨header0, header, body, mh, h0, h1, h2, hcs⟩ := doBlockJobCore_true env sr w h
  refine ⟨header0, header, body, mh, h0, h1, h2, ?_⟩
  simp [hcs]

theorem doBlockJob_true_postcondition_witness :
    (doBlockJob sampleEnv sampleSubround (freshWorld [[1], [2]] [1] 5)).1 = true ∧
    ∃ header0 header body mh,
      createHeader sampleEnv sampleSubround (freshWorld [[1], [2]] [1] 5) = Except.ok header0 ∧
      sampleEnv.createBlock (freshWorld [[1], [2]] [1] 5).trace header0 = some (header, body) ∧
      sampleEnv.marshalHeader header = some mh ∧
      (doBlockJob sampleEnv sampleSubround (freshWorld [[1], [2]] [1] 5)).2.cs.header
        = some header ∧
      (doBlockJob sampleEnv sampleSubround (freshWorld [[1], [2]] [1] 5)).2.cs.body
        = some body ∧
      (doBlockJob sampleEnv sampleSubround (freshWorld [[1], [2]] [1] 5)).2.cs.data
        = some (sampleEnv.hash mh) ∧
      (doBlockJob sampleEnv sampleSubround (freshWorld [[1], [2]] [1] 5)).2.cs.jobDone
        (freshWorld [[1], [2]] [1] 5).cs.selfPubKey sampleSubround.current = true :=
  ⟨by decide,
    doBlockJob_true_postcondition sampleEnv sampleSubround (freshWorld [[1], [2]] [1] 5)
      (by decide)⟩

/-- C4: for a body and a header that fail the size gate, `sendBlock` broadcasts
the body-only message first and the header-only message second. A body that is
not a `block.Body` stops it before any broadcast. Otherwise it broadcasts the
body message: if that fails, the failed body broadcast is the only call added
and the result is false; if it succeeds, the body is stored and, unless the
header hash cannot be computed, the header message is broadcast next, on the
trace that now ends with the body broadcast, and the outcome of that second
broadcast is the result. Hence the calls added are, in this order, at most the
body broadcast and the header broadcast; and when the body broadcast fails a
`doBlockJob` that reached it returns false with the consensus state, hence
`jobDone[self, Block]` = false, as it was. -/
theorem sendBlock_split_order (env : Env) (sr : Subround) (w : World)
    (body : BodyHandler) (header : Header)
    (hgate : couldBeSentTogether env body header = false) :
    (∀ raw, body = BodyHandler.otherBody raw → sendBlock env sr w body header = (false, w)) ∧
    (∀ mbs, body = BodyHandler.blockBody mbs →
      env.broadcast w.trace (bodyMessage sr w body) = false →
      sendBlock env sr w body header
        = (false, w.log (Event.broadcast (bodyMessage sr w body) false))) ∧
    (∀ mbs, body = BodyHandler.blockBody mbs →
      env.broadcast w.trace (bodyMessage sr w body) = true →
      calculateHash env header = none →
      sendBlock env sr w body header
        = (false, { w.log (Event.broadcast (bodyMessage sr w body) true) with
            cs := { w.cs with body := some body } })) ∧
    (∀ mbs hh, body = BodyHandler.blockBody mbs →
      env.broadcast w.trace (bodyMessage sr w body) = true →
      calculateHash env header = some hh →
      (sendBlock env sr w body header).1
        = env.broadcast (w.trace ++ [Event.broadcast (bodyMessage sr w body) true])
            (headerMessage sr w hh header) ∧
      (sendBlock env sr w body header).2.trace
        = w.trace ++ [Event.broadcast (bodyMessage sr w body) true,
            Event.broadcast (headerMessage sr w hh header)
              (env.broadcast (w.trace ++ [Event.broadcast (bodyMessage sr w body) true])
                (headerMessage sr w hh header))]) ∧
    (∃ evs, (sendBlock env sr w body header).2.trace = w.trace ++ evs ∧
      ((evs = [] ∧ (sendBlock env sr w body header).1 = false) ∨
       (evs = [Event.broadcast (bodyMessage sr w body) false] ∧
         (sendBlock env sr w body header).1 = false) ∨
       (evs = [Event.broadcast (bodyMessage sr w body) true] ∧
         (sendBlock env sr w body header).1 = false) ∨
       (∃ hh ok, calculateHash env header = some hh ∧
         evs = [Event.broadcast (bodyMessage sr w body) true,
                Event.broadcast (headerMessage sr w hh header) ok] ∧
         (sendBlock env sr w body header).1 = ok))) ∧
    (env.broadcast w.trace (bodyMessage sr w body) = false →
      (sendBlock env sr w body header).1 = false ∧
      (sendBlock env sr w body header).2.cs = w.cs ∧
      ((sendBlock env sr w body header).2.trace = w.trace ∨
       (sendBlock env sr w body header).2.trace
         = w.trace ++ [Event.broadcast (bodyMessage sr w body) false])) ∧
    (∀ (w0 : World) (header0 : Header),
      isSelfLeaderInCurrentRound w0.cs = true →
      ¬ w0.roundIndex ≤ getRoundInLastCommittedBlock w0.chain →
      w0.cs.jobDone w0.cs.selfPubKey sr.current = false →
      w0.cs.status sr.current ≠ SubroundStatus.ssFinished →
      createHeader env sr w0 = Except.ok header0 →
      env.createBlock w0.trace header0 = some (header, body) →
      w = w0.log (Event.createBlock header0 true) →
      env.broadcast w.trace (bodyMessage sr w body) = false →
      (doBlockJob env sr w0).1 = false ∧
      (doBlockJob env sr w0).2.cs = w0.cs ∧
      (doBlockJob env sr w0).2.cs.jobDone w0.cs.selfPubKey sr.current = false ∧
      (doBlockJob env sr w0).2
        = computeSubroundProcessingMetric sr Metric.createdProposedBlock
            (sendBlock env sr w body header).2) := by
  have hsplit := sendBlock_split env sr w body header hgate
  refine ⟨?_, ?_, ?_, ?_, sendBlock_split_shapes env sr w body header hgate⟩
  · intro raw hraw
    subst hraw
    rw [hsplit]
    rfl
  · intro mbs hmbs hb
    subst hmbs
    exact sendBlock_body_broadcast_fails env sr w mbs header hgate hb
  · intro mbs hmbs hb hc
    subst hmbs
    rw [hsplit]
    simp [sendBlockBody, sendBlockHeader, hb, hc]
  · intro mbs hh hmbs hb hc
    subst hmbs
    have hbody : sendBlockBody env sr w (BodyHandler.blockBody mbs)
        = (true, { w.log (Event.broadcast (bodyMessage sr w (BodyHandler.blockBody mbs)) true)
            with cs := { w.cs with body := some (BodyHandler.blockBody mbs) } }) := by
      unfold sendBlockBody
      simp [hb]
    rw [hsplit, hbody, if_pos rfl]
    obtain ⟨h1, h2⟩ := sendBlockHeader_result env sr
      { w.log (Event.broadcast (bodyMessage sr w (BodyHandler.blockBody mbs)) true) with
        cs := { w.cs with body := some (BodyHandler.blockBody mbs) } } header hh hc
    refine ⟨h1, h2.trans ?_⟩
    exact List.append_assoc w.trace _ _

theorem sendBlock_split_order_witness :
    couldBeSentTogether bodyMarshalFailsEnv (BodyHandler.blockBody [3]) zeroHeader = false ∧
    (sendBlock bodyMarshalFailsEnv sampleSubround (freshWorld [[1], [2]] [1] 5)
      (BodyHandler.blockBody [3]) zeroHeader).1 = true ∧
    (sendBlock bodyMarshalFailsEnv sampleSubround (freshWorld [[1], [2]] [1] 5)
      (BodyHandler.blockBody [3]) zeroHeader).2.trace
      = (freshWorld [[1], [2]] [1] 5).trace ++
          [Event.broadcast
            (bodyMessage sampleSubround (freshWorld [[1], [2]] [1] 5)
              (BodyHandler.blockBody [3])) true,
           Event.broadcast
            (headerMessage sampleSubround (freshWorld [[1], [2]] [1] 5) [0] zeroHeader)
            true] :=
  ⟨by decide,
    (sendBlock_split_order bodyMarshalFailsEnv sampleSubround (freshWorld [[1], [2]] [1] 5)
      (BodyHandler.blockBody [3]) zeroHeader (by decide)).2.2.2.1 [3] [0] rfl rfl rfl⟩

/-- C5, evaluated at a marshalizer that fails on every body while every
broadcast succeeds: the `Marshal` call on the body made by `couldBeSentTogether`
reports an error, which only sends `sendBlock` to the split path, where the body
is broadcast without being marshaled again; `doBlockJob` passes its
preconditions, returns true and sets `jobDone[self, Block]`. -/
theorem doBlockJob_true_despite_body_marshal_error :
    (∀ body, bodyMarshalFailsEnv.marshalBody body = none) ∧
    isSelfLeaderInCurrentRound (freshWorld [[1], [2]] [1] 5).cs = true ∧
    getRoundInLastCommittedBlock (freshWorld [[1], [2]] [1] 5).chain
      < (freshWorld [[1], [2]] [1] 5).roundIndex ∧
    (freshWorld [[1], [2]] [1] 5).cs.jobDone [1] sampleSubround.current = false ∧
    (freshWorld [[1], [2]] [1] 5).cs.status sampleSubround.current
      = SubroundStatus.ssNotFinished ∧
    (doBlockJob bodyMarshalFailsEnv sampleSubround (freshWorld [[1], [2]] [1] 5)).1 = true ∧
    (doBlockJob bodyMarshalFailsEnv sampleSubround (freshWorld [[1], [2]] [1] 5)).2.cs.jobDone
      [1] sampleSubround.current = true := by
  refine ⟨fun _ => rfl, ?_, ?_, ?_, ?_, ?_, ?_⟩ <;> decide

/-- C6, refuted for `doBlockJob`: with a broadcast messenger that delivers the
body message and fails on the header message, a first `doBlockJob` from a fresh
leader state leaves the body of the block it created in the `body` slot and
returns false; the next `doBlockJob` assigns the slot again, with the body of
the block it creates in turn. -/
theorem doBlockJob_assigns_body_twice :
    (freshWorld [[1], [2]] [1] 5).cs.body = none ∧
    (run headerBroadcastFailsEnv sampleSubround (freshWorld [[1], [2]] [1] 5)
      [Op.job]).cs.body = some (BodyHandler.blockBody [0]) ∧
    (run headerBroadcastFailsEnv sampleSubround (freshWorld [[1], [2]] [1] 5)
      [Op.job, Op.job]).cs.body = some (BodyHandler.blockBody [4]) := by
  refine ⟨rfl, ?_, ?_⟩ <;> decide

/-- C6, amended: in every sequence of `doBlockJob`, the three receive callbacks
and `doBlockConsensusCheck` within one round, each of `data`, `body` and
`header` that holds a value at some point of the sequence holds the same value
at every later point, unless a later `doBlockJob` of the sequence passes its
four preconditions while that slot is set.  No later `doBlockJob` does so on a
validator, nor once the job of this node is done (as it is once a `doBlockJob`
has returned true); and the receive callbacks and the check never assign a slot
that is set. -/
theorem slots_write_once (env : Env) (sr : Subround) (w : World) (pre post : List Op) :
    (jobsSpare env sr (fun cs => cs.data.isSome) (run env sr w pre) post = true →
      ∀ v, (run env sr w pre).cs.data = some v →
        (run env sr w (pre ++ post)).cs.data = some v) ∧
    (jobsSpare env sr (fun cs => cs.body.isSome) (run env sr w pre) post = true →
      ∀ v, (run env sr w pre).cs.body = some v →
        (run env sr w (pre ++ post)).cs.body = some v) ∧
    (jobsSpare env sr (fun cs => cs.header.isSome) (run env sr w pre) post = true →
      ∀ v, (run env sr w pre).cs.header = some v →
        (run env sr w (pre ++ post)).cs.header = some v) ∧
    (∀ slotSet : ConsensusState → Bool,
      (isSelfLeaderInCurrentRound w.cs = false ∨
        isSelfJobDone (run env sr w pre).cs sr.current = true ∨
        (∀ op ∈ post, op.isJob = false)) →
      jobsSpare env sr slotSet (run env sr w pre) post = true) := by
  refine ⟨?_, ?_, ?_, ?_⟩
  · intro h v hv
    rw [run_append]
    exact run_of_jobsSpare env sr (fun cs => cs.data.isSome) (fun cs => cs.data = some v)
      (fun cs hcs => by simp only [] at hcs; simp only [hcs, Option.isSome_some])
      (fun w1 op hop hp => (step_slots_of_spare env sr w1 op hop).1 v hp)
      (run env sr w pre) post h hv
  · intro h v hv
    rw [run_append]
    exact run_of_jobsSpare env sr (fun cs => cs.body.isSome) (fun cs => cs.body = some v)
      (fun cs hcs => by simp only [] at hcs; simp only [hcs, Option.isSome_some])
      (fun w1 op hop hp => (step_slots_of_spare env sr w1 op hop).2.1 v hp)
      (run env sr w pre) post h hv
  · intro h v hv
    rw [run_append]
    exact run_of_jobsSpare env sr (fun cs => cs.header.isSome) (fun cs => cs.header = some v)
      (fun cs hcs => by simp only [] at hcs; simp only [hcs, Option.isSome_some])
      (fun w1 op hop hp => (step_slots_of_spare env sr w1 op hop).2.2 v hp)
      (run env sr w pre) post h hv
  · intro slotSet h
    rcases h with h | h | h
    · exact jobsSpare_of_invariant env sr slotSet
        (fun w1 => isSelfLeaderInCurrentRound w1.cs = false)
        (fun w1 h1 => jobPasses_of_validator sr w1 h1)
        (fun w1 op h1 => step_validator env sr w1 op h1) (run env sr w pre) post
        (run_validator env sr w pre h)
    · exact jobsSpare_of_invariant env sr slotSet
        (fun w1 => isSelfJobDone w1.cs sr.current = true)
        (fun w1 h1 => jobPasses_of_selfJobDone sr w1 h1)
        (fun w1 op h1 => (step_slots env sr w1 op (Or.inr h1)).2.2.2 h1)
        (run env sr w pre) post h
    · exact jobsSpare_of_no_job env sr slotSet (run env sr w pre) post h

theorem slots_write_once_witness :
    (jobsSpare sampleEnv sampleSubround (fun cs => cs.body.isSome)
      (run sampleEnv sampleSubround (freshWorld [[1], [2]] [1] 5) [Op.job])
      [Op.job, Op.recvBody (leaderBodyMessage 5), Op.check] = true ∧
     (run sampleEnv sampleSubround (freshWorld [[1], [2]] [1] 5) [Op.job]).cs.body
      = some (BodyHandler.blockBody [0]) ∧
     (run sampleEnv sampleSubround (freshWorld [[1], [2]] [1] 5)
      ([Op.job] ++ [Op.job, Op.recvBody (leaderBodyMessage 5), Op.check])).cs.body
      = some (BodyHandler.blockBody [0])) ∧
    (isSelfLeaderInCurrentRound (freshWorld [[1], [2]] [2] 5).cs = false ∧
     (run sampleEnv sampleSubround (freshWorld [[1], [2]] [2] 5)
      [Op.job, Op.recvBody (leaderBodyMessage 5)]).cs.body
      = some (BodyHandler.blockBody [3]) ∧
     (run sampleEnv sampleSubround (freshWorld [[1], [2]] [2] 5)
      ([Op.job, Op.recvBody (leaderBodyMessage 5)] ++
        [Op.job, Op.recvBody (leaderBodyMessage 5), Op.job, Op.check])).cs.body
      = some (BodyHandler.blockBody [3])) :=
  ⟨⟨by decide, by decide,
      (slots_write_once sampleEnv sampleSubround (freshWorld [[1], [2]] [1] 5) [Op.job]
        [Op.job, Op.recvBody (leaderBodyMessage 5), Op.check]).2.1 (by decide)
        (BodyHandler.blockBody [0]) (by decide)⟩,
    ⟨by decide, by decide,
      (slots_write_once sampleEnv sampleSubround (freshWorld [[1], [2]] [2] 5)
        [Op.job, Op.recvBody (leaderBodyMessage 5)]
        [Op.job, Op.recvBody (leaderBodyMessage 5), Op.job, Op.check]).2.1
        ((slots_write_once sampleEnv sampleSubround (freshWorld [[1], [2]] [2] 5)
          [Op.job, Op.recvBody (leaderBodyMessage 5)]
          [Op.job, Op.recvBody (leaderBodyMessage 5), Op.job, Op.check]).2.2.2
          (fun cs => cs.body.isSome) (Or.inl (by decide)))
        (BodyHandler.blockBody [3]) (by decide)⟩⟩

/-- C7: on a message whose round index is below the current round index, each of
the three receive callbacks returns false and leaves the whole world as it was:
the consensus state, and the trace, so that the block processor is not invoked. -/
theorem late_message_dropped (env : Env) (sr : Subround) (w : World) (cnsDta : Message)
    (h : cnsDta.roundIndex < w.roundIndex) :
    receivedBlockBodyAndHeader env sr w cnsDta = (false, w) ∧
    receivedBlockBody env sr w cnsDta = (false, w) ∧
    receivedBlockHeader env sr w cnsDta = (false, w) := by
  have hadm : canProcessReceivedMessage w.cs cnsDta w.roundIndex sr.current = false :=
    canProcessReceivedMessage_round _ _ _ _ (ne_of_lt h)
  refine ⟨?_, ?_, ?_⟩
  · unfold receivedBlockBodyAndHeader
    simp [hadm]
  · unfold receivedBlockBody
    simp [hadm]
  · unfold receivedBlockHeader
    simp [hadm]

theorem late_message_dropped_witness :
    ((4 : Int) < (freshWorld [[1], [2]] [2] 5).roundIndex) ∧
    receivedBlockHeader sampleEnv sampleSubround (freshWorld [[1], [2]] [2] 5)
      ⟨some [9], none, none, some zeroHeader, [1], none,
        MessageType.mtBlockHeader, 4, [1], none, none, none⟩
      = (false, freshWorld [[1], [2]] [2] 5) :=
  ⟨by decide,
    (late_message_dropped sampleEnv sampleSubround (freshWorld [[1], [2]] [2] 5)
      ⟨some [9], none, none, some zeroHeader, [1], none,
        MessageType.mtBlockHeader, 4, [1], none, none, none⟩ (by decide)).2.2⟩

/-- C8: in every state reached from a fresh round state by a sequence of
`doBlockJob`, the three receive callbacks and `doBlockConsensusCheck`, with
threshold 1, whenever `doBlockConsensusCheck` returns true the state it leaves
has the subround finished and the job of the leader, element 0 of the consensus
group the round started with, done. -/
theorem doBlockConsensusCheck_sound (env : Env) (sr : Subround) (w0 : World) (ops : List Op)
    (hfresh : w0.cs.Fresh sr.current) (hth : sr.threshold sr.current = 1)
    (hcheck : (doBlockConsensusCheck sr (run env sr w0 ops)).1 = true) :
    (doBlockConsensusCheck sr (run env sr w0 ops)).2.cs.status sr.current
      = SubroundStatus.ssFinished ∧
    ∃ leader, getLeader w0.cs = some leader ∧
      (doBlockConsensusCheck sr (run env sr w0 ops)).2.cs.jobDone leader sr.current = true := by
  obtain ⟨hinv, hgroup⟩ := run_leaderInv env sr w0 ops hth (LeaderInv.of_fresh hfresh)
  obtain ⟨hinv2, _⟩ := step_leaderInv env sr (run env sr w0 ops) Op.check hth hinv
  have hlead : getLeader (run env sr w0 ops).cs = getLeader w0.cs := by
    unfold getLeader
    rw [hgroup]
  have hstep : (step env sr (run env sr w0 ops) Op.check)
      = doBlockConsensusCheck sr (run env sr w0 ops) := rfl
  rw [hstep] at hinv2
  obtain ⟨hfin, hg2⟩ := doBlockConsensusCheck_true sr (run env sr w0 ops) hcheck
  refine ⟨hfin, ?_⟩
  obtain ⟨leader, hl, hj⟩ := hinv2.2 hfin
  refine ⟨leader, ?_, hj⟩
  rw [← hlead, ← hl]
  unfold getLeader
  rw [hg2]

theorem doBlockConsensusCheck_sound_witness :
    (doBlockConsensusCheck sampleSubround
      (run sampleEnv sampleSubround (freshWorld [[1], [2]] [1] 5) [Op.job])).1 = true ∧
    (doBlockConsensusCheck sampleSubround
      (run sampleEnv sampleSubround (freshWorld [[1], [2]] [1] 5) [Op.job])).2.cs.status
        sampleSubround.current = SubroundStatus.ssFinished ∧
    ∃ leader, getLeader (freshWorld [[1], [2]] [1] 5).cs = some leader ∧
      (doBlockConsensusCheck sampleSubround
        (run sampleEnv sampleSubround (freshWorld [[1], [2]] [1] 5) [Op.job])).2.cs.jobDone
          leader sampleSubround.current = true :=
  ⟨by decide,
    doBlockConsensusCheck_sound sampleEnv sampleSubround (freshWorld [[1], [2]] [1] 5) [Op.job]
      ⟨fun _ => rfl, by decide, rfl, rfl, rfl⟩ rfl (by decide)⟩

/-- C9: `doBlockConsensusCheck` returns false with the world unchanged when the
round is canceled, even if the subround is already finished; otherwise true
with the world unchanged when the subround is finished; otherwise, with `n` the
number of members of the consensus group whose job is done, it returns true and
sets the status of the subround to finished, changing nothing else, when
`threshold ≤ n`, and returns false with the world unchanged when `n < threshold`. -/
theorem doBlockConsensusCheck_eq (sr : Subround) (w : World) :
    doBlockConsensusCheck sr w =
      if w.cs.roundCanceled = true then (false, w)
      else if w.cs.status sr.current = SubroundStatus.ssFinished then (true, w)
      else if sr.threshold sr.current ≤
          ((w.cs.consensusGroup.countP (fun node => w.cs.jobDone node sr.current) : Nat) : Int)
      then (true, { w with cs := { w.cs with
          status := fun s => if s = sr.current then SubroundStatus.ssFinished
                             else w.cs.status s } })
      else (false, w) :=
  doBlockConsensusCheck_cases sr w

/-- C10: for a header-only message of the round's leader, with a header hash and
a header, and passing the admission (so that its round index is the current
one), a second call of
`receivedBlockHeader` right after the first returns false and leaves the world
exactly as the first call left it. -/
theorem receivedBlockHeader_idempotent (env : Env) (sr : Subround) (w : World)
    (cnsDta : Message)
    (hleader : isNodeLeaderInCurrentRound w.cs cnsDta.pubKey = true)
    (hhash : cnsDta.blockHeaderHash.isSome = true)
    (hheader : cnsDta.header.isSome = true)
    (hadm : canProcessReceivedMessage w.cs cnsDta w.roundIndex sr.current = true) :
    receivedBlockHeader env sr (receivedBlockHeader env sr w cnsDta).2 cnsDta
      = (false, (receivedBlockHeader env sr w cnsDta).2) := by
  cases g1 : w.cs.data.isSome with
  | true => rw [receivedBlockHeader_of_data env sr w cnsDta g1,
      receivedBlockHeader_of_data env sr w cnsDta g1]
  | false =>
    cases g2 : w.cs.header.isSome with
    | true => rw [receivedBlockHeader_of_header env sr w cnsDta g2,
        receivedBlockHeader_of_header env sr w cnsDta g2]
    | false =>
      apply receivedBlockHeader_of_data
      have hfirst : receivedBlockHeader env sr w cnsDta
          = processReceivedBlock env sr
              { w with cs := { w.cs with
                  data := cnsDta.blockHeaderHash, header := cnsDta.header } } cnsDta := by
        obtain ⟨hv, hhv⟩ := Option.isSome_iff_exists.mp hhash
        obtain ⟨dv, hdv⟩ := Option.isSome_iff_exists.mp hheader
        unfold receivedBlockHeader
        simp [isConsensusDataSet, isHeaderAlreadyReceived, g1, g2, hleader, hadm, hhv, hdv]
      rw [hfirst, (processReceivedBlock_frame env sr _ cnsDta).2.1]
      exact hhash

theorem receivedBlockHeader_idempotent_witness :
    isNodeLeaderInCurrentRound (freshWorld [[1], [2]] [2] 5).cs [1] = true ∧
    receivedBlockHeader sampleEnv sampleSubround
      (receivedBlockHeader sampleEnv sampleSubround (freshWorld [[1], [2]] [2] 5)
        ⟨some [9], none, none, some zeroHeader, [1], none,
          MessageType.mtBlockHeader, 5, [1], none, none, none⟩).2
      ⟨some [9], none, none, some zeroHeader, [1], none,
        MessageType.mtBlockHeader, 5, [1], none, none, none⟩
      = (false, (receivedBlockHeader sampleEnv sampleSubround (freshWorld [[1], [2]] [2] 5)
        ⟨some [9], none, none, some zeroHeader, [1], none,
          MessageType.mtBlockHeader, 5, [1], none, none, none⟩).2) :=
  ⟨by decide,
    receivedBlockHeader_idempotent sampleEnv sampleSubround (freshWorld [[1], [2]] [2] 5)
      ⟨some [9], none, none, some zeroHeader, [1], none,
        MessageType.mtBlockHeader, 5, [1], none, none, none⟩
      (by decide) (by decide) (by decide) (by decide)⟩

/-- C11: with a body and a header present and `extendedCalled` set,
`processReceivedBlock` returns false and changes nothing but the
`processingBlock` flag, which it leaves cleared: the trace is as it was, so the
block processor's `ProcessBlock` is not invoked, and `jobDone` and
`roundCanceled` are unchanged. -/
theorem processReceivedBlock_extended (env : Env) (sr : Subround) (w : World)
    (cnsDta : Message) (body : BodyHandler) (header : Header)
    (hb : w.cs.body = some body) (hh : w.cs.header = some header)
    (he : w.cs.extendedCalled = true) :
    processReceivedBlock env sr w cnsDta = (false, setProcessingBlock w false) ∧
    (processReceivedBlock env sr w cnsDta).2.trace = w.trace ∧
    (processReceivedBlock env sr w cnsDta).2.cs.jobDone = w.cs.jobDone ∧
    (processReceivedBlock env sr w cnsDta).2.cs.roundCanceled = w.cs.roundCanceled := by
  have heq : processReceivedBlock env sr w cnsDta = (false, setProcessingBlock w false) := by
    rw [processReceivedBlock_eq env sr w cnsDta body header hb hh,
      processReceivedBlockCore_of_abort env sr (setProcessingBlock w true) cnsDta header body
        (Or.inl he)]
    rfl
  rw [heq]
  exact ⟨rfl, rfl, rfl, rfl⟩

theorem processReceivedBlock_extended_witness :
    (heldBlockWorld true 5).cs.extendedCalled = true ∧
    processReceivedBlock sampleEnv sampleSubround (heldBlockWorld true 5) (leaderHeaderMessage 5)
      = (false, setProcessingBlock (heldBlockWorld true 5) false) :=
  ⟨rfl,
    (processReceivedBlock_extended sampleEnv sampleSubround (heldBlockWorld true 5)
      (leaderHeaderMessage 5) (BodyHandler.blockBody [3]) zeroHeader rfl rfl rfl).1⟩

/-- C12: with a body and a header present, `extendedCalled` not set and the round
index of the message equal to the current round index before and after the
processing, if `ProcessBlock` returns an error then `processReceivedBlock`
returns false, sets `roundCanceled`, leaves `jobDone` as it was, and a
`doBlockConsensusCheck` that follows returns false. -/
theorem processReceivedBlock_processing_error (env : Env) (sr : Subround) (w : World)
    (cnsDta : Message) (body : BodyHandler) (header : Header)
    (hb : w.cs.body = some body) (hh : w.cs.header = some header)
    (he : w.cs.extendedCalled = false)
    (hbefore : cnsDta.roundIndex = w.roundIndex)
    (hafter : cnsDta.roundIndex = (env.processBlock w.trace header body).roundIndexAfter)
    (herr : (env.processBlock w.trace header body).ok = false) :
    (processReceivedBlock env sr w cnsDta).1 = false ∧
    (processReceivedBlock env sr w cnsDta).2.cs.roundCanceled = true ∧
    (processReceivedBlock env sr w cnsDta).2.cs.jobDone = w.cs.jobDone ∧
    (doBlockConsensusCheck sr (processReceivedBlock env sr w cnsDta).2).1 = false := by
  have h2 : ¬ cnsDta.roundIndex < (setProcessingBlock w true).roundIndex := by
    show ¬ cnsDta.roundIndex < w.roundIndex
    omega
  have h3 : ¬ cnsDta.roundIndex
      < (env.processBlock (setProcessingBlock w true).trace header body).roundIndexAfter := by
    show ¬ cnsDta.roundIndex < (env.processBlock w.trace header body).roundIndexAfter
    omega
  have herr2 : (env.processBlock (setProcessingBlock w true).trace header body).ok = false :=
    herr
  have hcore := processReceivedBlockCore_of_run env sr (setProcessingBlock w true) cnsDta
    header body he h2
  simp only [h3, herr2, if_false, if_true] at hcore
  have hrc : (processReceivedBlock env sr w cnsDta).2.cs.roundCanceled = true := by
    rw [processReceivedBlock_eq env sr w cnsDta body header hb hh, hcore]
    simp [setProcessingBlock]
  refine ⟨?_, hrc, ?_, ?_⟩
  · rw [processReceivedBlock_eq env sr w cnsDta body header hb hh, hcore]
  · rw [processReceivedBlock_eq env sr w cnsDta body header hb hh, hcore]
    simp [setProcessingBlock]
  · unfold doBlockConsensusCheck
    simp [hrc]

theorem processReceivedBlock_processing_error_witness :
    (processFailsEnv.processBlock (heldBlockWorld false 5).trace zeroHeader
      (BodyHandler.blockBody [3])).ok = false ∧
    (processReceivedBlock processFailsEnv sampleSubround (heldBlockWorld false 5)
      (leaderHeaderMessage 5)).2.cs.roundCanceled = true :=
  ⟨rfl,
    (processReceivedBlock_processing_error processFailsEnv sampleSubround
      (heldBlockWorld false 5) (leaderHeaderMessage 5) (BodyHandler.blockBody [3]) zeroHeader
      rfl rfl rfl rfl rfl rfl).2.1⟩

/-- C13: from a fresh round state on a validator, for a block of the leader
(a header hash, a body and a header, carried by a combined, a body-only and a
header-only message of the same sender, each passing the admission in the fresh
state), the three deliveries (a) body then header, (b) header then body, (c)
combined, then body, then header, end in the same world: the state in which the
three slots hold the block and `processReceivedBlock` has run once on it. The
final `data`, `body`, `header`, `jobDone` and `roundCanceled` are therefore the
same, for every block processor. -/
theorem delivery_order_independent (env : Env) (sr : Subround) (w0 : World)
    (mBH mB mH : Message) (hash : Bytes) (body : BodyHandler) (header : Header)
    (hfresh : w0.cs.Fresh sr.current)
    (hleader : isNodeLeaderInCurrentRound w0.cs mB.pubKey = true)
    (hkBH : mBH.pubKey = mB.pubKey) (hkH : mH.pubKey = mB.pubKey)
    (haBH : canProcessReceivedMessage w0.cs mBH w0.roundIndex sr.current = true)
    (haB : canProcessReceivedMessage w0.cs mB w0.roundIndex sr.current = true)
    (haH : canProcessReceivedMessage w0.cs mH w0.roundIndex sr.current = true)
    (hBH1 : mBH.blockHeaderHash = some hash) (hBH2 : mBH.body = some body)
    (hBH3 : mBH.header = some header) (hB : mB.body = some body)
    (hH1 : mH.blockHeaderHash = some hash) (hH2 : mH.header = some header) :
    run env sr w0 [Op.recvBody mB, Op.recvHeader mH]
      = (processReceivedBlock env sr
          { w0 with cs := { w0.cs with
              data := some hash, body := some body, header := some header } } mB).2 ∧
    run env sr w0 [Op.recvHeader mH, Op.recvBody mB]
      = run env sr w0 [Op.recvBody mB, Op.recvHeader mH] ∧
    run env sr w0 [Op.recvBodyAndHeader mBH, Op.recvBody mB, Op.recvHeader mH]
      = run env sr w0 [Op.recvBody mB, Op.recvHeader mH] := by
  obtain ⟨_, _, hd0, hb0, hh0⟩ := hfresh
  have hrB := canProcessReceivedMessage_true _ _ _ _ haB
  have hrH := canProcessReceivedMessage_true _ _ _ _ haH
  have hrBH := canProcessReceivedMessage_true _ _ _ _ haBH
  have hlH : isNodeLeaderInCurrentRound w0.cs mH.pubKey = true := by rw [hkH]; exact hleader
  have hlBH : isNodeLeaderInCurrentRound w0.cs mBH.pubKey = true := by rw [hkBH]; exact hleader
  -- (a) body, then header
  have a1 : receivedBlockBody env sr w0 mB
      = (false, { w0 with cs := { w0.cs with body := some body } }) :=
    (receivedBlockBody_pass env sr w0 mB body hb0 hleader haB hB).trans
      (processReceivedBlock_of_missing env sr _ mB (Or.inr hh0))
  have a2 : receivedBlockHeader env sr { w0 with cs := { w0.cs with body := some body } } mH
      = processReceivedBlock env sr
          { w0 with cs := { w0.cs with
              data := some hash, body := some body, header := some header } } mH :=
    receivedBlockHeader_pass env sr { w0 with cs := { w0.cs with body := some body } } mH
      hash header hd0 hh0 hlH haH hH1 hH2
  have ha : run env sr w0 [Op.recvBody mB, Op.recvHeader mH]
      = (processReceivedBlock env sr
          { w0 with cs := { w0.cs with
              data := some hash, body := some body, header := some header } } mB).2 := by
    show (receivedBlockHeader env sr (receivedBlockBody env sr w0 mB).2 mH).2 = _
    rw [a1]
    show (receivedBlockHeader env sr { w0 with cs := { w0.cs with body := some body } } mH).2
      = _
    rw [a2, processReceivedBlock_congr env sr _ mH mB hkH (hrH.trans hrB.symm)]
  -- (b) header, then body
  have b1 : receivedBlockHeader env sr w0 mH
      = (false, { w0 with cs := { w0.cs with data := some hash, header := some header } }) :=
    (receivedBlockHeader_pass env sr w0 mH hash header hd0 hh0 hlH haH hH1 hH2).trans
      (processReceivedBlock_of_missing env sr _ mH (Or.inl hb0))
  have b2 : receivedBlockBody env sr
        { w0 with cs := { w0.cs with data := some hash, header := some header } } mB
      = processReceivedBlock env sr
          { w0 with cs := { w0.cs with
              data := some hash, body := some body, header := some header } } mB :=
    receivedBlockBody_pass env sr
      { w0 with cs := { w0.cs with data := some hash, header := some header } } mB
      body hb0 hleader haB hB
  have hb : run env sr w0 [Op.recvHeader mH, Op.recvBody mB]
      = (processReceivedBlock env sr
          { w0 with cs := { w0.cs with
              data := some hash, body := some body, header := some header } } mB).2 := by
    show (receivedBlockBody env sr (receivedBlockHeader env sr w0 mH).2 mB).2 = _
    rw [b1]
    show (receivedBlockBody env sr
      { w0 with cs := { w0.cs with data := some hash, header := some header } } mB).2 = _
    rw [b2]
  -- (c) combined, then body, then header
  have c1 : receivedBlockBodyAndHeader env sr w0 mBH
      = processReceivedBlock env sr
          { w0 with cs := { w0.cs with
              data := some hash, body := some body, header := some header } } mB :=
    (receivedBlockBodyAndHeader_pass env sr w0 mBH hash body header hd0 hb0 hh0 hlBH haBH
      hBH1 hBH2 hBH3).trans
      (processReceivedBlock_congr env sr _ mBH mB hkBH (hrBH.trans hrB.symm))
  have hc : run env sr w0 [Op.recvBodyAndHeader mBH, Op.recvBody mB, Op.recvHeader mH]
      = (processReceivedBlock env sr
          { w0 with cs := { w0.cs with
              data := some hash, body := some body, header := some header } } mB).2 := by
    show (receivedBlockHeader env sr
      (receivedBlockBody env sr (receivedBlockBodyAndHeader env sr w0 mBH).2 mB).2 mH).2 = _
    rw [c1]
    obtain ⟨_, fd, fb, _⟩ := processReceivedBlock_frame env sr
      { w0 with cs := { w0.cs with
          data := some hash, body := some body, header := some header } } mB
    rw [receivedBlockBody_of_body env sr _ mB (by rw [fb]; rfl),
      receivedBlockHeader_of_data env sr _ mH (by rw [fd]; rfl)]
  exact ⟨ha, hb.trans ha.symm, hc.trans ha.symm⟩

theorem delivery_order_independent_witness :
    isNodeLeaderInCurrentRound (freshWorld [[1], [2]] [2] 5).cs (leaderBodyMessage 5).pubKey
      = true ∧
    run sampleEnv sampleSubround (freshWorld [[1], [2]] [2] 5)
        [Op.recvHeader (leaderHeaderMessage 5), Op.recvBody (leaderBodyMessage 5)]
      = run sampleEnv sampleSubround (freshWorld [[1], [2]] [2] 5)
          [Op.recvBody (leaderBodyMessage 5), Op.recvHeader (leaderHeaderMessage 5)] :=
  ⟨by decide,
    (delivery_order_independent sampleEnv sampleSubround (freshWorld [[1], [2]] [2] 5)
      (leaderCombinedMessage 5) (leaderBodyMessage 5) (leaderHeaderMessage 5) [9]
      (BodyHandler.blockBody [3]) zeroHeader
      ⟨fun _ => rfl, by decide, rfl, rfl, rfl⟩ (by decide) rfl rfl (by decide) (by decide)
      (by decide) rfl rfl rfl rfl rfl rfl).2.1⟩

/-- C14, refuted at a chain tip whose nonce is 2^64 - 1: the signer succeeds and
`createHeader` returns a header whose nonce is 0, not the tip's nonce plus 1,
since the sum is taken in 64 bits. -/
theorem createHeader_nonce_wraps :
    maxNonceWorld.chain.currentBlockHeader
      = some { zeroHeader with nonce := 18446744073709551615 } ∧
    ∃ hdr, createHeader sampleEnv sampleSubround maxNonceWorld = Except.ok hdr ∧
      hdr.nonce = 0 ∧ hdr.nonce ≠ 18446744073709551615 + 1 :=
  ⟨rfl, _, rfl, by decide, by decide⟩

/-- C14, amended: `createHeader` returns a header exactly when the signer
succeeds on the previous random seed, and returns the signer's error otherwise.
The header has round = the round index converted to `uint64` (the round index
itself when it is not negative), timestamp = the round's start timestamp
converted to `uint64`, shardId = the shard of this node, chainId = the chain id
and randSeed = the signature of prevRandSeed. Without a current block header,
nonce = 1, prevHash = the genesis header hash and prevRandSeed = the genesis
header's random seed; otherwise nonce = the tip's nonce plus 1 modulo 2^64
(the tip's nonce plus 1 whenever that fits in 64 bits), prevHash = the current
block header hash and prevRandSeed = the tip's random seed. -/
theorem createHeader_fields (env : Env) (sr : Subround) (w : World) :
    (∀ hdr, createHeader env sr w = Except.ok hdr →
      hdr.round = toUint64 w.roundIndex ∧
      (0 ≤ w.roundIndex → w.roundIndex < 18446744073709551616 →
        (hdr.round : Int) = w.roundIndex) ∧
      hdr.timeStamp = toUint64 w.roundTimeStamp ∧
      (0 ≤ w.roundTimeStamp → w.roundTimeStamp < 18446744073709551616 →
        (hdr.timeStamp : Int) = w.roundTimeStamp) ∧
      hdr.shardId = sr.shardId ∧ hdr.chainID = sr.chainID ∧
      env.sign sr.privateKey hdr.prevRandSeed = Except.ok hdr.randSeed ∧
      (w.chain.currentBlockHeader = none →
        hdr.nonce = 1 ∧ hdr.prevHash = w.chain.genesisHeaderHash ∧
        hdr.prevRandSeed = w.chain.genesisHeader.randSeed) ∧
      (∀ tip, w.chain.currentBlockHeader = some tip →
        hdr.nonce = (tip.nonce + 1) % 18446744073709551616 ∧
        (tip.nonce + 1 < 18446744073709551616 → hdr.nonce = tip.nonce + 1) ∧
        hdr.prevHash = w.chain.currentBlockHeaderHash ∧
        hdr.prevRandSeed = tip.randSeed)) ∧
    (∀ randSeed,
      env.sign sr.privateKey
          (match w.chain.currentBlockHeader with
            | none => w.chain.genesisHeader.randSeed
            | some tip => tip.randSeed) = Except.ok randSeed →
      ∃ hdr, createHeader env sr w = Except.ok hdr ∧ hdr.randSeed = randSeed) ∧
    (∀ err,
      env.sign sr.privateKey
          (match w.chain.currentBlockHeader with
            | none => w.chain.genesisHeader.randSeed
            | some tip => tip.randSeed) = Except.error err →
      createHeader env sr w = Except.error err) := by
  have hu : ∀ x : Int, 0 ≤ x → x < 18446744073709551616 → ((toUint64 x : Nat) : Int) = x := by
    intro x h0 h1
    unfold toUint64
    omega
  refine ⟨?_, ?_, ?_⟩
  · intro hdr hok
    unfold createHeader at hok
    cases htip : w.chain.currentBlockHeader with
    | none =>
      simp only [htip] at hok
      cases hs : env.sign sr.privateKey w.chain.genesisHeader.randSeed with
      | error e => simp [hs] at hok
      | ok rs =>
        simp only [hs, Except.ok.injEq] at hok
        subst hok
        refine ⟨rfl, hu _, rfl, hu _, rfl, rfl, hs, fun _ => ⟨rfl, rfl, rfl⟩, ?_⟩
        intro tip ht
        simp at ht
    | some cur =>
      simp only [htip] at hok
      cases hs : env.sign sr.privateKey cur.randSeed with
      | error e => simp [hs] at hok
      | ok rs =>
        simp only [hs, Except.ok.injEq] at hok
        subst hok
        refine ⟨rfl, hu _, rfl, hu _, rfl, rfl, hs, fun h => by simp at h, ?_⟩
        intro tip ht
        obtain rfl : cur = tip := Option.some.inj ht
        exact ⟨rfl, fun hlt => Nat.mod_eq_of_lt hlt, rfl, rfl⟩
  · intro rs hs
    unfold createHeader
    cases htip : w.chain.currentBlockHeader with
    | none =>
      simp only [htip] at hs
      simp only [hs]
      exact ⟨_, rfl, rfl⟩
    | some cur =>
      simp only [htip] at hs
      simp only [hs]
      exact ⟨_, rfl, rfl⟩
  · intro err hs
    unfold createHeader
    cases htip : w.chain.currentBlockHeader with
    | none =>
      simp only [htip] at hs
      simp only [hs]
    | some cur =>
      simp only [htip] at hs
      simp only [hs]

/-- C15: the one message each send helper broadcasts, if it broadcasts at all.
`sendBlockBodyAndHeader` broadcasts (when the header hash can be computed and
the body is a `block.Body`) the message with headerHash = hash(marshal(header)),
the body, the header, the key of this node, type `MtBlockBodyAndHeader`, the
current round index and the chain id; `sendBlockBody` (when the body is a
`block.Body`) the message with the body, the key, type `MtBlockBody`, the round
index and the chain id, without header hash or header; `sendBlockHeader` (when
the header hash can be computed) the message with the header hash, the header,
the key, type `MtBlockHeader`, the round index and the chain id, without body.
The signature share, signature, bitmap, aggregated signature and leader
signature are empty in all three. -/
theorem send_message_shapes (env : Env) (sr : Subround) (w : World)
    (body : BodyHandler) (header : Header) :
    (((sendBlockBodyAndHeader env sr w body header).2.trace = w.trace ∧
        (env.marshalHeader header = none ∨ ∃ raw, body = BodyHandler.otherBody raw)) ∨
      ∃ mh ok, env.marshalHeader header = some mh ∧
        (sendBlockBodyAndHeader env sr w body header).2.trace = w.trace ++
          [Event.broadcast
            ⟨some (env.hash mh), none, some body, some header, w.cs.selfPubKey, none,
              MessageType.mtBlockBodyAndHeader, w.roundIndex, sr.chainID, none, none, none⟩
            ok]) ∧
    (((sendBlockBody env sr w body).2.trace = w.trace ∧
        ∃ raw, body = BodyHandler.otherBody raw) ∨
      ∃ ok, (sendBlockBody env sr w body).2.trace = w.trace ++
          [Event.broadcast
            ⟨none, none, some body, none, w.cs.selfPubKey, none,
              MessageType.mtBlockBody, w.roundIndex, sr.chainID, none, none, none⟩
            ok]) ∧
    (((sendBlockHeader env sr w header).2.trace = w.trace ∧
        env.marshalHeader header = none) ∨
      ∃ mh ok, env.marshalHeader header = some mh ∧
        (sendBlockHeader env sr w header).2.trace = w.trace ++
          [Event.broadcast
            ⟨some (env.hash mh), none, none, some header, w.cs.selfPubKey, none,
              MessageType.mtBlockHeader, w.roundIndex, sr.chainID, none, none, none⟩
            ok]) := by
  refine ⟨?_, ?_, ?_⟩
  · unfold sendBlockBodyAndHeader calculateHash
    cases hm : env.marshalHeader header with
    | none => exact Or.inl ⟨rfl, Or.inl rfl⟩
    | some mh =>
      cases body with
      | otherBody raw => exact Or.inl ⟨rfl, Or.inr ⟨raw, rfl⟩⟩
      | blockBody mbs =>
        refine Or.inr ⟨mh, ?_⟩
        simp only [Option.map_some', bodyAndHeaderMessage]
        split
        · exact ⟨true, trivial, rfl⟩
        · exact ⟨false, trivial, rfl⟩
  · rcases sendBlockBody_eq env sr w body with ⟨h, hr⟩ | ⟨h, _⟩ | ⟨h, _⟩
    · exact Or.inl ⟨by rw [h], hr⟩
    · exact Or.inr ⟨false, by rw [h]; rfl⟩
    · exact Or.inr ⟨true, by rw [h]; rfl⟩
  · unfold sendBlockHeader calculateHash
    cases hm : env.marshalHeader header with
    | none => exact Or.inl ⟨rfl, rfl⟩
    | some mh =>
      refine Or.inr ⟨mh, ?_⟩
      simp only [Option.map_some', headerMessage]
      split
      · exact ⟨true, trivial, rfl⟩
      · exact ⟨false, trivial, rfl⟩

/-- C16: no operation of the Block subround (`doBlockJob`, one of the three
receive callbacks or `doBlockConsensusCheck`, as one invocation `op`, or
`processReceivedBlock` itself) changes a `jobDone[node, Block]` from true to
false, the status of the subround away from finished, or `roundCanceled` from
true to false. -/
theorem flags_monotone (env : Env) (sr : Subround) (w : World) (op : Op) (cnsDta : Message) :
    ((∀ node, w.cs.jobDone node sr.current = true →
        (step env sr w op).2.cs.jobDone node sr.current = true) ∧
      (w.cs.status sr.current = SubroundStatus.ssFinished →
        (step env sr w op).2.cs.status sr.current = SubroundStatus.ssFinished) ∧
      (w.cs.roundCanceled = true → (step env sr w op).2.cs.roundCanceled = true)) ∧
    ((∀ node, w.cs.jobDone node sr.current = true →
        (processReceivedBlock env sr w cnsDta).2.cs.jobDone node sr.current = true) ∧
      (w.cs.status sr.current = SubroundStatus.ssFinished →
        (processReceivedBlock env sr w cnsDta).2.cs.status sr.current
          = SubroundStatus.ssFinished) ∧
      (w.cs.roundCanceled = true →
        (processReceivedBlock env sr w cnsDta).2.cs.roundCanceled = true)) := by
  refine ⟨?_, ?_⟩
  · cases op with
    | job =>
      show (∀ node, w.cs.jobDone node sr.current = true →
          (doBlockJob env sr w).2.cs.jobDone node sr.current = true) ∧
        (w.cs.status sr.current = SubroundStatus.ssFinished →
          (doBlockJob env sr w).2.cs.status sr.current = SubroundStatus.ssFinished) ∧
        (w.cs.roundCanceled = true → (doBlockJob env sr w).2.cs.roundCanceled = true)
      rcases doBlockJob_flags env sr w with hf | ⟨_, hf⟩
      · obtain ⟨_, _, f3, f4, f5, _, _⟩ := hf
        exact ⟨fun n hn => by rw [f3]; exact hn, fun h => by rw [f4]; exact h,
          fun h => f5.trans h⟩
      · obtain ⟨_, _, f3, f4, f5, _, _⟩ := hf
        refine ⟨fun n hn => ?_, fun h => by rw [f4]; exact h, fun h => f5.trans h⟩
        rw [f3]
        simp [hn]
    | check =>
      show (∀ node, w.cs.jobDone node sr.current = true →
          (doBlockConsensusCheck sr w).2.cs.jobDone node sr.current = true) ∧
        (w.cs.status sr.current = SubroundStatus.ssFinished →
          (doBlockConsensusCheck sr w).2.cs.status sr.current = SubroundStatus.ssFinished) ∧
        (w.cs.roundCanceled = true → (doBlockConsensusCheck sr w).2.cs.roundCanceled = true)
      rw [doBlockConsensusCheck_cases]
      split_ifs
      · exact ⟨fun _ h => h, fun h => h, fun h => h⟩
      · exact ⟨fun _ h => h, fun h => h, fun h => h⟩
      · exact ⟨fun _ h => h, fun _ => by simp, fun h => h⟩
      · exact ⟨fun _ h => h, fun h => h, fun h => h⟩
    | recvBodyAndHeader m =>
      obtain ⟨h1, h2⟩ := (receivedBlockBodyAndHeader_frame env sr w m).1.mono
      exact ⟨h1, h2, (receivedBlockBodyAndHeader_shape env sr w m).facts.1⟩
    | recvBody m =>
      obtain ⟨h1, h2⟩ := (receivedBlockBody_frame env sr w m).1.mono
      exact ⟨h1, h2, (receivedBlockBody_shape env sr w m).facts.1⟩
    | recvHeader m =>
      obtain ⟨h1, h2⟩ := (receivedBlockHeader_frame env sr w m).1.mono
      exact ⟨h1, h2, (receivedBlockHeader_shape env sr w m).facts.1⟩
  · obtain ⟨h1, h2⟩ := (processReceivedBlock_frame env sr w cnsDta).1.mono
    exact ⟨h1, h2, (processReceivedBlock_calls env sr w cnsDta).2.1⟩

/-- C17: the payload limit `maxAllowedSizeInBytes`, computed as
`uint32(MegabyteSize * 95 / 100)` with `MegabyteSize = 1 << 20`, is 996147. -/
theorem maxAllowedSizeInBytes_is_996147 :
    megabyteSize = 1 <<< 20 ∧ megabyteSize = 1048576 ∧
    maxAllowedSizeInBytes = toUint32 ((megabyteSize * 95 / 100 : Nat) : Int) ∧
    maxAllowedSizeInBytes = 996147 := by
  refine ⟨rfl, by decide, rfl, by decide⟩

/-- C18: in every sequence of the three receive callbacks, on arbitrary messages
and from any state (a fresh round state in particular), the block processor's
`ProcessBlock` is invoked at most once and at most one callback returns true. -/
theorem processBlock_at_most_once (env : Env) (sr : Subround) (w : World) (ops : List Op)
    (hops : ∀ op ∈ ops, op.isReceive = true) :
    processBlockCalls (run env sr w ops).trace ≤ processBlockCalls w.trace + 1 ∧
    trueResults env sr w ops ≤ 1 := by
  induction ops generalizing w with
  | nil => exact ⟨Nat.le_succ _, Nat.zero_le _⟩
  | cons op rest ih =>
    have hop := hops op (List.mem_cons_self _ _)
    have hrest : ∀ o ∈ rest, o.isReceive = true := fun o ho => hops o (List.mem_cons_of_mem _ ho)
    obtain ⟨m, hshape⟩ := step_receive_shape env sr w op hop
    obtain ⟨_, _, hle, hblock⟩ := hshape.facts
    show processBlockCalls (run env sr (step env sr w op).2 rest).trace
        ≤ processBlockCalls w.trace + 1 ∧
      (if (step env sr w op).1 then 1 else 0)
        + trueResults env sr (step env sr w op).2 rest ≤ 1
    by_cases htrig : (step env sr w op).1 = true ∨
        processBlockCalls (step env sr w op).2.trace ≠ processBlockCalls w.trace
    · obtain ⟨hb, hh⟩ := hblock htrig
      obtain ⟨h1, h2⟩ := run_receive_of_block env sr (step env sr w op).2 rest hrest hb hh
      rw [h1, h2]
      refine ⟨hle, ?_⟩
      split <;> simp
    · have hfalse : (step env sr w op).1 = false := by
        cases hr : (step env sr w op).1 with
        | false => rfl
        | true => exact absurd (Or.inl hr) htrig
      have hsame : processBlockCalls (step env sr w op).2.trace = processBlockCalls w.trace := by
        by_contra hne
        exact htrig (Or.inr hne)
      obtain ⟨h1, h2⟩ := ih (step env sr w op).2 hrest
      rw [hsame] at h1
      refine ⟨h1, ?_⟩
      rw [hfalse]
      simpa using h2

theorem processBlock_at_most_once_witness :
    (∀ op ∈ [Op.recvHeader (leaderHeaderMessage 5), Op.recvBody (leaderBodyMessage 5),
        Op.recvBodyAndHeader (leaderCombinedMessage 5)],
      op.isReceive = true) ∧
    trueResults sampleEnv sampleSubround (freshWorld [[1], [2]] [2] 5)
      [Op.recvHeader (leaderHeaderMessage 5), Op.recvBody (leaderBodyMessage 5),
        Op.recvBodyAndHeader (leaderCombinedMessage 5)] ≤ 1 :=
  ⟨by simp [Op.isReceive],
    (processBlock_at_most_once sampleEnv sampleSubround (freshWorld [[1], [2]] [2] 5)
      [Op.recvHeader (leaderHeaderMessage 5), Op.recvBody (leaderBodyMessage 5),
        Op.recvBodyAndHeader (leaderCombinedMessage 5)]
      (by simp [Op.isReceive])).2⟩

/-- C19: with a body and a header present, `processingBlock` is false when
`processReceivedBlock` returns, whatever the block processor does and whatever
the outcome (aborted, round advanced, processing error, `jobDone` write error,
success); hence after each receive callback `processingBlock` is false whenever
it was false before the call. -/
theorem processingBlock_cleared (env : Env) (sr : Subround) (w : World) (cnsDta : Message) :
    (∀ body header, w.cs.body = some body → w.cs.header = some header →
      (processReceivedBlock env sr w cnsDta).2.cs.processingBlock = false) ∧
    (w.cs.processingBlock = false →
      (receivedBlockBodyAndHeader env sr w cnsDta).2.cs.processingBlock = false ∧
      (receivedBlockBody env sr w cnsDta).2.cs.processingBlock = false ∧
      (receivedBlockHeader env sr w cnsDta).2.cs.processingBlock = false) := by
  refine ⟨?_, ?_⟩
  · intro body header hb hh
    rw [processReceivedBlock_eq env sr w cnsDta body header hb hh]
    rfl
  · intro h
    exact ⟨(receivedBlockBodyAndHeader_shape env sr w cnsDta).facts.2.1 h,
      (receivedBlockBody_shape env sr w cnsDta).facts.2.1 h,
      (receivedBlockHeader_shape env sr w cnsDta).facts.2.1 h⟩

/-- C20: when `processReceivedBlock` has invoked `ProcessBlock` (a body and a
header are present, `extendedCalled` is not set, the message is not of an
earlier round) and the round index of the message is below the round index the
clock shows after the call, `processReceivedBlock` returns false and leaves
`jobDone` and `roundCanceled` as they were, whether `ProcessBlock` succeeded or
returned an error; the call is the one entry it adds to the trace before the
metric. -/
theorem processReceivedBlock_round_advanced (env : Env) (sr : Subround) (w : World)
    (cnsDta : Message) (body : BodyHandler) (header : Header)
    (hb : w.cs.body = some body) (hh : w.cs.header = some header)
    (he : w.cs.extendedCalled = false)
    (hbefore : ¬ cnsDta.roundIndex < w.roundIndex)
    (hafter : cnsDta.roundIndex < (env.processBlock w.trace header body).roundIndexAfter) :
    (processReceivedBlock env sr w cnsDta).1 = false ∧
    (processReceivedBlock env sr w cnsDta).2.cs.jobDone = w.cs.jobDone ∧
    (processReceivedBlock env sr w cnsDta).2.cs.roundCanceled = w.cs.roundCanceled ∧
    (processReceivedBlock env sr w cnsDta).2.trace
      = (computeSubroundProcessingMetric sr Metric.processedProposedBlock
          (w.log (Event.processBlock header body
            (env.processBlock w.trace header body).ok))).trace := by
  have h3 : cnsDta.roundIndex
      < (env.processBlock (setProcessingBlock w true).trace header body).roundIndexAfter :=
    hafter
  have hcore := processReceivedBlockCore_of_run env sr (setProcessingBlock w true) cnsDta
    header body he hbefore
  simp only [h3, if_true] at hcore
  rw [processReceivedBlock_eq env sr w cnsDta body header hb hh, hcore]
  refine ⟨rfl, ?_, ?_, ?_⟩
  · simp [setProcessingBlock, afterProcessBlock]
  · simp [setProcessingBlock, afterProcessBlock]
  · unfold computeSubroundProcessingMetric
    split <;> rfl

theorem processReceivedBlock_round_advanced_witness :
    (leaderHeaderMessage 4).roundIndex
      < (sampleEnv.processBlock (heldBlockWorld false 4).trace zeroHeader
          (BodyHandler.blockBody [3])).roundIndexAfter ∧
    (processReceivedBlock sampleEnv sampleSubround (heldBlockWorld false 4)
      (leaderHeaderMessage 4)).1 = false :=
  ⟨by decide,
    (processReceivedBlock_round_advanced sampleEnv sampleSubround (heldBlockWorld false 4)
      (leaderHeaderMessage 4) (BodyHandler.blockBody [3]) zeroHeader rfl rfl rfl
      (by decide) (by decide)).1⟩

/-- C21, evaluated on a validator in a fresh round state: a header-only message
of the leader that carries a header but no header hash is rejected by
`receivedBlockHeader`, which has already stored the header; the body-only
message that follows is stored, finds a body and a header present, and
`receivedBlockBody` returns true and sets the job of the leader done while
`data`, the header hash, is still empty. -/
theorem receivedBlockBody_true_without_data :
    (freshWorld [[1], [2]] [2] 5).cs.data = none ∧
    (freshWorld [[1], [2]] [2] 5).cs.body = none ∧
    (freshWorld [[1], [2]] [2] 5).cs.header = none ∧
    (receivedBlockHeader sampleEnv sampleSubround (freshWorld [[1], [2]] [2] 5)
      (leaderHeaderMessageNoHash 5)).1 = false ∧
    (receivedBlockBody sampleEnv sampleSubround
      (receivedBlockHeader sampleEnv sampleSubround (freshWorld [[1], [2]] [2] 5)
        (leaderHeaderMessageNoHash 5)).2 (leaderBodyMessage 5)).1 = true ∧
    (receivedBlockBody sampleEnv sampleSubround
      (receivedBlockHeader sampleEnv sampleSubround (freshWorld [[1], [2]] [2] 5)
        (leaderHeaderMessageNoHash 5)).2 (leaderBodyMessage 5)).2.cs.jobDone [1]
          sampleSubround.current = true ∧
    (receivedBlockBody sampleEnv sampleSubround
      (receivedBlockHeader sampleEnv sampleSubround (freshWorld [[1], [2]] [2] 5)
        (leaderHeaderMessageNoHash 5)).2 (leaderBodyMessage 5)).2.cs.data = none ∧
    (receivedBlockBody sampleEnv sampleSubround
      (receivedBlockHeader sampleEnv sampleSubround (freshWorld [[1], [2]] [2] 5)
        (leaderHeaderMessageNoHash 5)).2 (leaderBodyMessage 5)).2.cs.body
          = some (BodyHandler.blockBody [3]) ∧
    (receivedBlockBody sampleEnv sampleSubround
      (receivedBlockHeader sampleEnv sampleSubround (freshWorld [[1], [2]] [2] 5)
        (leaderHeaderMessageNoHash 5)).2 (leaderBodyMessage 5)).2.cs.header
          = some zeroHeader := by
  refine ⟨rfl, rfl, rfl, ?_, ?_, ?_, ?_, ?_, ?_⟩ <;> decide

/-- C23, refuted on the split path: with a broadcast messenger that delivers the
body message and fails on the header message, a `doBlockJob` that passes its
preconditions from a fresh leader state sees `sendBlock` return false, returns
false itself, and yet leaves the body of the block it created in the `body`
slot, which was empty. -/
theorem failed_split_send_keeps_body :
    isSelfLeaderInCurrentRound (freshWorld [[1], [2]] [1] 5).cs = true ∧
    (freshWorld [[1], [2]] [1] 5).cs.body = none ∧
    ∃ header0 header body,
      createHeader headerBroadcastFailsEnv sampleSubround (freshWorld [[1], [2]] [1] 5)
        = Except.ok header0 ∧
      headerBroadcastFailsEnv.createBlock (freshWorld [[1], [2]] [1] 5).trace header0
        = some (header, body) ∧
      (sendBlock headerBroadcastFailsEnv sampleSubround
        ((freshWorld [[1], [2]] [1] 5).log (Event.createBlock header0 true))
        body header).1 = false ∧
      (doBlockJob headerBroadcastFailsEnv sampleSubround (freshWorld [[1], [2]] [1] 5)).1
        = false ∧
      (doBlockJob headerBroadcastFailsEnv sampleSubround
        (freshWorld [[1], [2]] [1] 5)).2.cs.body = some body :=
  ⟨by decide, rfl, _, _, _, rfl, rfl, by decide, by decide, by decide⟩

/-- C23, amended: when a `doBlockJob` that passes its preconditions sees
`sendBlock` return false, `data` and `header` keep the values they had. If the
block went the split way and the body, a `block.Body`, was broadcast with
success (so that it is the header send that failed), `body` holds the body that
was broadcast; in every other case `body` keeps its value too. -/
theorem failed_send_state (env : Env) (sr : Subround) (w : World)
    (header0 header : Header) (body : BodyHandler)
    (hl : isSelfLeaderInCurrentRound w.cs = true)
    (hr : ¬ w.roundIndex ≤ getRoundInLastCommittedBlock w.chain)
    (hj : isSelfJobDone w.cs sr.current = false)
    (hs : isSubroundFinished w.cs sr.current = false)
    (hc : createHeader env sr w = Except.ok header0)
    (hcb : env.createBlock w.trace header0 = some (header, body))
    (hsend : (sendBlock env sr (w.log (Event.createBlock header0 true)) body header).1 = false) :
    (doBlockJob env sr w).1 = false ∧
    (doBlockJob env sr w).2.cs.data = w.cs.data ∧
    (doBlockJob env sr w).2.cs.header = w.cs.header ∧
    ((couldBeSentTogether env body header = false ∧ (∃ mbs, body = BodyHandler.blockBody mbs) ∧
        env.broadcast (w.log (Event.createBlock header0 true)).trace
          (bodyMessage sr (w.log (Event.createBlock header0 true)) body) = true) →
      (doBlockJob env sr w).2.cs.body = some body) ∧
    (¬ (couldBeSentTogether env body header = false ∧
        (∃ mbs, body = BodyHandler.blockBody mbs) ∧
        env.broadcast (w.log (Event.createBlock header0 true)).trace
          (bodyMessage sr (w.log (Event.createBlock header0 true)) body) = true) →
      (doBlockJob env sr w).2.cs.body = w.cs.body) ∧
    ((doBlockJob env sr w).2.cs.body = w.cs.body ∨
      (couldBeSentTogether env body header = false ∧
        env.broadcast (w.log (Event.createBlock header0 true)).trace
          (bodyMessage sr (w.log (Event.createBlock header0 true)) body) = true ∧
        (doBlockJob env sr w).2.cs.body = some body)) := by
  obtain ⟨hyes, hno⟩ :=
    sendBlock_false_cs env sr (w.log (Event.createBlock header0 true)) body header hsend
  have hdata : (sendBlock env sr (w.log (Event.createBlock header0 true)) body header).2.cs.data
      = w.cs.data ∧
      (sendBlock env sr (w.log (Event.createBlock header0 true)) body header).2.cs.header
        = w.cs.header := by
    rcases sendBlock_false env sr (w.log (Event.createBlock header0 true)) body header hsend
      with h | ⟨_, _, h⟩ <;> rw [h] <;> exact ⟨rfl, rfl⟩
  rw [doBlockJob_of_send_false env sr w header0 header body hl hr hj hs hc hcb hsend]
  refine ⟨rfl, ?_, ?_, ?_, ?_, ?_⟩
  · show (computeSubroundProcessingMetric sr Metric.createdProposedBlock _).cs.data = _
    rw [computeSubroundProcessingMetric_cs]
    exact hdata.1
  · show (computeSubroundProcessingMetric sr Metric.createdProposedBlock _).cs.header = _
    rw [computeSubroundProcessingMetric_cs]
    exact hdata.2
  · intro hcond
    show (computeSubroundProcessingMetric sr Metric.createdProposedBlock _).cs.body = _
    rw [computeSubroundProcessingMetric_cs, hyes hcond]
  · intro hcond
    show (computeSubroundProcessingMetric sr Metric.createdProposedBlock _).cs.body = _
    rw [computeSubroundProcessingMetric_cs, hno hcond]
    rfl
  · show (computeSubroundProcessingMetric sr Metric.createdProposedBlock _).cs.body = _ ∨
      (_ ∧ _ ∧
        (computeSubroundProcessingMetric sr Metric.createdProposedBlock _).cs.body = _)
    rw [computeSubroundProcessingMetric_cs]
    rcases sendBlock_false env sr (w.log (Event.createBlock header0 true)) body header hsend
      with h | ⟨h1, h2, h3⟩
    · rw [h]
      exact Or.inl rfl
    · rw [h3]
      exact Or.inr ⟨h1, h2, rfl⟩

theorem failed_send_state_witness :
    isSelfLeaderInCurrentRound (freshWorld [[1], [2]] [1] 5).cs = true ∧
    (sendBlock headerBroadcastFailsEnv sampleSubround
      ((freshWorld [[1], [2]] [1] 5).log
        (Event.createBlock ⟨1, [7], [], [1], 5, 0, 1000, [1], []⟩ true))
      (BodyHandler.blockBody [0]) ⟨1, [7], [], [1], 5, 0, 1000, [1], []⟩).1 = false ∧
    (doBlockJob headerBroadcastFailsEnv sampleSubround
      (freshWorld [[1], [2]] [1] 5)).2.cs.body = some (BodyHandler.blockBody [0]) :=
  ⟨by decide, by decide,
    (failed_send_state headerBroadcastFailsEnv sampleSubround (freshWorld [[1], [2]] [1] 5)
      ⟨1, [7], [], [1], 5, 0, 1000, [1], []⟩ ⟨1, [7], [], [1], 5, 0, 1000, [1], []⟩
      (BodyHandler.blockBody [0])
      (by decide) (by decide) (by decide) (by decide) rfl rfl (by decide)).2.2.2.1
      ⟨by decide, ⟨[0], rfl⟩, by decide⟩⟩

end SubroundBlock

namespace AccountsIndexer

/-! ## Lemmas -/

/-- The loop of `GetAccounts` appends, to each of the two lists, what the
entries it visits give. -/
theorem getAccountsLoop_eq (ap : AccountsProcessor)
    (entries : List (String × AlteredAccount)) (egld : List UserAccount)
    (esdt : List WrappedUserAccount) :
    getAccountsLoop ap entries egld esdt
      = (egld ++ entries.filterMap (fun entry => resolveUserAccount ap entry.1),
          esdt ++ entries.filterMap (wrappedOfEntry ap)) := by
  induction entries generalizing egld esdt with
  | nil => simp [getAccountsLoop]
  | cons entry rest ih =>
    obtain ⟨address, info⟩ := entry
    unfold getAccountsLoop
    cases hd : ap.decode address with
    | none => simp [ih, resolveUserAccount, wrappedOfEntry, hd]
    | some addressBytes =>
      cases hl : ap.loadAccount addressBytes with
      | none => simp [ih, resolveUserAccount, wrappedOfEntry, hd, hl]
      | some account =>
        cases account with
        | otherAccount raw => simp [ih, resolveUserAccount, wrappedOfEntry, hd, hl]
        | userAccount userAccount =>
          cases ho : info.isESDTOperation <;> cases hs : info.isESDTSender <;>
            simp [ih, resolveUserAccount, wrappedOfEntry, hd, hl, ho]

/-- The method `GetAccounts`, as two filters over the entries. -/
theorem getAccounts_eq (ap : AccountsProcessor) (entries : List (String × AlteredAccount)) :
    getAccounts ap entries
      = (entries.filterMap (fun entry => resolveUserAccount ap entry.1),
          entries.filterMap (wrappedOfEntry ap)) := by
  unfold getAccounts
  rw [getAccountsLoop_eq]
  simp

/-- The error result of `getESDTInfo` is never set. -/
theorem getESDTInfo_error (ap : AccountsProcessor) (wrappedUserAccount : WrappedUserAccount) :
    (getESDTInfo ap wrappedUserAccount).2.2 = none := by
  unfold getESDTInfo
  split
  · rfl
  · dsimp only
    split
    · rfl
    · split <;> rfl

/-! ## The claims -/

/-- C22: `GetAccounts` returns, in the order the entries are visited, the user
account of every address that decodes and loads to a user account, once per
address and whatever the `IsESDTSender` flag, and, for the entries that are ESDT
operations, that account wrapped with the token identifier; an address that
fails to decode, to load or to cast gives nothing. Replacing the `IsESDTSender`
flags changes neither list, and visiting the entries in another order gives the
same lists up to a permutation. -/
theorem getAccounts_ignores_sender (ap : AccountsProcessor)
    (entries flipped : List (String × AlteredAccount))
    (sender : String × AlteredAccount → Bool)
    (hperm : flipped.Perm (entries.map (withSender sender))) :
    getAccounts ap entries
      = (entries.filterMap (fun entry => resolveUserAccount ap entry.1),
          entries.filterMap (fun entry =>
            if entry.2.isESDTOperation then
              (resolveUserAccount ap entry.1).map fun userAccount =>
                (⟨userAccount, entry.2.tokenIdentifier⟩ : WrappedUserAccount)
            else none)) ∧
    getAccounts ap (entries.map (withSender sender)) = getAccounts ap entries ∧
    (getAccounts ap flipped).1.Perm (getAccounts ap entries).1 ∧
    (getAccounts ap flipped).2.Perm (getAccounts ap entries).2 := by
  have hmap : getAccounts ap (entries.map (withSender sender)) = getAccounts ap entries := by
    rw [getAccounts_eq, getAccounts_eq, List.filterMap_map, List.filterMap_map]
    rfl
  refine ⟨getAccounts_eq ap entries, hmap, ?_, ?_⟩
  · rw [← hmap, getAccounts_eq, getAccounts_eq]
    exact hperm.filterMap _
  · rw [← hmap, getAccounts_eq, getAccounts_eq]
    exact hperm.filterMap _

theorem getAccounts_ignores_sender_witness :
    ([("a", (⟨true, true, "TKN"⟩ : AlteredAccount)), ("zz", ⟨false, true, "TKN"⟩),
        ("c", ⟨true, false, ""⟩), ("b", ⟨true, false, ""⟩)]).Perm
      ([("a", (⟨false, true, "TKN"⟩ : AlteredAccount)), ("zz", ⟨true, true, "TKN"⟩),
        ("c", ⟨false, false, ""⟩), ("b", ⟨false, false, ""⟩)].map
          (withSender fun entry => !entry.2.isESDTSender)) ∧
    (getAccounts sampleProcessor
      [("a", ⟨true, true, "TKN"⟩), ("zz", ⟨false, true, "TKN"⟩),
        ("c", ⟨true, false, ""⟩), ("b", ⟨true, false, ""⟩)]).1.Perm
      (getAccounts sampleProcessor
        [("a", ⟨false, true, "TKN"⟩), ("zz", ⟨true, true, "TKN"⟩),
          ("c", ⟨false, false, ""⟩), ("b", ⟨false, false, ""⟩)]).1 :=
  ⟨List.Perm.refl _,
    (getAccounts_ignores_sender sampleProcessor
      [("a", ⟨false, true, "TKN"⟩), ("zz", ⟨true, true, "TKN"⟩),
        ("c", ⟨false, false, ""⟩), ("b", ⟨false, false, ""⟩)]
      [("a", ⟨true, true, "TKN"⟩), ("zz", ⟨false, true, "TKN"⟩),
        ("c", ⟨true, false, ""⟩), ("b", ⟨true, false, ""⟩)]
      (fun entry => !entry.2.isESDTSender) (List.Perm.refl _)).2.2.1⟩

/-- C24, evaluated at accounts whose token information cannot be obtained (an
empty token identifier, a token key the data trie does not hold, a stored value
that fails to unmarshal): `getESDTInfo` returns a `nil` balance with a `nil`
error, on these accounts and on every other, so `PrepareAccountsMapESDT` never
takes its `continue` branch; it goes on to build the entry and stops in
`computeBalanceAsFloat`, which reads through the `nil` balance, instead of
returning the map without an entry for the account. -/
theorem prepareAccountsMapESDT_does_not_skip :
    (∀ ap wrappedUserAccount, (getESDTInfo ap wrappedUserAccount).2.2 = none) ∧
    getESDTInfo sampleProcessor ⟨sampleAccount 1, ""⟩ = (none, "", none) ∧
    getESDTInfo sampleProcessor ⟨sampleAccount 1, "TKN"⟩ = (none, "", none) ∧
    getESDTInfo sampleProcessor ⟨sampleAccountWithData 1, "TKN"⟩ = (none, "", none) ∧
    prepareAccountsMapESDT sampleProcessor [⟨sampleAccount 1, ""⟩]
      = Except.error Fault.nilPointerDereference ∧
    prepareAccountsMapESDT sampleProcessor [⟨sampleAccount 1, "TKN"⟩]
      = Except.error Fault.nilPointerDereference ∧
    prepareAccountsMapESDT sampleProcessor [⟨sampleAccountWithData 1, "TKN"⟩]
      = Except.error Fault.nilPointerDereference ∧
    prepareAccountsMapESDT sampleProcessor [] = Except.ok [] := by
  refine ⟨getESDTInfo_error, ?_, ?_, ?_, ?_, ?_, ?_, rfl⟩ <;>
    simp [prepareAccountsMapESDT, prepareAccountsMapESDTLoop, getESDTInfo, computeBalanceAsFloat,
      sampleProcessor, sampleAccount, sampleAccountWithData]

end AccountsIndexer
